import Mathlib

/-!
# CFD-Proxy halo exchange: one-sided variants

A shallow embedding of `src/exchange_data_gaspi.c` and `src/exchange_data_mpidma.c`
and of their callers in `src/solver.c` / `src/gradients.c`.

Conventions of the embedding

* Memory objects (the field array `double *data`, the GASPI segments, the MPI send
  buffer and receive window) are byte addressed: `Mem = Nat → Byte`.  A `double`
  occupies `szd = 8` consecutive bytes; `&p[n]` for `double *p` based at byte `b`
  is byte `b + 8 * n`.  The field array and the transport buffers are distinct
  objects, as in the program (segments come from `gaspi_segment_create`, the MPI
  buffers from `MPI_Alloc_mem` / `MPI_Win_allocate`).
* C `int` values (counts, indices, the stride, the stage counters) are natural
  numbers.  Index products (`dim2 * j`, `dim2 * sendindex[k][j]`) are taken as they
  stand: one that leaves the `int` range is out-of-range addressing, for which the
  program has no defined behaviour.  Products of `int` values that become a byte
  count handed to the library (`count * dim2` in `gaspi_size_t size = count * dim2 *
  szd`, `sendcount[k] * max_elem_sz` in the init functions) are computed as the
  machine does, in 32 bit two's complement with wrap-around, before they are widened
  (`int_mul`).  Where a `size_t` value is stored into an `int` (`int size`,
  `int ssz`) the conversion is modelled with its wrap-around (`int_of_size_t`).
* Arrays reached through `comm_data` are total functions (the pointers are valid,
  so the `!= NULL` assertions hold).
* Calls into the GASPI and MPI libraries are recorded in a trace and are taken to
  succeed; the results the code inspects (number of segments, notification id
  returned by a wait, value returned by a reset) are inputs of the model.
* A failed `ASSERT` (`error_handling.h`) terminates the process: every error is fatal.
-/

namespace CFDProxy

/-! ## Memory -/

/-- One byte of memory. -/
abbrev Byte := Fin 256

/-- A byte-addressed memory object. -/
abbrev Mem := Nat → Byte

/-- The C constant `sizeof(double)`. -/
def szd : Nat := 8

/-- The C library call `memcpy(dst + d, src + s, len)` between two distinct objects. -/
def memcpy (dst : Mem) (d : Nat) (src : Mem) (s : Nat) (len : Nat) : Mem :=
  fun a => if d ≤ a ∧ a < d + len then src (s + (a - d)) else dst a

/-- The eight bytes of the `double` stored at byte address `addr`. -/
def read_double (m : Mem) (addr : Nat) : List Byte :=
  (List.range szd).map fun b => m (addr + b)

/-- Conversion of an `int` to `size_t` (64 bit). -/
def size_t_of_int (x : Int) : Nat := (x % 18446744073709551616).toNat

/-- Conversion of a `size_t` to `int` (32 bit, two's complement). -/
def int_of_size_t (x : Nat) : Int :=
  if x % 4294967296 < 2147483648 then ((x % 4294967296 : Nat) : Int)
  else ((x % 4294967296 : Nat) : Int) - 4294967296

/-- The `int` product `a * b` of two non-negative `int` values as the machine computes
it: the mathematical product reduced to 32 bit two's complement. -/
def int_mul (a b : Nat) : Int := int_of_size_t (a * b)

/-! ## Communication topology (`comm_data`) -/

/-- The fields of `comm_data` the exchange layer reads and writes.  Arrays indexed by
partner rank `k` are functions of `k`; `commpartner` is indexed by list position. -/
structure comm_data where
  iProc : Nat
  ncommdomains : Nat
  commpartner : Nat → Nat
  sendcount : Nat → Nat
  recvcount : Nat → Nat
  sendindex : Nat → Nat → Nat
  recvindex : Nat → Nat → Nat
  remote_recv_offset : Nat → Nat
  local_send_offset : Nat → Nat
  local_recv_offset : Nat → Nat
  notification : Nat → Nat
  send_stage : Nat
  recv_stage : Nat

/-- Assertion argument of `MPI_Win_fence`. -/
inductive FenceMode where
  | noprecede
  | nosucceed_nostore
  | nostore
  deriving DecidableEq

/-- The actions of a process that are visible in its trace: library calls with their
arguments, the execution of a pack or unpack loop, and the stage increment. -/
inductive Event where
  | segment_create (segment_id : Nat) (size : Nat)
  | gaspi_pack (segment_id : Nat) (offset : Nat) (count : Nat)
  | write_notify (segment_id_local : Nat) (offset_local : Nat) (rank : Nat)
      (segment_id_remote : Nat) (offset_remote : Nat) (size : Nat)
      (notification_id : Nat) (notification_value : Nat) (queue : Nat)
  | notify_waitsome (segment_id : Nat) (notification_begin : Nat) (num : Nat)
  | notify_reset (segment_id : Nat) (notification_id : Nat)
  | gaspi_unpack (segment_id : Nat) (offset : Nat) (count : Nat)
  | alloc_mem (size : Int)
  | win_allocate (size : Int)
  | mpi_pack (offset : Nat) (count : Nat)
  | put (origin_offset : Nat) (origin_count : Int) (target_rank : Nat)
      (target_disp : Nat) (target_count : Int)
  | mpi_unpack (offset : Nat) (count : Nat)
  | win_fence (mode : FenceMode)
  | win_post
  | win_start
  | win_complete
  | win_wait
  | inc_stage
  deriving DecidableEq

/-- State of one process.
* `cd` is the `comm_data` object, `data` the field array passed to the exchange calls;
* `seg id` is the content of GASPI segment `id`, `segments` lists the segments that
  exist as `(id, size)` in creation order;
* `sndbuf`, `rcvbuf` are the file-scope buffers of `exchange_data_mpidma.c`;
* `notifications` are the notifications still to arrive, in arrival order, each as
  `(id returned by gaspi_notify_waitsome, value returned by gaspi_notify_reset)`;
* `trace` is the sequence of actions performed so far. -/
structure World where
  cd : comm_data
  data : Mem
  seg : Nat → Mem
  segments : List (Nat × Nat)
  sndbuf : Mem
  rcvbuf : Mem
  notifications : List (Nat × Nat)
  trace : List Event

/-- Result of running a piece of the program: it returns (`ok`), it terminates the
process through a failed `ASSERT` (`abort`), or it blocks for ever in a
`GASPI_BLOCK` wait for a notification that never arrives (`hang`).  Each carries
the state reached. -/
inductive Outcome where
  | ok (w : World)
  | abort (w : World)
  | hang (w : World)

/-- The state an outcome carries. -/
def Outcome.world : Outcome → World
  | .ok w => w
  | .abort w => w
  | .hang w => w

/-- Whether the code returned. -/
def Outcome.isOk : Outcome → Bool
  | .ok _ => true
  | _ => false

/-- Whether the code blocked for ever. -/
def Outcome.isHang : Outcome → Bool
  | .hang _ => true
  | _ => false

/-- Whether the process was terminated by a failed assertion. -/
def Outcome.isAbort : Outcome → Bool
  | .abort _ => true
  | _ => false

/-- Sequencing: the continuation runs only if the first part returned. -/
def Outcome.bind (o : Outcome) (f : World → Outcome) : Outcome :=
  match o with
  | .ok w => f w
  | .abort w => .abort w
  | .hang w => .hang w

/-- The loop `for (i = 0; i < n; i++) body(i)` for a body that may not return. -/
def for_loop (body : Nat → World → Outcome) (n : Nat) (w : World) : Outcome :=
  (List.range n).foldl (fun o i => o.bind (body i)) (.ok w)

/-- The loop `for (i = 0; i < n; i++) body(i)` for a body that always returns. -/
def for_each (body : Nat → World → World) (n : Nat) (w : World) : World :=
  (List.range n).foldl (fun s i => body i s) w

/-- Appends actions to the trace. -/
def World.emit (w : World) (es : List Event) : World :=
  { w with trace := w.trace ++ es }

/-- The result of `gaspi_segment_num`. -/
def gaspi_segment_num (w : World) : Nat := w.segments.length

/-- The call `gaspi_segment_create(id, size, ...)`. -/
def gaspi_segment_create (id size : Nat) (w : World) : World :=
  { w with segments := w.segments ++ [(id, size)]
           trace := w.trace ++ [Event.segment_create id size] }

/-! ## Thread roles -/

/-- A thread of the team: its index and the team size. -/
structure ThreadCtx where
  tid : Nat
  nthreads : Nat

/-- Modelled from the spec: `this_is_the_first_thread()` of `threads.h`, which is not
among the sources; the trigger of the unpack phase is the first thread of the team. -/
def this_is_the_first_thread (t : ThreadCtx) : Bool := t.tid == 0

/-- Modelled from the spec: `this_is_the_last_thread()` of `threads.h`, which is not
among the sources; the trigger of the send phase is the last thread of the team. -/
def this_is_the_last_thread (t : ThreadCtx) : Bool := t.tid + 1 == t.nthreads

/-! ## Pack and unpack loops -/

/-- The pack loop shared by `exchange_dbl_gaspi_write` and `exchange_dbl_mpidma_write`:
`for (j = 0; j < count; j++) memcpy(&sbuf[dim2*j], &data[dim2*sendindex[j]], dim2*sizeof(double))`
with `sbuf` based at byte `off` of `buf`. -/
def pack_loop (dim2 : Nat) (sendindex : Nat → Nat) (data : Mem) (off count : Nat)
    (buf : Mem) : Mem :=
  (List.range count).foldl
    (fun sb j =>
      let n1 := dim2 * j
      let n2 := dim2 * sendindex j
      memcpy sb (off + szd * n1) data (szd * n2) (dim2 * szd))
    buf

/-- The unpack loop shared by both `copy_out` functions:
`for (j = 0; j < recvcount; j++) memcpy(&data[dim2*recvindex[j]], &rbuf[dim2*j], dim2*sizeof(double))`
with `rbuf` based at byte `off` of `buf`. -/
def unpack_loop (dim2 : Nat) (recvindex : Nat → Nat) (buf : Mem) (off recvcount : Nat)
    (data : Mem) : Mem :=
  (List.range recvcount).foldl
    (fun d j =>
      let n1 := dim2 * j
      let n2 := dim2 * recvindex j
      memcpy d (szd * n2) buf (off + szd * n1) (dim2 * szd))
    data

/-! ## `exchange_data_gaspi.c` -/

/-- The byte totals `(rsz, ssz)` accumulated by the first loop of `init_gaspi_segments`
(`gaspi_size_t`, 64 bit unsigned): in `ssz += cd->sendcount[k] * max_elem_sz * szd` the
product `sendcount[k] * max_elem_sz` is an `int` product, which is widened to 64 bit and
multiplied by `szd`; sums and products of 64 bit values are taken modulo `2^64`. -/
def gaspi_segment_sizes (cd : comm_data) (max_elem_sz : Nat) : Nat × Nat :=
  (List.range cd.ncommdomains).foldl
    (fun acc i =>
      let k := cd.commpartner i
      ((acc.1 + size_t_of_int (int_mul (cd.recvcount k) max_elem_sz) * szd)
          % 18446744073709551616,
       (acc.2 + size_t_of_int (int_mul (cd.sendcount k) max_elem_sz) * szd)
          % 18446744073709551616))
    (0, 0)

/-- The function `init_gaspi_segments(cd, dim2)`; `NGRAD` is the constant of
`solver_data.h`. -/
def init_gaspi_segments (NGRAD : Nat) (dim2 : Int) (w : World) : Outcome :=
  let max_elem_sz := NGRAD * 3
  if dim2 ≠ (max_elem_sz : Int) then .abort w
  else if gaspi_segment_num w ≠ 0 then .abort w
  else
    let rsz := (gaspi_segment_sizes w.cd max_elem_sz).1
    let ssz := (gaspi_segment_sizes w.cd max_elem_sz).2
    .ok (for_each
      (fun j s => gaspi_segment_create (2 + j) rsz (gaspi_segment_create j ssz s)) 2 w)

/-- The value of `gaspi_size_t size = count * dim2 * szd` in `exchange_dbl_gaspi_write`:
`count * dim2` is an `int` product, which is widened to 64 bit and multiplied by `szd`
modulo `2^64`.  This is the value in every run that reaches the line with defined
addressing, that is, when `dim2` is an `int` and the largest index product
`dim2 * (count - 1)` of the pack loop before it is one; otherwise the product is left as
it stands, like the index products. -/
def gaspi_write_size (count dim2 : Nat) : Nat :=
  if dim2 < 2147483648 ∧ dim2 * (count - 1) < 2147483648 then
    (size_t_of_int (int_mul count dim2) * szd) % 18446744073709551616
  else count * dim2 * szd

/-- The function `exchange_dbl_gaspi_write(cd, data, dim2, buffer_id, i)`.  The
flow-control call `wait_for_queue_max_half` (`queue.h`) touches no program data and
leaves no action in the trace. -/
def exchange_dbl_gaspi_write (dim2 buffer_id i : Nat) (w : World) : World :=
  let k := w.cd.commpartner i
  let count := w.cd.sendcount k
  if 0 < count then
    let sbuf := pack_loop dim2 (w.cd.sendindex k) w.data (w.cd.local_send_offset k) count
      (w.seg buffer_id)
    let size := gaspi_write_size count dim2
    { w with
      seg := Function.update w.seg buffer_id sbuf
      trace := w.trace ++
        [Event.gaspi_pack buffer_id (w.cd.local_send_offset k) count,
         Event.write_notify buffer_id (w.cd.local_send_offset k) k (2 + buffer_id)
           (w.cd.remote_recv_offset k) size (w.cd.notification k) 1 0] }
  else w

/-- The function `exchange_dbl_gaspi_copy_out(recvcount, recvindex, local_recv_offset,
data, dim2, buffer_id)`. -/
def exchange_dbl_gaspi_copy_out (recvcount : Nat) (recvindex : Nat → Nat)
    (local_recv_offset : Nat) (dim2 buffer_id : Nat) (w : World) : World :=
  if 0 < recvcount then
    { w with
      data := unpack_loop dim2 recvindex (w.seg (2 + buffer_id)) local_recv_offset recvcount
        w.data
      trace := w.trace ++ [Event.gaspi_unpack (2 + buffer_id) local_recv_offset recvcount] }
  else w

/-- Body of the wait loop of `exchange_dbl_gaspi_bulk_sync` for list position `i`. -/
def gaspi_bulk_sync_wait (buffer_id i : Nat) (w : World) : Outcome :=
  let k := w.cd.commpartner i
  if 0 < w.cd.recvcount k then
    let test := i
    let w1 := w.emit [Event.notify_waitsome (2 + buffer_id) test 1]
    match w1.notifications with
    | [] => .hang w1
    | (id, value) :: rest =>
      let w2 := { w1 with notifications := rest }
      if id ≠ test then .abort w2
      else
        let w3 := w2.emit [Event.notify_reset (2 + buffer_id) id]
        if value ≠ 1 then .abort w3 else .ok w3
  else .ok w

/-- The statements `cd->send_stage++; cd->recv_stage++;`. -/
def inc_stage (w : World) : World :=
  { w with
    cd := { w.cd with send_stage := w.cd.send_stage + 1, recv_stage := w.cd.recv_stage + 1 }
    trace := w.trace ++ [Event.inc_stage] }

/-- The write loop of `exchange_dbl_gaspi_bulk_sync`. -/
def gaspi_write_all (dim2 buffer_id : Nat) (w : World) : World :=
  for_each (fun i s => exchange_dbl_gaspi_write dim2 buffer_id i s) w.cd.ncommdomains w

/-- The wait loop of `exchange_dbl_gaspi_bulk_sync`. -/
def gaspi_wait_all (buffer_id : Nat) (w : World) : Outcome :=
  for_loop (gaspi_bulk_sync_wait buffer_id) w.cd.ncommdomains w

/-- The unpack loop of `exchange_dbl_gaspi_bulk_sync`. -/
def gaspi_copy_out_all (dim2 buffer_id : Nat) (w : World) : World :=
  for_each
    (fun i s =>
      let k := s.cd.commpartner i
      exchange_dbl_gaspi_copy_out (s.cd.recvcount k) (s.cd.recvindex k)
        (s.cd.local_recv_offset k) dim2 buffer_id s)
    w.cd.ncommdomains w

/-- The function `exchange_dbl_gaspi_bulk_sync(cd, data, dim2)` as run by thread `t`. -/
def exchange_dbl_gaspi_bulk_sync (t : ThreadCtx) (dim2 : Int) (w : World) : Outcome :=
  let ncommdomains := w.cd.ncommdomains
  if ¬ (0 < dim2) then .abort w
  else if ¬ (ncommdomains ≠ 0) then .abort w
  else if ¬ (gaspi_segment_num w = 4) then .abort w
  else if this_is_the_last_thread t then
    let send_buffer_id := w.cd.send_stage % 2
    let w1 := gaspi_write_all dim2.toNat send_buffer_id w
    let buffer_id := w1.cd.recv_stage % 2
    (gaspi_wait_all buffer_id w1).bind fun w2 =>
      let w3 := gaspi_copy_out_all dim2.toNat buffer_id w2
      .ok (inc_stage w3)
  else .ok w

/-- Body of the loop of `exchange_dbl_gaspi_async`: wait for any of the notifications
`0 .. ncommdomains-1`, reset it, check it, unpack the partner it names. -/
def gaspi_async_iter (dim2 buffer_id : Nat) (w : World) : Outcome :=
  let ncommdomains := w.cd.ncommdomains
  let w1 := w.emit [Event.notify_waitsome (2 + buffer_id) 0 ncommdomains]
  match w1.notifications with
  | [] => .hang w1
  | (id, value) :: rest =>
    let w2 := ({ w1 with notifications := rest } : World).emit
      [Event.notify_reset (2 + buffer_id) id]
    if ¬ (value ≠ 0) then .abort w2
    else
      let k := w2.cd.commpartner id
      if ¬ (0 < w2.cd.recvcount k) then .abort w2
      else
        .ok (exchange_dbl_gaspi_copy_out (w2.cd.recvcount k) (w2.cd.recvindex k)
          (w2.cd.local_recv_offset k) dim2 buffer_id w2)

/-- The loop of `exchange_dbl_gaspi_async`: `ncommdomains` iterations. -/
def gaspi_async_all (dim2 buffer_id : Nat) (w : World) : Outcome :=
  for_loop (fun _ s => gaspi_async_iter dim2 buffer_id s) w.cd.ncommdomains w

/-- The function `exchange_dbl_gaspi_async(cd, data, dim2)` as run by thread `t`. -/
def exchange_dbl_gaspi_async (t : ThreadCtx) (dim2 : Int) (w : World) : Outcome :=
  let ncommdomains := w.cd.ncommdomains
  if ¬ (0 < dim2) then .abort w
  else if ¬ (ncommdomains ≠ 0) then .abort w
  else if ¬ (gaspi_segment_num w = 4) then .abort w
  else
    (if this_is_the_first_thread t then
      let buffer_id := w.cd.recv_stage % 2
      gaspi_async_all dim2.toNat buffer_id w
    else .ok w).bind fun w1 =>
      if this_is_the_last_thread t then .ok (inc_stage w1) else .ok w1

/-! ## `exchange_data_mpidma.c` -/

/-- The totals `(rsz, ssz)` accumulated by the first loop of `init_mpidma_buffers`.
Both are `int`: each `+=` adds in `size_t` and converts the sum back to `int`. -/
def mpidma_buffer_sizes (cd : comm_data) (max_elem_sz : Nat) : Int × Int :=
  (List.range cd.ncommdomains).foldl
    (fun acc i =>
      let k := cd.commpartner i
      (int_of_size_t ((size_t_of_int acc.1 + cd.recvcount k * max_elem_sz * szd)
          % 18446744073709551616),
       int_of_size_t ((size_t_of_int acc.2 + cd.sendcount k * max_elem_sz * szd)
          % 18446744073709551616)))
    (0, 0)

/-- The function `init_mpidma_buffers(cd, dim2)`; `NGRAD` is the constant of
`solver_data.h`.  One send buffer is allocated and one receive window. -/
def init_mpidma_buffers (NGRAD : Nat) (dim2 : Int) (w : World) : Outcome :=
  let max_elem_sz := NGRAD * 3
  if dim2 ≠ (max_elem_sz : Int) then .abort w
  else
    let rsz := (mpidma_buffer_sizes w.cd max_elem_sz).1
    let ssz := (mpidma_buffer_sizes w.cd max_elem_sz).2
    .ok (w.emit [Event.alloc_mem ssz, Event.win_allocate rsz])

/-- The function `exchange_dbl_mpidma_write(cd, data, dim2, i)`. -/
def exchange_dbl_mpidma_write (dim2 i : Nat) (w : World) : World :=
  let k := w.cd.commpartner i
  let count := w.cd.sendcount k
  if 0 < count then
    let sbuf := pack_loop dim2 (w.cd.sendindex k) w.data (w.cd.local_send_offset k) count
      w.sndbuf
    let size := int_of_size_t (count * dim2 * szd)
    { w with
      sndbuf := sbuf
      trace := w.trace ++
        [Event.mpi_pack (w.cd.local_send_offset k) count,
         Event.put (w.cd.local_send_offset k) size k (w.cd.remote_recv_offset k) size] }
  else w

/-- The function `exchange_dbl_mpidma_copy_out(recvcount, recvindex, local_recv_offset,
data, dim2)`. -/
def exchange_dbl_mpidma_copy_out (recvcount : Nat) (recvindex : Nat → Nat)
    (local_recv_offset : Nat) (dim2 : Nat) (w : World) : World :=
  if 0 < recvcount then
    { w with
      data := unpack_loop dim2 recvindex w.rcvbuf local_recv_offset recvcount w.data
      trace := w.trace ++ [Event.mpi_unpack local_recv_offset recvcount] }
  else w

/-- The function `mpidma_async_post_start()`. -/
def mpidma_async_post_start (w : World) : World :=
  w.emit [Event.win_post, Event.win_start]

/-- The function `mpidma_async_complete()`. -/
def mpidma_async_complete (w : World) : World :=
  w.emit [Event.win_complete]

/-- The function `mpidma_async_wait()`. -/
def mpidma_async_wait (w : World) : World :=
  w.emit [Event.win_wait]

/-- The function `mpidma_async_win_fence(assertion)`. -/
def mpidma_async_win_fence (mode : FenceMode) (w : World) : World :=
  w.emit [Event.win_fence mode]

/-- The write loop of the bulk-synchronous MPI one-sided variants. -/
def mpidma_write_all (dim2 : Nat) (w : World) : World :=
  for_each (fun i s => exchange_dbl_mpidma_write dim2 i s) w.cd.ncommdomains w

/-- The unpack loop over the partner list found in every MPI one-sided variant. -/
def mpidma_copy_out_all (dim2 : Nat) (w : World) : World :=
  for_each
    (fun i s =>
      let k := s.cd.commpartner i
      exchange_dbl_mpidma_copy_out (s.cd.recvcount k) (s.cd.recvindex k)
        (s.cd.local_recv_offset k) dim2 s)
    w.cd.ncommdomains w

/-- The function `exchange_dbl_mpifence_bulk_sync(cd, data, dim2)` as run by thread `t`. -/
def exchange_dbl_mpifence_bulk_sync (t : ThreadCtx) (dim2 : Int) (w : World) : Outcome :=
  if this_is_the_last_thread t then
    let ncommdomains := w.cd.ncommdomains
    if ¬ (0 < dim2) then .abort w
    else if ¬ (ncommdomains ≠ 0) then .abort w
    else
      let w1 := w.emit [Event.win_fence FenceMode.noprecede]
      let w2 := mpidma_write_all dim2.toNat w1
      let w3 := w2.emit [Event.win_fence FenceMode.nosucceed_nostore]
      let w4 := mpidma_copy_out_all dim2.toNat w3
      .ok (inc_stage w4)
  else .ok w

/-- The function `exchange_dbl_mpipscw_bulk_sync(cd, data, dim2)` as run by thread `t`. -/
def exchange_dbl_mpipscw_bulk_sync (t : ThreadCtx) (dim2 : Int) (w : World) : Outcome :=
  if this_is_the_last_thread t then
    let ncommdomains := w.cd.ncommdomains
    if ¬ (0 < dim2) then .abort w
    else if ¬ (ncommdomains ≠ 0) then .abort w
    else
      let w1 := mpidma_async_post_start w
      let w2 := mpidma_write_all dim2.toNat w1
      let w3 := mpidma_async_wait (mpidma_async_complete w2)
      let w4 := mpidma_copy_out_all dim2.toNat w3
      .ok (inc_stage w4)
  else .ok w

/-- The function `exchange_dbl_mpifence_async(cd, data, dim2)` as run by thread `t`. -/
def exchange_dbl_mpifence_async (t : ThreadCtx) (dim2 : Int) (w : World) : Outcome :=
  if this_is_the_last_thread t then
    let ncommdomains := w.cd.ncommdomains
    if ¬ (0 < dim2) then .abort w
    else if ¬ (ncommdomains ≠ 0) then .abort w
    else
      let w1 := w.emit [Event.win_fence FenceMode.nostore]
      let w2 := mpidma_copy_out_all dim2.toNat w1
      .ok (inc_stage w2)
  else .ok w

/-- The function `exchange_dbl_mpipscw_async(cd, data, dim2, final)` as run by thread `t`.
`early_wait` says which branch of the `#if` is compiled: it is true when both
`USE_MPI_MULTI_THREADED` and `USE_PSCW_EARLY_WAIT` are defined. -/
def exchange_dbl_mpipscw_async (early_wait : Bool) (t : ThreadCtx) (dim2 : Int) (final : Int)
    (w : World) : Outcome :=
  if early_wait then
    (if this_is_the_first_thread t then
      let ncommdomains := w.cd.ncommdomains
      if ¬ (0 < dim2) then Outcome.abort w
      else if ¬ (ncommdomains ≠ 0) then Outcome.abort w
      else
        let w1 := mpidma_async_wait w
        Outcome.ok (mpidma_copy_out_all dim2.toNat w1)
    else Outcome.ok w).bind fun w2 =>
      if this_is_the_last_thread t then
        let w3 := inc_stage w2
        if final = 0 then .ok (mpidma_async_post_start w3) else .ok w3
      else .ok w2
  else
    if this_is_the_last_thread t then
      let ncommdomains := w.cd.ncommdomains
      if ¬ (0 < dim2) then .abort w
      else if ¬ (ncommdomains ≠ 0) then .abort w
      else
        let w1 := mpidma_async_wait w
        let w2 := mpidma_copy_out_all dim2.toNat w1
        let w3 := inc_stage w2
        if final = 0 then .ok (mpidma_async_post_start w3) else .ok w3
    else .ok w

/-! ## Rounds of a thread team -/

/-- The four bulk entry points whose rounds advance the stage counters. -/
inductive Variant where
  | gaspi_bulk_sync
  | gaspi_async
  | mpifence_bulk_sync
  | mpipscw_bulk_sync
  deriving DecidableEq

/-- The exchange entry point of a variant. -/
def exchange (v : Variant) (t : ThreadCtx) (dim2 : Int) (w : World) : Outcome :=
  match v with
  | .gaspi_bulk_sync => exchange_dbl_gaspi_bulk_sync t dim2 w
  | .gaspi_async => exchange_dbl_gaspi_async t dim2 w
  | .mpifence_bulk_sync => exchange_dbl_mpifence_bulk_sync t dim2 w
  | .mpipscw_bulk_sync => exchange_dbl_mpipscw_bulk_sync t dim2 w

/-- One round of a team of `nthreads` threads: every thread calls the entry point once
(`#pragma omp parallel` in `test_solver`); `sched` is the order in which the calls of
the threads take effect. -/
def team_round (f : ThreadCtx → World → Outcome) (nthreads : Nat) (sched : List Nat)
    (w : World) : Outcome :=
  sched.foldl (fun o tid => o.bind (f { tid := tid, nthreads := nthreads })) (.ok w)

/-- Reachability through `K` completed rounds of a variant.  Between two rounds the
rest of the program (the gradient computation, the partners writing into the receive
regions, notifications arriving) may change everything except `comm_data`. -/
inductive Rounds (v : Variant) (nthreads : Nat) (dim2 : Int) : Nat → World → World → Prop where
  | zero (w : World) : Rounds v nthreads dim2 0 w w
  | succ {K : Nat} {w w1 w2 w3 : World} (sched : List Nat) :
      Rounds v nthreads dim2 K w w1 →
      w2.cd = w1.cd →
      sched.Perm (List.range nthreads) →
      team_round (fun t s => exchange v t dim2 s) nthreads sched w2 = .ok w3 →
      Rounds v nthreads dim2 (K + 1) w w3

/-! ## The network -/

/-- Effect of a one-sided write of process `sender` on the process `receiver` it
addresses: the bytes named by the call are copied from the source region of the
sender to the target region of the receiver, and a `gaspi_write_notify` also makes its
notification arrive.  Other actions have no remote effect. -/
def deliver (sender : World) (e : Event) (receiver : World) : World :=
  match e with
  | .write_notify sl ol rank sr orem size nid nval _ =>
    if rank = receiver.cd.iProc then
      { receiver with
        seg := Function.update receiver.seg sr
          (memcpy (receiver.seg sr) orem (sender.seg sl) ol size)
        notifications := receiver.notifications ++ [(nid, nval)] }
    else receiver
  | .put oo oc rank td _ =>
    if rank = receiver.cd.iProc then
      { receiver with rcvbuf := memcpy receiver.rcvbuf td sender.sndbuf oo oc.toNat }
    else receiver
  | _ => receiver

/-- Delivery of the writes among the actions `before.trace` does not yet contain. -/
def transfer (before sender receiver : World) : World :=
  (sender.trace.drop before.trace.length).foldl (fun r e => deliver sender e r) receiver

/-! ## Observations on traces -/

/-- The action is a `gaspi_write_notify` call. -/
def Event.is_write_notify : Event → Bool
  | .write_notify _ _ _ _ _ _ _ _ _ => true
  | _ => false

/-- The action is a `gaspi_notify_waitsome` call. -/
def Event.is_waitsome : Event → Bool
  | .notify_waitsome _ _ _ => true
  | _ => false

/-- The action is a `gaspi_notify_reset` call. -/
def Event.is_reset : Event → Bool
  | .notify_reset _ _ => true
  | _ => false

/-- The action creates or allocates a buffer region. -/
def Event.is_region : Event → Bool
  | .segment_create _ _ => true
  | .alloc_mem _ => true
  | .win_allocate _ => true
  | _ => false

/-- The segments a GASPI action names are the send segment `bs` (locally), the receive
segment `2 + bs` (at the partner) and the receive segment `2 + br` (locally). -/
def Event.uses_slots (bs br : Nat) : Event → Prop
  | .gaspi_pack s _ _ => s = bs
  | .write_notify sl _ _ sr _ _ _ _ _ => sl = bs ∧ sr = 2 + bs
  | .notify_waitsome s _ _ => s = 2 + br
  | .notify_reset s _ => s = 2 + br
  | .gaspi_unpack s _ _ => s = 2 + br
  | _ => True

/-- The actions performed between the state `before` and the state `after`. -/
def new_events (before after : World) : List Event :=
  after.trace.drop before.trace.length

/-- The state `s` is reached from `w` by performing further actions, all of which
satisfy `P`. -/
def extends_by (P : Event → Prop) (w s : World) : Prop :=
  ∃ es, s.trace = w.trace ++ es ∧ ∀ e ∈ es, P e

/-- The actions of a loop `for (i = 0; i < n; i++)` whose iteration `i` performs the
actions `ev i`. -/
def events_over (ev : Nat → List Event) : Nat → List Event
  | 0 => []
  | n + 1 => events_over ev n ++ ev n

/-- The actions of `exchange_dbl_mpidma_write` for list position `i`: the pack loop and
one `MPI_Put`, when the partner has points to send. -/
def mpidma_write_events (cd : comm_data) (dim2 : Nat) (i : Nat) : List Event :=
  if 0 < cd.sendcount (cd.commpartner i) then
    [Event.mpi_pack (cd.local_send_offset (cd.commpartner i)) (cd.sendcount (cd.commpartner i)),
     Event.put (cd.local_send_offset (cd.commpartner i))
       (int_of_size_t (cd.sendcount (cd.commpartner i) * dim2 * szd)) (cd.commpartner i)
       (cd.remote_recv_offset (cd.commpartner i))
       (int_of_size_t (cd.sendcount (cd.commpartner i) * dim2 * szd))]
  else []

/-- The actions of `exchange_dbl_mpidma_copy_out` for list position `i`: the unpack
loop, when the partner has points to receive. -/
def mpidma_copy_out_events (cd : comm_data) (i : Nat) : List Event :=
  if 0 < cd.recvcount (cd.commpartner i) then
    [Event.mpi_unpack (cd.local_recv_offset (cd.commpartner i))
      (cd.recvcount (cd.commpartner i))]
  else []

/-- The action is an `MPI_Put` call. -/
def Event.is_put : Event → Bool
  | .put _ _ _ _ _ => true
  | _ => false

/-- The action is the unpack loop of `exchange_dbl_mpidma_copy_out`. -/
def Event.is_mpi_unpack : Event → Bool
  | .mpi_unpack _ _ => true
  | _ => false

/-- Number of positions of the partner list whose partner has a positive `count`. -/
def partners_with (count : Nat → Nat) (cd : comm_data) : Nat :=
  (List.range cd.ncommdomains).countP fun i => decide (0 < count (cd.commpartner i))

/-- Sum of `count` over the partner list. -/
def total_count (count : Nat → Nat) (cd : comm_data) : Nat :=
  ((List.range cd.ncommdomains).map fun i => count (cd.commpartner i)).sum

/-- Sum of `count` over the first `i` positions of the partner list. -/
def prefix_count (count : Nat → Nat) (cd : comm_data) (i : Nat) : Nat :=
  ((List.range i).map fun j => count (cd.commpartner j)).sum

/-- The prefix-sum layout of a region: the byte offset of the partner at list position
`i` is the sum over the positions `j < i` of `count[commpartner[j]] * dim2 *
sizeof(double)`. -/
def prefix_layout (count offset : Nat → Nat) (cd : comm_data) (dim2 : Nat) : Prop :=
  ∀ i, i < cd.ncommdomains →
    offset (cd.commpartner i) = prefix_count count cd i * dim2 * szd

/-- Two `comm_data` objects describe the same topology: they agree in everything but
the stage counters. -/
def same_topology (c1 c2 : comm_data) : Prop :=
  c1.iProc = c2.iProc ∧ c1.ncommdomains = c2.ncommdomains ∧ c1.commpartner = c2.commpartner
    ∧ c1.sendcount = c2.sendcount ∧ c1.recvcount = c2.recvcount
    ∧ c1.sendindex = c2.sendindex ∧ c1.recvindex = c2.recvindex
    ∧ c1.remote_recv_offset = c2.remote_recv_offset
    ∧ c1.local_send_offset = c2.local_send_offset
    ∧ c1.local_recv_offset = c2.local_recv_offset
    ∧ c1.notification = c2.notification

/-- The five entry points a thread team calls once per round. -/
inductive TriggeredVariant where
  | gaspi_bulk_sync
  | gaspi_async
  | mpifence_bulk_sync
  | mpipscw_bulk_sync
  | mpipscw_async (early_wait : Bool) (final : Int)

/-- The call of an entry point by thread `t`. -/
def exchange_call (v : TriggeredVariant) (t : ThreadCtx) (dim2 : Int) (w : World) : Outcome :=
  match v with
  | .gaspi_bulk_sync => exchange_dbl_gaspi_bulk_sync t dim2 w
  | .gaspi_async => exchange_dbl_gaspi_async t dim2 w
  | .mpifence_bulk_sync => exchange_dbl_mpifence_bulk_sync t dim2 w
  | .mpipscw_bulk_sync => exchange_dbl_mpipscw_bulk_sync t dim2 w
  | .mpipscw_async early_wait final => exchange_dbl_mpipscw_async early_wait t dim2 final w

/-- Whether the entry point has a phase triggered by the first thread (the unpack phase
of the asynchronous variants); its other phase is triggered by the last thread. -/
def TriggeredVariant.first_thread_phase : TriggeredVariant → Bool
  | .gaspi_async => true
  | .mpipscw_async early_wait _ => early_wait
  | _ => false

/-- Actions of the unpack phase of the asynchronous variants: waiting for the data and
unpacking it. -/
def Event.is_unpack_phase : Event → Prop
  | .notify_waitsome _ _ _ => True
  | .notify_reset _ _ => True
  | .gaspi_unpack _ _ _ => True
  | .mpi_unpack _ _ => True
  | .win_wait => True
  | _ => False

/-- Actions that close a round of the asynchronous variants: the stage increment and the
opening of the next epoch. -/
def Event.is_advance_phase : Event → Prop
  | .inc_stage => True
  | .win_post => True
  | .win_start => True
  | _ => False

/-! ## The active-target epoch machine -/

/-- The states of the epoch state machine of the specification, `Idle → EpochOpen →
WritesIssued → EpochClosed(Complete) → Drained(Wait) → Idle`.  The state `Opening` is the
middle of the first transition: `post` has been issued, `start` not yet. -/
inductive EpochState where
  | Idle
  | Opening
  | EpochOpen
  | WritesIssued
  | EpochClosed
  | Drained
  deriving DecidableEq

/-- The transitions of the epoch state machine of the specification, labelled with the
actions of the program: `post` then `start` open the epoch; packing is allowed while the
epoch is open; every put leads to (or stays in) `WritesIssued`; `complete` closes the
epoch (from `EpochOpen` when no partner has data to send); `wait` drains it; unpacking is
allowed when drained; the stage increment ends the round.  Every other action is
rejected. -/
def epoch_step : EpochState → Event → Option EpochState
  | .Idle, .win_post => some .Opening
  | .Opening, .win_start => some .EpochOpen
  | .EpochOpen, .mpi_pack _ _ => some .EpochOpen
  | .EpochOpen, .put _ _ _ _ _ => some .WritesIssued
  | .WritesIssued, .mpi_pack _ _ => some .WritesIssued
  | .WritesIssued, .put _ _ _ _ _ => some .WritesIssued
  | .EpochOpen, .win_complete => some .EpochClosed
  | .WritesIssued, .win_complete => some .EpochClosed
  | .EpochClosed, .win_wait => some .Drained
  | .Drained, .mpi_unpack _ _ => some .Drained
  | .Drained, .inc_stage => some .Idle
  | _, _ => none

/-- The state the machine reaches from `s` on a sequence of actions, if it accepts it. -/
def epoch_run : EpochState → List Event → Option EpochState
  | s, [] => some s
  | s, e :: es => (epoch_step s e).bind fun s2 => epoch_run s2 es

/-- Reachability through `K` consecutive rounds of `exchange_dbl_mpipscw_bulk_sync` on
the trigger thread.  Between two rounds the rest of the program may change everything
except `comm_data`, and performs none of the recorded actions. -/
inductive PscwRounds (dim2 : Int) : Nat → World → World → Prop where
  | zero (w : World) : PscwRounds dim2 0 w w
  | succ {K : Nat} {w w1 w2 w3 : World} (t : ThreadCtx) :
      PscwRounds dim2 K w w1 →
      w2.cd = w1.cd →
      w2.trace = w1.trace →
      this_is_the_last_thread t = true →
      exchange_dbl_mpipscw_bulk_sync t dim2 w2 = .ok w3 →
      PscwRounds dim2 (K + 1) w w3

/-- The actions of one round of `exchange_dbl_mpipscw_bulk_sync` on the trigger thread. -/
def pscw_round_events (cd : comm_data) (dim2 : Nat) : List Event :=
  [Event.win_post, Event.win_start]
    ++ events_over (mpidma_write_events cd dim2) cd.ncommdomains
    ++ [Event.win_complete, Event.win_wait]
    ++ events_over (mpidma_copy_out_events cd) cd.ncommdomains
    ++ [Event.inc_stage]

/-! ## One message, end to end -/

/-- One message of the notify variant: the sender `S` packs and writes for list position
`i`, the write is delivered to `R`, and `R` unpacks what it holds for partner
`S.cd.iProc` from the same slot `buffer_id`. -/
def roundtrip_gaspi (dim2 buffer_id i : Nat) (S R : World) : World :=
  let R1 := transfer S (exchange_dbl_gaspi_write dim2 buffer_id i S) R
  let k := S.cd.iProc
  exchange_dbl_gaspi_copy_out (R1.cd.recvcount k) (R1.cd.recvindex k)
    (R1.cd.local_recv_offset k) dim2 buffer_id R1

/-- One message of the put variant: the sender `S` packs and puts for list position `i`,
the put is delivered to `R`, and `R` unpacks what it holds for partner `S.cd.iProc`. -/
def roundtrip_mpidma (dim2 i : Nat) (S R : World) : World :=
  let R1 := transfer S (exchange_dbl_mpidma_write dim2 i S) R
  let k := S.cd.iProc
  exchange_dbl_mpidma_copy_out (R1.cd.recvcount k) (R1.cd.recvindex k)
    (R1.cd.local_recv_offset k) dim2 R1

/-! ## The driver of the pipelined active-target variant (`gradients.c`, `solver.c`) -/

/-- The action opens an epoch (`MPI_Win_post`, `MPI_Win_start`) or ends the exposure
epoch (`MPI_Win_wait`). -/
def Event.is_epoch_mark : Event → Bool
  | .win_post => true
  | .win_start => true
  | .win_wait => true
  | _ => false

/-- Memory holding an array of doubles given by their IEEE-754 binary64 bit patterns
(little endian), zero beyond. -/
def mem_of_doubles (bits : List Nat) : Mem :=
  fun a => Fin.ofNat ((bits.getD (a / 8) 0 / 256 ^ (a % 8)) % 256)

/-- Bit patterns of the doubles 1.0, 2.0, 3.0, 4.0, 5.0, 6.0. -/
def bits_1_to_6 : List Nat :=
  [0x3FF0000000000000, 0x4000000000000000, 0x4008000000000000,
   0x4010000000000000, 0x4014000000000000, 0x4018000000000000]

/-- Memory filled with zero bytes. -/
def zero_mem : Mem := fun _ => 0

/-- Topology of domain `A`. -/
def scenario_cd_A : comm_data where
  iProc := 0
  ncommdomains := 1
  commpartner := fun _ => 1
  sendcount := fun k => if k = 1 then 3 else 0
  recvcount := fun _ => 0
  sendindex := fun _ j => j
  recvindex := fun _ j => j
  remote_recv_offset := fun _ => 0
  local_send_offset := fun _ => 0
  local_recv_offset := fun _ => 0
  notification := fun _ => 0
  send_stage := 0
  recv_stage := 0

/-- Topology of domain `B`. -/
def scenario_cd_B : comm_data where
  iProc := 1
  ncommdomains := 1
  commpartner := fun _ => 0
  sendcount := fun _ => 0
  recvcount := fun k => if k = 0 then 3 else 0
  sendindex := fun _ j => j
  recvindex := fun _ j => j + 3
  remote_recv_offset := fun _ => 0
  local_send_offset := fun _ => 0
  local_recv_offset := fun _ => 0
  notification := fun _ => 0
  send_stage := 0
  recv_stage := 0

/-- A process with the given topology and field array, four segments, empty buffers. -/
def world_of (cd : comm_data) (data : Mem) (notifications : List (Nat × Nat)) : World where
  cd := cd
  data := data
  seg := fun _ => zero_mem
  segments := [(0, 48), (2, 48), (1, 48), (3, 48)]
  sndbuf := zero_mem
  rcvbuf := zero_mem
  notifications := notifications
  trace := []

/-- Domain `A` before the round. -/
def scenario_A : World := world_of scenario_cd_A (mem_of_doubles bits_1_to_6) []

/-- Domain `B` before the round; the notification of `A` arrives during the round. -/
def scenario_B : World := world_of scenario_cd_B zero_mem [(0, 1)]

/-- Domain `B` before anything has arrived. -/
def scenario_B_idle : World := world_of scenario_cd_B zero_mem []

/-- Sender of two points (stride 1) whose receiver maps both onto its point 0. -/
def dup_A : World :=
  world_of { scenario_cd_A with sendcount := fun k => if k = 1 then 2 else 0 }
    (mem_of_doubles bits_1_to_6) []

/-- Receiver whose `recvindex` names point 0 twice. -/
def dup_B : World :=
  world_of { scenario_cd_B with
      recvcount := fun k => if k = 0 then 2 else 0
      recvindex := fun _ _ => 0 }
    zero_mem []

/-- Sender of one point of `2^29 + 1` doubles: the message has `2^32 + 8` bytes. -/
def big_A : World :=
  world_of { scenario_cd_A with sendcount := fun k => if k = 1 then 1 else 0 }
    (mem_of_doubles bits_1_to_6) []

/-- Receiver of one point of `2^29 + 1` doubles. -/
def big_B : World :=
  world_of { scenario_cd_B with
      recvcount := fun k => if k = 0 then 1 else 0
      recvindex := fun _ j => j }
    zero_mem []

/-- Domain `B` after one round of the bulk-synchronous notify variant run by a team of
two threads, the last thread calling first. -/
def scenario_B_after : World :=
  (team_round (fun t s => exchange Variant.gaspi_bulk_sync t 2 s) 2 [1, 0] scenario_B).world

/-- Topology of a process (rank 0) with two partners, ranks 1 and 2: three points are
sent to and two received from rank 1; nothing is exchanged with rank 2. -/
def two_partner_cd : comm_data where
  iProc := 0
  ncommdomains := 2
  commpartner := fun i => i + 1
  sendcount := fun k => if k = 1 then 3 else 0
  recvcount := fun k => if k = 1 then 2 else 0
  sendindex := fun _ j => j
  recvindex := fun _ j => j + 3
  remote_recv_offset := fun _ => 0
  local_send_offset := fun _ => 0
  local_recv_offset := fun _ => 0
  notification := fun _ => 0
  send_stage := 0
  recv_stage := 0

/-- The process with two partners; the one notification of the round, that of rank 1
(list position 0) with value 1, arrives. -/
def two_partner_world : World :=
  world_of two_partner_cd (mem_of_doubles bits_1_to_6) [(0, 1)]

/-- Domain `B` of the scenario with the doubles 1.0 .. 6.0 in its receive segments and a
notification of value 2 for list position 0. -/
def value_two_world : World :=
  { world_of scenario_cd_B zero_mem [(0, 2)] with seg := fun _ => mem_of_doubles bits_1_to_6 }

/-- Domain `B` of the scenario when the wait returns notification id 5. -/
def wrong_id_world : World := world_of scenario_cd_B zero_mem [(5, 1)]

/-- Domain `B` of the scenario when the reset returns the value 0. -/
def value_zero_world : World := world_of scenario_cd_B zero_mem [(0, 0)]

/-- Domain `A` of the scenario when only three segments exist. -/
def three_segment_world : World :=
  { scenario_A with segments := [(0, 48), (2, 48), (1, 48)] }

/-- Domain `A` of the scenario before any segment is created. -/
def fresh_A : World := { scenario_A with segments := [] }

/-- Domain `A` sending `2^24` points to its partner, before any segment is created. -/
def large_count_A : World :=
  { world_of { scenario_cd_A with sendcount := fun k => if k = 1 then 16777216 else 0 }
      zero_mem [] with segments := [] }

/-- Domain `A` of the scenario at the start of round 1 (one round completed). -/
def scenario_A_round1 : World :=
  world_of { scenario_cd_A with send_stage := 1, recv_stage := 1 }
    (mem_of_doubles bits_1_to_6) []

/-- Domain `A` at the start of round `r` of a steady run: the boundary values are the
same in every round, the field array differs elsewhere. -/
def steady_S (r : Nat) : World :=
  world_of { scenario_cd_A with send_stage := r, recv_stage := r }
    (mem_of_doubles (bits_1_to_6 ++ [r])) []

/-- Domain `B` at the start of round `r` of a steady run: its buffers are as the previous
round left them, its field array has been overwritten in between. -/
def steady_R : Nat → World
  | 0 => scenario_B_idle
  | r + 1 =>
    { roundtrip_mpidma 2 0 (steady_S r) (steady_R r) with
      data := mem_of_doubles [r]
      cd := { scenario_cd_B with send_stage := r + 1, recv_stage := r + 1 } }

/-- Topology of a process with two partners, ranks 1 and 2, laid out by prefix sums for
the stride 3: it sends 2 points and 1 point, and receives 1 point and 2 points. -/
def layout_cd : comm_data where
  iProc := 0
  ncommdomains := 2
  commpartner := fun i => i + 1
  sendcount := fun k => if k = 1 then 2 else if k = 2 then 1 else 0
  recvcount := fun k => if k = 1 then 1 else if k = 2 then 2 else 0
  sendindex := fun _ j => j
  recvindex := fun _ j => j + 3
  remote_recv_offset := fun _ => 0
  local_send_offset := fun k => if k = 2 then 48 else 0
  local_recv_offset := fun k => if k = 2 then 24 else 0
  notification := fun k => k - 1
  send_stage := 0
  recv_stage := 0

/-- A process with the topology `layout_cd`. -/
def layout_world : World := world_of layout_cd zero_mem []

/-- Domain `A` sending `2^27` points to its partner, before any segment is created. -/
def huge_count_A : World :=
  { world_of { scenario_cd_A with sendcount := fun k => if k = 1 then 134217728 else 0 }
      zero_mem [] with segments := [] }

/-- Domain `A` sending `65536` points to its partner. -/
def wide_A : World :=
  world_of { scenario_cd_A with sendcount := fun k => if k = 1 then 65536 else 0 }
    zero_mem []

/-! ## Lemmas: memory and the copy loops -/

theorem memcpy_hit (dst src : Mem) (d s len a : Nat) (h1 : d ≤ a) (h2 : a < d + len) :
    memcpy dst d src s len a = src (s + (a - d)) := by
  simp [memcpy, h1, h2]

theorem memcpy_miss (dst src : Mem) (d s len a : Nat) (h : a < d ∨ d + len ≤ a) :
    memcpy dst d src s len a = dst a := by
  have : ¬ (d ≤ a ∧ a < d + len) := by omega
  simp [memcpy, this]

theorem read_double_congr (m1 m2 : Mem) (a1 a2 : Nat)
    (h : ∀ b, b < szd → m1 (a1 + b) = m2 (a2 + b)) :
    read_double m1 a1 = read_double m2 a2 := by
  unfold read_double
  apply List.map_congr_left
  intro b hb
  exact h b (List.mem_range.mp hb)

theorem block_mono (dim2 j n : Nat) (h : j < n) : dim2 * j + dim2 ≤ dim2 * n := by
  have := Nat.mul_le_mul_left dim2 (Nat.succ_le_of_lt h)
  rwa [Nat.mul_succ] at this

theorem pack_loop_succ (dim2 : Nat) (si : Nat → Nat) (data : Mem) (off n : Nat) (buf : Mem) :
    pack_loop dim2 si data off (n + 1) buf =
      memcpy (pack_loop dim2 si data off n buf) (off + szd * (dim2 * n)) data
        (szd * (dim2 * si n)) (dim2 * szd) := by
  simp [pack_loop, List.range_succ, List.foldl_append]

theorem pack_loop_miss (dim2 : Nat) (si : Nat → Nat) (data : Mem) (off : Nat) (buf : Mem)
    (n a : Nat) (h : a < off ∨ off + szd * (dim2 * n) ≤ a) :
    pack_loop dim2 si data off n buf a = buf a := by
  induction n with
  | zero => simp [pack_loop]
  | succ n ih =>
    rw [pack_loop_succ]
    have hm := block_mono dim2 n (n + 1) (Nat.lt_succ_self n)
    simp only [szd] at *
    rw [memcpy_miss _ _ _ _ _ _ (by omega)]
    exact ih (by omega)

theorem pack_loop_hit (dim2 : Nat) (si : Nat → Nat) (data : Mem) (off : Nat) (buf : Mem)
    (n j r : Nat) (hj : j < n) (hr : r < dim2 * szd) :
    pack_loop dim2 si data off n buf (off + szd * (dim2 * j) + r) =
      data (szd * (dim2 * si j) + r) := by
  induction n with
  | zero => omega
  | succ n ih =>
    rw [pack_loop_succ]
    by_cases hjn : j = n
    · subst hjn
      simp only [szd] at *
      rw [memcpy_hit _ _ _ _ _ _ (by omega) (by omega)]
      congr 1
      omega
    · have hlt : j < n := by omega
      have hm := block_mono dim2 j n hlt
      simp only [szd] at *
      rw [memcpy_miss _ _ _ _ _ _ (by omega)]
      exact ih hlt

theorem unpack_loop_succ (dim2 : Nat) (ri : Nat → Nat) (buf : Mem) (off n : Nat) (data : Mem) :
    unpack_loop dim2 ri buf off (n + 1) data =
      memcpy (unpack_loop dim2 ri buf off n data) (szd * (dim2 * ri n)) buf
        (off + szd * (dim2 * n)) (dim2 * szd) := by
  simp [unpack_loop, List.range_succ, List.foldl_append]

theorem unpack_loop_miss (dim2 : Nat) (ri : Nat → Nat) (buf : Mem) (off : Nat) (data : Mem)
    (n a : Nat)
    (h : ∀ j, j < n → a < szd * (dim2 * ri j) ∨ szd * (dim2 * ri j) + dim2 * szd ≤ a) :
    unpack_loop dim2 ri buf off n data a = data a := by
  induction n with
  | zero => simp [unpack_loop]
  | succ n ih =>
    rw [unpack_loop_succ, memcpy_miss _ _ _ _ _ _ (h n (Nat.lt_succ_self n))]
    exact ih (fun j hj => h j (Nat.lt_succ_of_lt hj))

theorem block_disjoint (dim2 p q r : Nat) (hpq : p ≠ q) (hr : r < dim2 * szd) :
    szd * (dim2 * p) + r < szd * (dim2 * q) ∨
      szd * (dim2 * q) + dim2 * szd ≤ szd * (dim2 * p) + r := by
  rcases Nat.lt_or_gt_of_ne hpq with h | h
  · have := block_mono dim2 p q h
    simp only [szd] at *
    omega
  · have := block_mono dim2 q p h
    simp only [szd] at *
    omega

theorem unpack_loop_hit (dim2 : Nat) (ri : Nat → Nat) (buf : Mem) (off : Nat) (data : Mem)
    (n j r : Nat) (hj : j < n) (hr : r < dim2 * szd)
    (hd : ∀ j1 j2, j1 < n → j2 < n → ri j1 = ri j2 → j1 = j2) :
    unpack_loop dim2 ri buf off n data (szd * (dim2 * ri j) + r) =
      buf (off + szd * (dim2 * j) + r) := by
  induction n with
  | zero => omega
  | succ n ih =>
    rw [unpack_loop_succ]
    by_cases hjn : j = n
    · subst hjn
      simp only [szd] at *
      rw [memcpy_hit _ _ _ _ _ _ (by omega) (by omega)]
      congr 1
      omega
    · have hlt : j < n := by omega
      have hne : ri j ≠ ri n := fun e => hjn (hd j n hj (Nat.lt_succ_self n) e)
      rw [memcpy_miss _ _ _ _ _ _ (block_disjoint dim2 (ri j) (ri n) r hne hr)]
      exact ih hlt (fun j1 j2 h1 h2 => hd j1 j2 (Nat.lt_succ_of_lt h1) (Nat.lt_succ_of_lt h2))

/-- The unpack loop reads the buffer only inside `[off, off + 8 * dim2 * n)`. -/
theorem unpack_loop_congr (dim2 : Nat) (ri : Nat → Nat) (buf1 buf2 : Mem) (off n : Nat)
    (data : Mem)
    (h : ∀ x, off ≤ x → x < off + szd * (dim2 * n) → buf1 x = buf2 x) :
    unpack_loop dim2 ri buf1 off n data = unpack_loop dim2 ri buf2 off n data := by
  induction n with
  | zero => simp [unpack_loop]
  | succ n ih =>
    have hm := block_mono dim2 n (n + 1) (Nat.lt_succ_self n)
    rw [unpack_loop_succ, unpack_loop_succ, ih (fun x h1 h2 => h x h1 (by
      simp only [szd] at *
      omega))]
    funext a
    by_cases hin : szd * (dim2 * ri n) ≤ a ∧ a < szd * (dim2 * ri n) + dim2 * szd
    · rw [memcpy_hit _ _ _ _ _ _ hin.1 hin.2, memcpy_hit _ _ _ _ _ _ hin.1 hin.2]
      apply h
      · omega
      · simp only [szd] at *
        omega
    · rw [memcpy_miss _ _ _ _ _ _ (by omega), memcpy_miss _ _ _ _ _ _ (by omega)]

/-! ## Pack and unpack contracts -/

/-- C2. Pack postcondition: after `exchange_dbl_gaspi_write` (resp.
`exchange_dbl_mpidma_write`) for list position `i`, partner `k = commpartner[i]`,
the send buffer viewed as doubles from byte offset `local_send_offset[k]` holds
`sbuf[dim2*j + c] = data[dim2*sendindex[k][j] + c]` for every `j < sendcount[k]`
and `c < dim2`; every byte of the send buffer outside those `sendcount[k] * dim2`
doubles, every other segment, and the field array are unchanged. -/
theorem pack_postcondition (w : World) (dim2 buffer_id i : Nat) :
    (∀ j c, j < w.cd.sendcount (w.cd.commpartner i) → c < dim2 →
      read_double ((exchange_dbl_gaspi_write dim2 buffer_id i w).seg buffer_id)
          (w.cd.local_send_offset (w.cd.commpartner i) + szd * (dim2 * j + c))
        = read_double w.data (szd * (dim2 * w.cd.sendindex (w.cd.commpartner i) j + c))
      ∧ read_double (exchange_dbl_mpidma_write dim2 i w).sndbuf
          (w.cd.local_send_offset (w.cd.commpartner i) + szd * (dim2 * j + c))
        = read_double w.data (szd * (dim2 * w.cd.sendindex (w.cd.commpartner i) j + c)))
    ∧ (∀ a, (a < w.cd.local_send_offset (w.cd.commpartner i) ∨
          w.cd.local_send_offset (w.cd.commpartner i)
            + szd * (dim2 * w.cd.sendcount (w.cd.commpartner i)) ≤ a) →
        (exchange_dbl_gaspi_write dim2 buffer_id i w).seg buffer_id a = w.seg buffer_id a
        ∧ (exchange_dbl_mpidma_write dim2 i w).sndbuf a = w.sndbuf a)
    ∧ (∀ s, s ≠ buffer_id → (exchange_dbl_gaspi_write dim2 buffer_id i w).seg s = w.seg s)
    ∧ (exchange_dbl_gaspi_write dim2 buffer_id i w).data = w.data
    ∧ (exchange_dbl_mpidma_write dim2 i w).data = w.data := by
  refine ⟨?_, ?_, ?_, ?_, ?_⟩
  · intro j c hj hc
    have hpos : 0 < w.cd.sendcount (w.cd.commpartner i) := by omega
    have key : ∀ b, b < szd → ∀ buf : Mem,
        pack_loop dim2 (w.cd.sendindex (w.cd.commpartner i)) w.data
          (w.cd.local_send_offset (w.cd.commpartner i)) (w.cd.sendcount (w.cd.commpartner i)) buf
          (w.cd.local_send_offset (w.cd.commpartner i) + szd * (dim2 * j + c) + b)
        = w.data (szd * (dim2 * w.cd.sendindex (w.cd.commpartner i) j + c) + b) := by
      intro b hb buf
      have h := pack_loop_hit dim2 (w.cd.sendindex (w.cd.commpartner i)) w.data
        (w.cd.local_send_offset (w.cd.commpartner i)) buf _ j (szd * c + b) hj
        (by simp only [szd] at *; omega)
      have e1 : w.cd.local_send_offset (w.cd.commpartner i) + szd * (dim2 * j + c) + b
          = w.cd.local_send_offset (w.cd.commpartner i) + szd * (dim2 * j) + (szd * c + b) := by
        simp only [szd]; omega
      have e2 : szd * (dim2 * w.cd.sendindex (w.cd.commpartner i) j + c) + b
          = szd * (dim2 * w.cd.sendindex (w.cd.commpartner i) j) + (szd * c + b) := by
        simp only [szd]; omega
      rw [e1, e2, h]
    constructor
    · apply read_double_congr
      intro b hb
      simp only [exchange_dbl_gaspi_write, hpos, if_true, Function.update_same]
      exact key b hb _
    · apply read_double_congr
      intro b hb
      simp only [exchange_dbl_mpidma_write, hpos, if_true]
      exact key b hb _
  · intro a ha
    by_cases hpos : 0 < w.cd.sendcount (w.cd.commpartner i)
    · simp only [exchange_dbl_gaspi_write, exchange_dbl_mpidma_write, hpos, if_true,
        Function.update_same]
      exact ⟨pack_loop_miss _ _ _ _ _ _ _ ha, pack_loop_miss _ _ _ _ _ _ _ ha⟩
    · simp [exchange_dbl_gaspi_write, exchange_dbl_mpidma_write, hpos]
  · intro s hs
    by_cases hpos : 0 < w.cd.sendcount (w.cd.commpartner i)
    · simp only [exchange_dbl_gaspi_write, hpos, if_true]
      exact Function.update_noteq hs _ _
    · simp [exchange_dbl_gaspi_write, hpos]
  · by_cases hpos : 0 < w.cd.sendcount (w.cd.commpartner i) <;>
      simp [exchange_dbl_gaspi_write, hpos]
  · by_cases hpos : 0 < w.cd.sendcount (w.cd.commpartner i) <;>
      simp [exchange_dbl_mpidma_write, hpos]

/-- Witness for C2 on the concrete scenario: the fourth double of the packed buffer
of `A` (point 1, component 1) is the fourth double of its field array. -/
theorem pack_postcondition_witness :
    read_double ((exchange_dbl_gaspi_write 2 0 0 scenario_A).seg 0) (0 + szd * (2 * 1 + 1))
        = read_double scenario_A.data (szd * (2 * 1 + 1))
      ∧ read_double (exchange_dbl_mpidma_write 2 0 scenario_A).sndbuf (0 + szd * (2 * 1 + 1))
        = read_double scenario_A.data (szd * (2 * 1 + 1)) :=
  (pack_postcondition scenario_A 2 0 0).1 1 1 (by decide) (by decide)

/-- C3. Unpack postcondition and frame: when the first `recvcount` entries of
`recvindex` are pairwise distinct, after `exchange_dbl_gaspi_copy_out` (resp.
`exchange_dbl_mpidma_copy_out`) the field array holds
`data[dim2*recvindex[j] + c] = rbuf[dim2*j + c]` for every `j < recvcount`, `c < dim2`,
`rbuf` being the receive buffer viewed as doubles from byte offset
`local_recv_offset`; every element of `data` not of the form `dim2*recvindex[j] + c`
keeps its value; the receive buffers (and all segments, the send buffer, `comm_data`)
are unchanged. -/
theorem unpack_postcondition (w : World) (recvcount : Nat) (recvindex : Nat → Nat)
    (local_recv_offset dim2 buffer_id : Nat)
    (hdist : ∀ j1 j2, j1 < recvcount → j2 < recvcount → recvindex j1 = recvindex j2 → j1 = j2) :
    (∀ j c, j < recvcount → c < dim2 →
      read_double (exchange_dbl_gaspi_copy_out recvcount recvindex local_recv_offset dim2
            buffer_id w).data (szd * (dim2 * recvindex j + c))
        = read_double (w.seg (2 + buffer_id)) (local_recv_offset + szd * (dim2 * j + c))
      ∧ read_double (exchange_dbl_mpidma_copy_out recvcount recvindex local_recv_offset dim2
            w).data (szd * (dim2 * recvindex j + c))
        = read_double w.rcvbuf (local_recv_offset + szd * (dim2 * j + c)))
    ∧ (∀ e, (∀ j c, j < recvcount → c < dim2 → e ≠ dim2 * recvindex j + c) →
        read_double (exchange_dbl_gaspi_copy_out recvcount recvindex local_recv_offset dim2
            buffer_id w).data (szd * e) = read_double w.data (szd * e)
        ∧ read_double (exchange_dbl_mpidma_copy_out recvcount recvindex local_recv_offset dim2
            w).data (szd * e) = read_double w.data (szd * e))
    ∧ (exchange_dbl_gaspi_copy_out recvcount recvindex local_recv_offset dim2 buffer_id w).seg
        = w.seg
    ∧ (exchange_dbl_mpidma_copy_out recvcount recvindex local_recv_offset dim2 w).rcvbuf
        = w.rcvbuf
    ∧ (exchange_dbl_mpidma_copy_out recvcount recvindex local_recv_offset dim2 w).sndbuf
        = w.sndbuf
    ∧ (exchange_dbl_gaspi_copy_out recvcount recvindex local_recv_offset dim2 buffer_id w).cd
        = w.cd
    ∧ (exchange_dbl_mpidma_copy_out recvcount recvindex local_recv_offset dim2 w).cd
        = w.cd := by
  refine ⟨?_, ?_, ?_, ?_, ?_, ?_, ?_⟩
  · intro j c hj hc
    have hpos : 0 < recvcount := by omega
    have key : ∀ b, b < szd → ∀ buf : Mem,
        unpack_loop dim2 recvindex buf local_recv_offset recvcount w.data
          (szd * (dim2 * recvindex j + c) + b)
        = buf (local_recv_offset + szd * (dim2 * j + c) + b) := by
      intro b hb buf
      have h := unpack_loop_hit dim2 recvindex buf local_recv_offset w.data recvcount j
        (szd * c + b) hj (by simp only [szd] at *; omega) hdist
      have e1 : local_recv_offset + szd * (dim2 * j + c) + b
          = local_recv_offset + szd * (dim2 * j) + (szd * c + b) := by
        simp only [szd]; omega
      have e2 : szd * (dim2 * recvindex j + c) + b
          = szd * (dim2 * recvindex j) + (szd * c + b) := by
        simp only [szd]; omega
      rw [e1, e2, h]
    constructor
    · apply read_double_congr
      intro b hb
      simp only [exchange_dbl_gaspi_copy_out, hpos, if_true]
      exact key b hb _
    · apply read_double_congr
      intro b hb
      simp only [exchange_dbl_mpidma_copy_out, hpos, if_true]
      exact key b hb _
  · intro e he
    have key : ∀ b, b < szd → ∀ buf : Mem,
        unpack_loop dim2 recvindex buf local_recv_offset recvcount w.data (szd * e + b)
          = w.data (szd * e + b) := by
      intro b hb buf
      apply unpack_loop_miss
      intro j hj
      by_contra hcon
      have hin : dim2 * recvindex j ≤ e ∧ e < dim2 * recvindex j + dim2 := by
        simp only [szd] at *
        omega
      exact he j (e - dim2 * recvindex j) hj (by omega) (by omega)
    by_cases hpos : 0 < recvcount
    · constructor
      · apply read_double_congr
        intro b hb
        simp only [exchange_dbl_gaspi_copy_out, hpos, if_true]
        exact key b hb _
      · apply read_double_congr
        intro b hb
        simp only [exchange_dbl_mpidma_copy_out, hpos, if_true]
        exact key b hb _
    · simp [exchange_dbl_gaspi_copy_out, exchange_dbl_mpidma_copy_out, hpos]
  · by_cases hpos : 0 < recvcount <;> simp [exchange_dbl_gaspi_copy_out, hpos]
  · by_cases hpos : 0 < recvcount <;> simp [exchange_dbl_mpidma_copy_out, hpos]
  · by_cases hpos : 0 < recvcount <;> simp [exchange_dbl_mpidma_copy_out, hpos]
  · by_cases hpos : 0 < recvcount <;> simp [exchange_dbl_gaspi_copy_out, hpos]
  · by_cases hpos : 0 < recvcount <;> simp [exchange_dbl_mpidma_copy_out, hpos]

/-- Witness for C3 on the concrete scenario: `B` unpacks three points of stride 2 into
its ghost points 3, 4, 5; point 4, component 1 receives the fourth double of the
receive buffer. -/
theorem unpack_postcondition_witness :
    (∀ j1 j2, j1 < 3 → j2 < 3 → scenario_cd_B.recvindex 0 j1 = scenario_cd_B.recvindex 0 j2 →
        j1 = j2)
    ∧ read_double (exchange_dbl_gaspi_copy_out 3 (scenario_cd_B.recvindex 0) 0 2 0
          scenario_B).data (szd * (2 * scenario_cd_B.recvindex 0 1 + 1))
        = read_double (scenario_B.seg (2 + 0)) (0 + szd * (2 * 1 + 1))
    ∧ read_double (exchange_dbl_mpidma_copy_out 3 (scenario_cd_B.recvindex 0) 0 2
          scenario_B).data (szd * (2 * scenario_cd_B.recvindex 0 1 + 1))
        = read_double scenario_B.rcvbuf (0 + szd * (2 * 1 + 1)) :=
  have hd : ∀ j1 j2, j1 < 3 → j2 < 3 →
      scenario_cd_B.recvindex 0 j1 = scenario_cd_B.recvindex 0 j2 → j1 = j2 := by
    intro j1 j2 _ _ h
    simp only [scenario_cd_B] at h
    omega
  ⟨hd, (unpack_postcondition scenario_B 3 (scenario_cd_B.recvindex 0) 0 2 0 hd).1 1 1
    (by decide) (by decide)⟩

/-! ## One message, end to end -/

theorem int_of_size_t_small (x : Nat) (h : x < 2147483648) : int_of_size_t x = (x : Int) := by
  unfold int_of_size_t
  have h1 : x % 4294967296 = x := Nat.mod_eq_of_lt (by omega)
  rw [h1, if_pos h]

theorem int_mul_small (a b : Nat) (h : a * b < 2147483648) :
    size_t_of_int (int_mul a b) = a * b := by
  unfold int_mul int_of_size_t size_t_of_int
  have h1 : a * b % 4294967296 = a * b := Nat.mod_eq_of_lt (by omega)
  rw [h1, if_pos h]
  omega

theorem gaspi_write_size_small (count dim2 : Nat) (h : count * dim2 < 2147483648) :
    gaspi_write_size count dim2 = count * dim2 * szd := by
  unfold gaspi_write_size
  split
  · rw [int_mul_small count dim2 h]
    apply Nat.mod_eq_of_lt
    simp only [szd]
    omega
  · rfl

theorem gaspi_write_size_covers (count dim2 : Nat) :
    szd * (dim2 * count) ≤ gaspi_write_size count dim2 := by
  have hc : szd * (dim2 * count) = count * dim2 * szd := by
    rw [Nat.mul_comm dim2 count, Nat.mul_comm]
  rw [hc]
  unfold gaspi_write_size
  split
  · rename_i hg
    obtain ⟨hd, hi⟩ := hg
    have hp : count * dim2 < 4294967296 := by
      rcases Nat.eq_zero_or_pos count with h0 | hpos
      · subst h0; simp
      · obtain ⟨c, rfl⟩ : ∃ c, count = c + 1 := ⟨count - 1, by omega⟩
        have e : (c + 1) * dim2 = dim2 * c + dim2 := by
          rw [Nat.mul_comm, Nat.mul_succ]
        simp only [Nat.add_sub_cancel] at hi
        omega
    by_cases hs : count * dim2 < 2147483648
    · rw [int_mul_small count dim2 hs]
      rw [Nat.mod_eq_of_lt (by simp only [szd]; omega)]
    · unfold int_mul int_of_size_t size_t_of_int
      have h1 : count * dim2 % 4294967296 = count * dim2 := Nat.mod_eq_of_lt hp
      rw [h1, if_neg hs]
      generalize count * dim2 = q at *
      simp only [szd]
      omega
  · exact Nat.le_refl _
/-- Inside the packed range the result of the pack loop does not depend on the previous
content of the buffer. -/
theorem pack_loop_indep (dim2 : Nat) (si : Nat → Nat) (data : Mem) (off : Nat)
    (buf1 buf2 : Mem) (n a : Nat) (h1 : off ≤ a) (h2 : a < off + szd * (dim2 * n)) :
    pack_loop dim2 si data off n buf1 a = pack_loop dim2 si data off n buf2 a := by
  induction n with
  | zero => simp at h2; omega
  | succ n ih =>
    rw [pack_loop_succ, pack_loop_succ]
    have hm : dim2 * (n + 1) = dim2 * n + dim2 := Nat.mul_succ dim2 n
    by_cases hin : off + szd * (dim2 * n) ≤ a
    · have hlt : a < off + szd * (dim2 * n) + dim2 * szd := by
        simp only [szd] at *
        omega
      rw [memcpy_hit _ _ _ _ _ _ hin hlt, memcpy_hit _ _ _ _ _ _ hin hlt]
    · rw [memcpy_miss _ _ _ _ _ _ (by omega), memcpy_miss _ _ _ _ _ _ (by omega)]
      exact ih (by omega)

theorem transfer_gaspi_write (S R : World) (dim2 buffer_id i : Nat)
    (hrank : S.cd.commpartner i = R.cd.iProc)
    (hpos : 0 < S.cd.sendcount (S.cd.commpartner i)) :
    transfer S (exchange_dbl_gaspi_write dim2 buffer_id i S) R =
      { R with
        seg := Function.update R.seg (2 + buffer_id)
          (memcpy (R.seg (2 + buffer_id)) (S.cd.remote_recv_offset (S.cd.commpartner i))
            (pack_loop dim2 (S.cd.sendindex (S.cd.commpartner i)) S.data
              (S.cd.local_send_offset (S.cd.commpartner i))
              (S.cd.sendcount (S.cd.commpartner i)) (S.seg buffer_id))
            (S.cd.local_send_offset (S.cd.commpartner i))
            (gaspi_write_size (S.cd.sendcount (S.cd.commpartner i)) dim2))
        notifications := R.notifications ++ [(S.cd.notification (S.cd.commpartner i), 1)] } := by
  have hpos2 := hpos
  rw [hrank] at hpos2
  simp [transfer, exchange_dbl_gaspi_write, hpos2, deliver, hrank]

theorem transfer_mpidma_write (S R : World) (dim2 i : Nat)
    (hrank : S.cd.commpartner i = R.cd.iProc)
    (hpos : 0 < S.cd.sendcount (S.cd.commpartner i)) :
    transfer S (exchange_dbl_mpidma_write dim2 i S) R =
      { R with
        rcvbuf := memcpy R.rcvbuf (S.cd.remote_recv_offset (S.cd.commpartner i))
            (pack_loop dim2 (S.cd.sendindex (S.cd.commpartner i)) S.data
              (S.cd.local_send_offset (S.cd.commpartner i))
              (S.cd.sendcount (S.cd.commpartner i)) S.sndbuf)
            (S.cd.local_send_offset (S.cd.commpartner i))
            (int_of_size_t (S.cd.sendcount (S.cd.commpartner i) * dim2 * szd)).toNat } := by
  have hpos2 := hpos
  rw [hrank] at hpos2
  simp [transfer, exchange_dbl_mpidma_write, hpos2, deliver, hrank]

theorem transfer_gaspi_write_zero (S R : World) (dim2 buffer_id i : Nat)
    (hzero : S.cd.sendcount (S.cd.commpartner i) = 0) :
    transfer S (exchange_dbl_gaspi_write dim2 buffer_id i S) R = R := by
  simp [transfer, exchange_dbl_gaspi_write, hzero]

theorem transfer_mpidma_write_zero (S R : World) (dim2 i : Nat)
    (hzero : S.cd.sendcount (S.cd.commpartner i) = 0) :
    transfer S (exchange_dbl_mpidma_write dim2 i S) R = R := by
  simp [transfer, exchange_dbl_mpidma_write, hzero]

theorem roundtrip_mem (dim2 : Nat) (si ri : Nat → Nat) (dataS dataR sbuf rbuf : Mem)
    (offS offR n len j r : Nat) (hj : j < n) (hr : r < dim2 * szd)
    (hdist : ∀ j1 j2, j1 < n → j2 < n → ri j1 = ri j2 → j1 = j2)
    (hlen : szd * (dim2 * n) ≤ len) :
    unpack_loop dim2 ri (memcpy rbuf offR (pack_loop dim2 si dataS offS n sbuf) offS len)
        offR n dataR (szd * (dim2 * ri j) + r)
      = dataS (szd * (dim2 * si j) + r) := by
  rw [unpack_loop_hit dim2 ri _ offR dataR n j r hj hr hdist]
  have hm := block_mono dim2 j n hj
  have hin : offR + szd * (dim2 * j) + r < offR + len := by
    simp only [szd] at *
    omega
  rw [memcpy_hit _ _ _ _ _ _ (by omega) hin]
  have e : offS + (offR + szd * (dim2 * j) + r - offR) = offS + szd * (dim2 * j) + r := by
    omega
  rw [e, pack_loop_hit dim2 si dataS offS sbuf n j r hj hr]

theorem roundtrip_mem_congr (dim2 : Nat) (si ri : Nat → Nat) (dataS dataR : Mem)
    (sbuf1 sbuf2 rbuf1 rbuf2 : Mem) (offS offR n len1 len2 : Nat)
    (hlen1 : szd * (dim2 * n) ≤ len1) (hlen2 : szd * (dim2 * n) ≤ len2) :
    unpack_loop dim2 ri (memcpy rbuf1 offR (pack_loop dim2 si dataS offS n sbuf1) offS len1)
        offR n dataR
      = unpack_loop dim2 ri (memcpy rbuf2 offR (pack_loop dim2 si dataS offS n sbuf2) offS len2)
        offR n dataR := by
  apply unpack_loop_congr
  intro x h1 h2
  rw [memcpy_hit _ _ _ _ _ _ h1 (by omega), memcpy_hit _ _ _ _ _ _ h1 (by omega)]
  exact pack_loop_indep dim2 si dataS offS sbuf1 sbuf2 n _ (by omega) (by omega)

theorem roundtrip_gaspi_data (S R : World) (dim2 buffer_id i : Nat)
    (hrank : S.cd.commpartner i = R.cd.iProc)
    (hpos : 0 < S.cd.sendcount (S.cd.commpartner i))
    (hrpos : 0 < R.cd.recvcount S.cd.iProc) :
    (roundtrip_gaspi dim2 buffer_id i S R).data =
      unpack_loop dim2 (R.cd.recvindex S.cd.iProc)
        (memcpy (R.seg (2 + buffer_id)) (S.cd.remote_recv_offset (S.cd.commpartner i))
          (pack_loop dim2 (S.cd.sendindex (S.cd.commpartner i)) S.data
            (S.cd.local_send_offset (S.cd.commpartner i))
            (S.cd.sendcount (S.cd.commpartner i)) (S.seg buffer_id))
          (S.cd.local_send_offset (S.cd.commpartner i))
          (gaspi_write_size (S.cd.sendcount (S.cd.commpartner i)) dim2))
        (R.cd.local_recv_offset S.cd.iProc) (R.cd.recvcount S.cd.iProc) R.data := by
  unfold roundtrip_gaspi
  rw [transfer_gaspi_write S R dim2 buffer_id i hrank hpos]
  simp [exchange_dbl_gaspi_copy_out, hrpos]

theorem roundtrip_mpidma_data (S R : World) (dim2 i : Nat)
    (hrank : S.cd.commpartner i = R.cd.iProc)
    (hpos : 0 < S.cd.sendcount (S.cd.commpartner i))
    (hrpos : 0 < R.cd.recvcount S.cd.iProc) :
    (roundtrip_mpidma dim2 i S R).data =
      unpack_loop dim2 (R.cd.recvindex S.cd.iProc)
        (memcpy R.rcvbuf (S.cd.remote_recv_offset (S.cd.commpartner i))
          (pack_loop dim2 (S.cd.sendindex (S.cd.commpartner i)) S.data
            (S.cd.local_send_offset (S.cd.commpartner i))
            (S.cd.sendcount (S.cd.commpartner i)) S.sndbuf)
          (S.cd.local_send_offset (S.cd.commpartner i))
          (int_of_size_t (S.cd.sendcount (S.cd.commpartner i) * dim2 * szd)).toNat)
        (R.cd.local_recv_offset S.cd.iProc) (R.cd.recvcount S.cd.iProc) R.data := by
  unfold roundtrip_mpidma
  rw [transfer_mpidma_write S R dim2 i hrank hpos]
  simp [exchange_dbl_mpidma_copy_out, hrpos]

theorem roundtrip_zero (S R : World) (dim2 buffer_id i : Nat)
    (hzero : S.cd.sendcount (S.cd.commpartner i) = 0)
    (hrzero : R.cd.recvcount S.cd.iProc = 0) :
    (roundtrip_gaspi dim2 buffer_id i S R).data = R.data
      ∧ (roundtrip_mpidma dim2 i S R).data = R.data := by
  unfold roundtrip_gaspi roundtrip_mpidma
  rw [transfer_gaspi_write_zero S R dim2 buffer_id i hzero,
    transfer_mpidma_write_zero S R dim2 i hzero]
  simp [exchange_dbl_gaspi_copy_out, exchange_dbl_mpidma_copy_out, hrzero]

/-- C1 (amended). A transfer copies the bytes the sender packed for a partner into the
receive region of the receiver at `remote_recv_offset`.  Let the receiver `R` be the
partner at list position `i` of the sender `S`, let the sender's `sendcount` for `R`
equal the receiver's `recvcount` for `S` (`= n`), the sender's `remote_recv_offset`
equal the receiver's `local_recv_offset`, let the first `n` entries of the receiver's
`recvindex` be pairwise distinct and the message size `n * dim2 * sizeof(double)` be
below `2^31` (it is stored in an `int` by `exchange_dbl_mpidma_write`).  Then after
pack, transfer and unpack, for every `j < n` and `c < dim2` the receiver's
`data[dim2*recvindex[j] + c]` equals the sender's `data[dim2*sendindex[j] + c]`, in the
notify variant and in the put variant, and both leave the receiver with the same
field array. -/
theorem roundtrip_exact (S R : World) (dim2 buffer_id i : Nat)
    (hrank : S.cd.commpartner i = R.cd.iProc)
    (hn : S.cd.sendcount R.cd.iProc = R.cd.recvcount S.cd.iProc)
    (hoff : S.cd.remote_recv_offset R.cd.iProc = R.cd.local_recv_offset S.cd.iProc)
    (hdist : ∀ j1 j2, j1 < R.cd.recvcount S.cd.iProc → j2 < R.cd.recvcount S.cd.iProc →
      R.cd.recvindex S.cd.iProc j1 = R.cd.recvindex S.cd.iProc j2 → j1 = j2)
    (hsize : R.cd.recvcount S.cd.iProc * dim2 * szd < 2147483648) :
    (∀ j c, j < R.cd.recvcount S.cd.iProc → c < dim2 →
      read_double (roundtrip_gaspi dim2 buffer_id i S R).data
          (szd * (dim2 * R.cd.recvindex S.cd.iProc j + c))
        = read_double S.data (szd * (dim2 * S.cd.sendindex R.cd.iProc j + c))
      ∧ read_double (roundtrip_mpidma dim2 i S R).data
          (szd * (dim2 * R.cd.recvindex S.cd.iProc j + c))
        = read_double S.data (szd * (dim2 * S.cd.sendindex R.cd.iProc j + c)))
    ∧ (roundtrip_gaspi dim2 buffer_id i S R).data = (roundtrip_mpidma dim2 i S R).data := by
  rw [← hrank] at hn hoff
  rw [← hrank]
  have hcomm : R.cd.recvcount S.cd.iProc * dim2 * szd
      = szd * (dim2 * R.cd.recvcount S.cd.iProc) := by ring
  have hsz : (int_of_size_t (R.cd.recvcount S.cd.iProc * dim2 * szd)).toNat
      = R.cd.recvcount S.cd.iProc * dim2 * szd := by
    rw [int_of_size_t_small _ hsize]
    exact Int.toNat_ofNat _
  by_cases hrpos : 0 < R.cd.recvcount S.cd.iProc
  · have hpos : 0 < S.cd.sendcount (S.cd.commpartner i) := by omega
    have hg := roundtrip_gaspi_data S R dim2 buffer_id i hrank hpos hrpos
    have hm := roundtrip_mpidma_data S R dim2 i hrank hpos hrpos
    rw [hn, hoff] at hg hm
    rw [hsz] at hm
    rw [hg, hm]
    constructor
    · intro j c hj hc
      have haddr : ∀ b p : Nat, szd * (dim2 * p + c) + b = szd * (dim2 * p) + (szd * c + b) := by
        intro b p
        simp only [szd]
        omega
      constructor
      · apply read_double_congr
        intro b hb
        rw [haddr, haddr]
        exact roundtrip_mem dim2 _ _ S.data R.data _ _ _ _ _ _ j (szd * c + b) hj
          (by simp only [szd] at *; omega) hdist (gaspi_write_size_covers _ _)
      · apply read_double_congr
        intro b hb
        rw [haddr, haddr]
        exact roundtrip_mem dim2 _ _ S.data R.data _ _ _ _ _ _ j (szd * c + b) hj
          (by simp only [szd] at *; omega) hdist (by omega)
    · exact roundtrip_mem_congr dim2 _ _ S.data R.data _ _ _ _ _ _ _ _ _
        (gaspi_write_size_covers _ _) (by omega)
  · have hrzero : R.cd.recvcount S.cd.iProc = 0 := by omega
    have hzero : S.cd.sendcount (S.cd.commpartner i) = 0 := by omega
    have hz := roundtrip_zero S R dim2 buffer_id i hzero hrzero
    constructor
    · intro j c hj
      omega
    · rw [hz.1, hz.2]

/-- Witness for C1 (amended) on the concrete scenario: three points mapped one to one,
stride 2, values `[[1,2],[3,4],[5,6]]`. -/
theorem roundtrip_exact_witness :
    scenario_A.cd.commpartner 0 = scenario_B.cd.iProc
    ∧ scenario_A.cd.sendcount scenario_B.cd.iProc = scenario_B.cd.recvcount scenario_A.cd.iProc
    ∧ scenario_A.cd.remote_recv_offset scenario_B.cd.iProc
        = scenario_B.cd.local_recv_offset scenario_A.cd.iProc
    ∧ scenario_B.cd.recvcount scenario_A.cd.iProc * 2 * szd < 2147483648
    ∧ ((∀ j c, j < scenario_B.cd.recvcount scenario_A.cd.iProc → c < 2 →
        read_double (roundtrip_gaspi 2 0 0 scenario_A scenario_B).data
            (szd * (2 * scenario_B.cd.recvindex scenario_A.cd.iProc j + c))
          = read_double scenario_A.data
            (szd * (2 * scenario_A.cd.sendindex scenario_B.cd.iProc j + c))
        ∧ read_double (roundtrip_mpidma 2 0 scenario_A scenario_B).data
            (szd * (2 * scenario_B.cd.recvindex scenario_A.cd.iProc j + c))
          = read_double scenario_A.data
            (szd * (2 * scenario_A.cd.sendindex scenario_B.cd.iProc j + c)))
      ∧ (roundtrip_gaspi 2 0 0 scenario_A scenario_B).data
          = (roundtrip_mpidma 2 0 scenario_A scenario_B).data) :=
  ⟨by decide, by decide, by decide, by decide,
    roundtrip_exact scenario_A scenario_B 2 0 0 (by decide) (by decide) (by decide)
      (by
        intro j1 j2 _ _ h
        simp only [scenario_B, scenario_A, world_of, scenario_cd_B] at h
        omega)
      (by decide)⟩

/-- The concrete scenario evaluated: after one message the ghost points 3, 4, 5 of `B`
hold the doubles 1.0 .. 6.0, in the notify variant and in the put variant. -/
theorem scenario_ghost_values :
    (List.range 6).map
        (fun e => read_double (roundtrip_gaspi 2 0 0 scenario_A scenario_B).data (szd * (6 + e)))
      = (List.range 6).map (fun e => read_double (mem_of_doubles bits_1_to_6) (szd * e))
    ∧ (List.range 6).map
        (fun e => read_double (roundtrip_mpidma 2 0 scenario_A scenario_B).data (szd * (6 + e)))
      = (List.range 6).map (fun e => read_double (mem_of_doubles bits_1_to_6) (szd * e)) := by
  decide

/-- C1 as stated fails.  First part: with sender `dup_A` (two points, stride 1, values
1.0 and 2.0) and receiver `dup_B` whose `recvindex` is `[0, 0]`, all conditions of the
claim hold, yet after pack, transfer and unpack the receiver's `data[recvindex[0]]` is
2.0 while the sender's `data[sendindex[0]]` is 1.0.  Second part: even with pairwise
distinct `recvindex`, for one point of stride `2^29 + 1` the put variant stores the size
`2^32 + 8` into an `int`, transfers 8 bytes, and the second double does not arrive. -/
theorem roundtrip_counterexample :
    (¬ ∀ (S R : World) (dim2 buffer_id i : Nat),
      S.cd.commpartner i = R.cd.iProc →
      S.cd.sendcount R.cd.iProc = R.cd.recvcount S.cd.iProc →
      S.cd.remote_recv_offset R.cd.iProc = R.cd.local_recv_offset S.cd.iProc →
      0 < dim2 →
      (∀ j c, j < R.cd.recvcount S.cd.iProc → c < dim2 →
        read_double (roundtrip_gaspi dim2 buffer_id i S R).data
            (szd * (dim2 * R.cd.recvindex S.cd.iProc j + c))
          = read_double S.data (szd * (dim2 * S.cd.sendindex R.cd.iProc j + c))
        ∧ read_double (roundtrip_mpidma dim2 i S R).data
            (szd * (dim2 * R.cd.recvindex S.cd.iProc j + c))
          = read_double S.data (szd * (dim2 * S.cd.sendindex R.cd.iProc j + c)))
      ∧ (roundtrip_gaspi dim2 buffer_id i S R).data = (roundtrip_mpidma dim2 i S R).data)
    ∧ (¬ ∀ (S R : World) (dim2 buffer_id i : Nat),
      S.cd.commpartner i = R.cd.iProc →
      S.cd.sendcount R.cd.iProc = R.cd.recvcount S.cd.iProc →
      S.cd.remote_recv_offset R.cd.iProc = R.cd.local_recv_offset S.cd.iProc →
      0 < dim2 →
      (∀ j1 j2, j1 < R.cd.recvcount S.cd.iProc → j2 < R.cd.recvcount S.cd.iProc →
        R.cd.recvindex S.cd.iProc j1 = R.cd.recvindex S.cd.iProc j2 → j1 = j2) →
      (∀ j c, j < R.cd.recvcount S.cd.iProc → c < dim2 →
        read_double (roundtrip_gaspi dim2 buffer_id i S R).data
            (szd * (dim2 * R.cd.recvindex S.cd.iProc j + c))
          = read_double S.data (szd * (dim2 * S.cd.sendindex R.cd.iProc j + c))
        ∧ read_double (roundtrip_mpidma dim2 i S R).data
            (szd * (dim2 * R.cd.recvindex S.cd.iProc j + c))
          = read_double S.data (szd * (dim2 * S.cd.sendindex R.cd.iProc j + c)))
      ∧ (roundtrip_gaspi dim2 buffer_id i S R).data = (roundtrip_mpidma dim2 i S R).data) := by
  constructor
  · intro h
    have h1 := ((h dup_A dup_B 1 0 0 (by decide) (by decide) (by decide) (by decide)).1 0 0
      (by decide) (by decide)).1
    exact absurd h1 (by decide)
  · intro h
    have h1 := ((h big_A big_B 536870913 0 0 (by decide) (by decide) (by decide) (by decide)
      (by
        intro j1 j2 h1 h2 _
        simp [big_A, big_B, world_of, scenario_cd_A, scenario_cd_B] at h1 h2
        omega)).1 0 1 (by decide) (by decide)).2
    exact absurd h1 (by decide)

/-! ## Lemmas: loops and outcomes -/

theorem for_each_succ (body : Nat → World → World) (n : Nat) (w : World) :
    for_each body (n + 1) w = body n (for_each body n w) := by
  simp [for_each, List.range_succ, List.foldl_append]

theorem for_loop_succ (body : Nat → World → Outcome) (n : Nat) (w : World) :
    for_loop body (n + 1) w = (for_loop body n w).bind (body n) := by
  simp [for_loop, List.range_succ, List.foldl_append]

theorem for_loop_zero (body : Nat → World → Outcome) (w : World) :
    for_loop body 0 w = .ok w := by
  simp [for_loop]

/-- Loop rule for a body that always returns, with an invariant indexed by the number of
completed iterations. -/
theorem for_each_rule (J : Nat → World → Prop) (body : Nat → World → World) (n : Nat)
    (w : World) (h0 : J 0 w)
    (hstep : ∀ i s, i < n → J i s → J (i + 1) (body i s)) :
    J n (for_each body n w) := by
  induction n with
  | zero => simpa [for_each] using h0
  | succ n ih =>
    rw [for_each_succ]
    exact hstep n _ (Nat.lt_succ_self n)
      (ih (fun i s hi hJ => hstep i s (Nat.lt_succ_of_lt hi) hJ))

/-- Loop rule for the iterations of a loop that returned. -/
theorem for_loop_rule_ok (J : Nat → World → Prop) (body : Nat → World → Outcome) (n : Nat)
    (w : World) (h0 : J 0 w)
    (hstep : ∀ i s s2, i < n → J i s → body i s = .ok s2 → J (i + 1) s2)
    (w2 : World) (hok : for_loop body n w = .ok w2) : J n w2 := by
  induction n generalizing w2 with
  | zero =>
    rw [for_loop_zero] at hok
    cases hok
    exact h0
  | succ n ih =>
    rw [for_loop_succ] at hok
    cases hprev : for_loop body n w with
    | ok s =>
      rw [hprev] at hok
      exact hstep n s w2 (Nat.lt_succ_self n)
        (ih (fun i s s2 hi hJ => hstep i s s2 (Nat.lt_succ_of_lt hi) hJ) s hprev) hok
    | abort s => rw [hprev] at hok; cases hok
    | hang s => rw [hprev] at hok; cases hok

/-- Loop rule for the state a loop ends in, whether it returns or not. -/
theorem for_loop_rule_world (J : World → Prop) (body : Nat → World → Outcome) (n : Nat)
    (w : World) (h0 : J w) (hstep : ∀ i s, i < n → J s → J (body i s).world) :
    J (for_loop body n w).world := by
  induction n with
  | zero => simpa [for_loop_zero, Outcome.world] using h0
  | succ n ih =>
    have ih2 := ih (fun i s hi hJ => hstep i s (Nat.lt_succ_of_lt hi) hJ)
    rw [for_loop_succ]
    cases hprev : for_loop body n w with
    | ok s =>
      rw [hprev] at ih2
      exact hstep n s (Nat.lt_succ_self n) ih2
    | abort s => rw [hprev] at ih2; exact ih2
    | hang s => rw [hprev] at ih2; exact ih2

/-- If the first `i` iterations return and iteration `i` does not, the loop stops there. -/
theorem for_loop_stops (body : Nat → World → Outcome) (n i : Nat) (w s : World)
    (hi : i < n) (hhead : for_loop body i w = .ok s) (hnot : (body i s).isOk = false) :
    for_loop body n w = body i s := by
  induction n with
  | zero => omega
  | succ n ih =>
    rw [for_loop_succ]
    by_cases hin : i = n
    · subst hin
      rw [hhead]
      rfl
    · rw [ih (by omega)]
      cases hb : body i s with
      | ok s2 => rw [hb] at hnot; simp [Outcome.isOk] at hnot
      | abort s2 => rfl
      | hang s2 => rfl

theorem foldl_bind_abort {α : Type} (g : α → World → Outcome) (l : List α) (s : World) :
    l.foldl (fun (o : Outcome) x => o.bind (g x)) (Outcome.abort s) = Outcome.abort s := by
  induction l with
  | nil => rfl
  | cons a l ih => rw [List.foldl_cons]; exact ih

theorem foldl_bind_hang {α : Type} (g : α → World → Outcome) (l : List α) (s : World) :
    l.foldl (fun (o : Outcome) x => o.bind (g x)) (Outcome.hang s) = Outcome.hang s := by
  induction l with
  | nil => rfl
  | cons a l ih => rw [List.foldl_cons]; exact ih

theorem foldl_bind_start {α : Type} (g : α → World → Outcome) (l : List α) (o : Outcome) :
    l.foldl (fun (o : Outcome) x => o.bind (g x)) o
      = o.bind (fun w => l.foldl (fun (o : Outcome) x => o.bind (g x)) (Outcome.ok w)) := by
  cases o with
  | ok s => rfl
  | abort s => exact foldl_bind_abort g l s
  | hang s => exact foldl_bind_hang g l s

theorem team_round_cons (f : ThreadCtx → World → Outcome) (n tid : Nat) (rest : List Nat)
    (w : World) :
    team_round f n (tid :: rest) w
      = (f { tid := tid, nthreads := n } w).bind (team_round f n rest) := by
  unfold team_round
  rw [List.foldl_cons]
  exact foldl_bind_start (fun tid => f { tid := tid, nthreads := n }) rest _

/-! ## Lemmas: what each step leaves unchanged -/

@[simp] theorem gaspi_write_cd (dim2 b i : Nat) (w : World) :
    (exchange_dbl_gaspi_write dim2 b i w).cd = w.cd := by
  unfold exchange_dbl_gaspi_write
  simp only
  split <;> rfl

@[simp] theorem gaspi_write_data (dim2 b i : Nat) (w : World) :
    (exchange_dbl_gaspi_write dim2 b i w).data = w.data := by
  unfold exchange_dbl_gaspi_write
  simp only
  split <;> rfl

@[simp] theorem gaspi_write_notifications (dim2 b i : Nat) (w : World) :
    (exchange_dbl_gaspi_write dim2 b i w).notifications = w.notifications := by
  unfold exchange_dbl_gaspi_write
  simp only
  split <;> rfl

@[simp] theorem gaspi_write_segments (dim2 b i : Nat) (w : World) :
    (exchange_dbl_gaspi_write dim2 b i w).segments = w.segments := by
  unfold exchange_dbl_gaspi_write
  simp only
  split <;> rfl

theorem gaspi_write_trace (dim2 b i : Nat) (w : World) :
    (exchange_dbl_gaspi_write dim2 b i w).trace = w.trace ++
      (if 0 < w.cd.sendcount (w.cd.commpartner i) then
        [Event.gaspi_pack b (w.cd.local_send_offset (w.cd.commpartner i))
            (w.cd.sendcount (w.cd.commpartner i)),
         Event.write_notify b (w.cd.local_send_offset (w.cd.commpartner i))
            (w.cd.commpartner i) (2 + b) (w.cd.remote_recv_offset (w.cd.commpartner i))
            (gaspi_write_size (w.cd.sendcount (w.cd.commpartner i)) dim2)
            (w.cd.notification (w.cd.commpartner i)) 1 0]
      else []) := by
  unfold exchange_dbl_gaspi_write
  simp only
  split <;> simp

@[simp] theorem gaspi_copy_out_cd (rc : Nat) (ri : Nat → Nat) (off dim2 b : Nat) (w : World) :
    (exchange_dbl_gaspi_copy_out rc ri off dim2 b w).cd = w.cd := by
  unfold exchange_dbl_gaspi_copy_out
  split <;> rfl

@[simp] theorem gaspi_copy_out_seg (rc : Nat) (ri : Nat → Nat) (off dim2 b : Nat) (w : World) :
    (exchange_dbl_gaspi_copy_out rc ri off dim2 b w).seg = w.seg := by
  unfold exchange_dbl_gaspi_copy_out
  split <;> rfl

@[simp] theorem gaspi_copy_out_notifications (rc : Nat) (ri : Nat → Nat) (off dim2 b : Nat)
    (w : World) :
    (exchange_dbl_gaspi_copy_out rc ri off dim2 b w).notifications = w.notifications := by
  unfold exchange_dbl_gaspi_copy_out
  split <;> rfl

theorem gaspi_copy_out_trace (rc : Nat) (ri : Nat → Nat) (off dim2 b : Nat) (w : World) :
    (exchange_dbl_gaspi_copy_out rc ri off dim2 b w).trace = w.trace ++
      (if 0 < rc then [Event.gaspi_unpack (2 + b) off rc] else []) := by
  unfold exchange_dbl_gaspi_copy_out
  split <;> simp

@[simp] theorem mpidma_write_cd (dim2 i : Nat) (w : World) :
    (exchange_dbl_mpidma_write dim2 i w).cd = w.cd := by
  unfold exchange_dbl_mpidma_write
  simp only
  split <;> rfl

@[simp] theorem mpidma_copy_out_cd (rc : Nat) (ri : Nat → Nat) (off dim2 : Nat) (w : World) :
    (exchange_dbl_mpidma_copy_out rc ri off dim2 w).cd = w.cd := by
  unfold exchange_dbl_mpidma_copy_out
  split <;> rfl

@[simp] theorem emit_cd (w : World) (es : List Event) : (w.emit es).cd = w.cd := rfl

@[simp] theorem emit_data (w : World) (es : List Event) : (w.emit es).data = w.data := rfl

@[simp] theorem emit_trace (w : World) (es : List Event) :
    (w.emit es).trace = w.trace ++ es := rfl

theorem gaspi_write_all_cd (dim2 b : Nat) (w : World) :
    (gaspi_write_all dim2 b w).cd = w.cd := by
  unfold gaspi_write_all
  exact for_each_rule (fun _ s => s.cd = w.cd) _ _ w rfl
    (fun i s _ h => by simp [h])

theorem gaspi_write_all_data (dim2 b : Nat) (w : World) :
    (gaspi_write_all dim2 b w).data = w.data := by
  unfold gaspi_write_all
  exact for_each_rule (fun _ s => s.data = w.data) _ _ w rfl
    (fun i s _ h => by simp [h])

theorem gaspi_copy_out_all_cd (dim2 b : Nat) (w : World) :
    (gaspi_copy_out_all dim2 b w).cd = w.cd := by
  unfold gaspi_copy_out_all
  exact for_each_rule (fun _ s => s.cd = w.cd) _ _ w rfl
    (fun i s _ h => by simp [h])

theorem mpidma_write_all_cd (dim2 : Nat) (w : World) :
    (mpidma_write_all dim2 w).cd = w.cd := by
  unfold mpidma_write_all
  exact for_each_rule (fun _ s => s.cd = w.cd) _ _ w rfl
    (fun i s _ h => by simp [h])

theorem mpidma_copy_out_all_cd (dim2 : Nat) (w : World) :
    (mpidma_copy_out_all dim2 w).cd = w.cd := by
  unfold mpidma_copy_out_all
  exact for_each_rule (fun _ s => s.cd = w.cd) _ _ w rfl
    (fun i s _ h => by simp [h])

/-- The wait body changes neither `comm_data` nor the field array nor any segment. -/
theorem gaspi_bulk_sync_wait_frame (b i : Nat) (w : World) :
    (gaspi_bulk_sync_wait b i w).world.cd = w.cd
      ∧ (gaspi_bulk_sync_wait b i w).world.data = w.data
      ∧ (gaspi_bulk_sync_wait b i w).world.seg = w.seg := by
  unfold gaspi_bulk_sync_wait
  simp only
  split
  · cases hnot : w.notifications with
    | nil => simp [World.emit, hnot, Outcome.world]
    | cons hd rest =>
      obtain ⟨id, value⟩ := hd
      simp only [World.emit, hnot]
      split
      · simp [Outcome.world]
      · split <;> simp [Outcome.world]
  · simp [Outcome.world]

theorem gaspi_wait_all_frame (b : Nat) (w : World) :
    (gaspi_wait_all b w).world.cd = w.cd
      ∧ (gaspi_wait_all b w).world.data = w.data
      ∧ (gaspi_wait_all b w).world.seg = w.seg := by
  unfold gaspi_wait_all
  exact for_loop_rule_world (fun s => s.cd = w.cd ∧ s.data = w.data ∧ s.seg = w.seg) _ _ w
    ⟨rfl, rfl, rfl⟩
    (fun i s _ h => by
      have hf := gaspi_bulk_sync_wait_frame b i s
      exact ⟨hf.1.trans h.1, hf.2.1.trans h.2.1, hf.2.2.trans h.2.2⟩)

/-- An iteration of the asynchronous loop does not change `comm_data`. -/
theorem gaspi_async_iter_cd (dim2 b : Nat) (w : World) :
    (gaspi_async_iter dim2 b w).world.cd = w.cd := by
  unfold gaspi_async_iter
  simp only
  cases hnot : w.notifications with
  | nil => simp [World.emit, hnot, Outcome.world]
  | cons hd rest =>
    obtain ⟨id, value⟩ := hd
    simp only [World.emit, hnot]
    split
    · simp [Outcome.world]
    · split <;> simp [Outcome.world]

theorem gaspi_async_all_cd (dim2 b : Nat) (w : World) :
    (gaspi_async_all dim2 b w).world.cd = w.cd := by
  unfold gaspi_async_all
  exact for_loop_rule_world (fun s => s.cd = w.cd) _ _ w rfl
    (fun i s _ h => (gaspi_async_iter_cd dim2 b s).trans h)

/-! ## Stage counters -/

theorem inc_stage_stage (w : World) :
    (inc_stage w).cd.send_stage = w.cd.send_stage + 1
      ∧ (inc_stage w).cd.recv_stage = w.cd.recv_stage + 1 := ⟨rfl, rfl⟩

theorem gaspi_bulk_sync_stage (t : ThreadCtx) (dim2 : Int) (w w2 : World)
    (h : exchange_dbl_gaspi_bulk_sync t dim2 w = .ok w2) :
    w2.cd.send_stage = w.cd.send_stage + (if this_is_the_last_thread t then 1 else 0)
      ∧ w2.cd.recv_stage = w.cd.recv_stage + (if this_is_the_last_thread t then 1 else 0) := by
  unfold exchange_dbl_gaspi_bulk_sync at h
  simp only at h
  split at h
  · cases h
  · split at h
    · cases h
    · split at h
      · cases h
      · split at h
        · rename_i hlast
          have hf := gaspi_wait_all_frame
            ((gaspi_write_all dim2.toNat (w.cd.send_stage % 2) w).cd.recv_stage % 2)
            (gaspi_write_all dim2.toNat (w.cd.send_stage % 2) w)
          cases hw : gaspi_wait_all
              ((gaspi_write_all dim2.toNat (w.cd.send_stage % 2) w).cd.recv_stage % 2)
              (gaspi_write_all dim2.toNat (w.cd.send_stage % 2) w) with
          | ok s =>
            rw [hw] at h hf
            simp only [Outcome.bind, Outcome.ok.injEq] at h
            subst h
            simp only [Outcome.world] at hf
            simp [hlast, inc_stage, gaspi_copy_out_all_cd, hf.1, gaspi_write_all_cd]
          | abort s => rw [hw] at h; cases h
          | hang s => rw [hw] at h; cases h
        · rename_i hlast
          cases h
          simp [hlast]

theorem gaspi_async_stage (t : ThreadCtx) (dim2 : Int) (w w2 : World)
    (h : exchange_dbl_gaspi_async t dim2 w = .ok w2) :
    w2.cd.send_stage = w.cd.send_stage + (if this_is_the_last_thread t then 1 else 0)
      ∧ w2.cd.recv_stage = w.cd.recv_stage + (if this_is_the_last_thread t then 1 else 0) := by
  unfold exchange_dbl_gaspi_async at h
  simp only at h
  split at h
  · cases h
  · split at h
    · cases h
    · split at h
      · cases h
      · have key : ∀ o : Outcome, o.world.cd = w.cd →
            (o.bind fun w1 => if this_is_the_last_thread t then .ok (inc_stage w1) else .ok w1)
              = .ok w2 →
            w2.cd.send_stage = w.cd.send_stage + (if this_is_the_last_thread t then 1 else 0)
              ∧ w2.cd.recv_stage
                = w.cd.recv_stage + (if this_is_the_last_thread t then 1 else 0) := by
          intro o ho hb
          cases o with
          | ok s =>
            simp only [Outcome.bind] at hb
            simp only [Outcome.world] at ho
            split at hb
            · rename_i hlast
              cases hb
              simp [hlast, inc_stage, ho]
            · rename_i hlast
              cases hb
              simp [hlast, ho]
          | abort s => cases hb
          | hang s => cases hb
        split at h
        · exact key _ (gaspi_async_all_cd _ _ w) h
        · exact key (.ok w) rfl h

theorem mpifence_bulk_sync_stage (t : ThreadCtx) (dim2 : Int) (w w2 : World)
    (h : exchange_dbl_mpifence_bulk_sync t dim2 w = .ok w2) :
    w2.cd.send_stage = w.cd.send_stage + (if this_is_the_last_thread t then 1 else 0)
      ∧ w2.cd.recv_stage = w.cd.recv_stage + (if this_is_the_last_thread t then 1 else 0) := by
  unfold exchange_dbl_mpifence_bulk_sync at h
  split at h
  · rename_i hlast
    simp only at h
    split at h
    · cases h
    · split at h
      · cases h
      · cases h
        simp [hlast, inc_stage, mpidma_copy_out_all_cd, mpidma_write_all_cd]
  · rename_i hlast
    cases h
    simp [hlast]

theorem mpipscw_bulk_sync_stage (t : ThreadCtx) (dim2 : Int) (w w2 : World)
    (h : exchange_dbl_mpipscw_bulk_sync t dim2 w = .ok w2) :
    w2.cd.send_stage = w.cd.send_stage + (if this_is_the_last_thread t then 1 else 0)
      ∧ w2.cd.recv_stage = w.cd.recv_stage + (if this_is_the_last_thread t then 1 else 0) := by
  unfold exchange_dbl_mpipscw_bulk_sync at h
  split at h
  · rename_i hlast
    simp only at h
    split at h
    · cases h
    · split at h
      · cases h
      · cases h
        simp [hlast, inc_stage, mpidma_copy_out_all_cd, mpidma_write_all_cd,
          mpidma_async_wait, mpidma_async_complete, mpidma_async_post_start]
  · rename_i hlast
    cases h
    simp [hlast]

theorem exchange_stage (v : Variant) (t : ThreadCtx) (dim2 : Int) (w w2 : World)
    (h : exchange v t dim2 w = .ok w2) :
    w2.cd.send_stage = w.cd.send_stage + (if this_is_the_last_thread t then 1 else 0)
      ∧ w2.cd.recv_stage = w.cd.recv_stage + (if this_is_the_last_thread t then 1 else 0) := by
  cases v with
  | gaspi_bulk_sync => exact gaspi_bulk_sync_stage t dim2 w w2 h
  | gaspi_async => exact gaspi_async_stage t dim2 w w2 h
  | mpifence_bulk_sync => exact mpifence_bulk_sync_stage t dim2 w w2 h
  | mpipscw_bulk_sync => exact mpipscw_bulk_sync_stage t dim2 w w2 h

theorem team_round_stage (v : Variant) (n : Nat) (dim2 : Int) (sched : List Nat)
    (w w2 : World)
    (h : team_round (fun t s => exchange v t dim2 s) n sched w = .ok w2) :
    w2.cd.send_stage = w.cd.send_stage
        + sched.countP (fun tid => this_is_the_last_thread { tid := tid, nthreads := n })
      ∧ w2.cd.recv_stage = w.cd.recv_stage
        + sched.countP (fun tid => this_is_the_last_thread { tid := tid, nthreads := n }) := by
  induction sched generalizing w with
  | nil =>
    simp only [team_round, List.foldl_nil, Outcome.ok.injEq] at h
    subst h
    simp
  | cons tid rest ih =>
    rw [team_round_cons] at h
    cases hf : exchange v { tid := tid, nthreads := n } dim2 w with
    | ok s =>
      rw [hf] at h
      simp only [Outcome.bind] at h
      have h1 := exchange_stage v _ dim2 w s hf
      have h2 := ih s h
      rw [List.countP_cons]
      constructor
      · rw [h2.1, h1.1]; omega
      · rw [h2.2, h1.2]; omega
    | abort s => rw [hf] at h; cases h
    | hang s => rw [hf] at h; cases h

/-- In a schedule of a team of `n ≥ 1` threads exactly one call is by the last thread. -/
theorem count_last_thread (n : Nat) (sched : List Nat) (hn : 0 < n)
    (hperm : sched.Perm (List.range n)) :
    sched.countP (fun tid => this_is_the_last_thread { tid := tid, nthreads := n }) = 1 := by
  rw [hperm.countP_eq]
  have h1 : (List.range n).countP
      (fun tid => this_is_the_last_thread { tid := tid, nthreads := n })
      = (List.range n).count (n - 1) := by
    unfold List.count
    apply List.countP_congr
    intro x _
    simp only [this_is_the_last_thread, beq_iff_eq]
    omega
  rw [h1]
  exact List.count_eq_one_of_mem (List.nodup_range n) (List.mem_range.mpr (by omega))

/-! ## Segments named by the actions of a round -/

theorem extends_refl (P : Event → Prop) (w : World) : extends_by P w w :=
  ⟨[], by simp, by simp⟩

theorem extends_trans (P : Event → Prop) (w s u : World) (h1 : extends_by P w s)
    (h2 : extends_by P s u) : extends_by P w u := by
  obtain ⟨es1, ht1, hp1⟩ := h1
  obtain ⟨es2, ht2, hp2⟩ := h2
  refine ⟨es1 ++ es2, by rw [ht2, ht1, List.append_assoc], ?_⟩
  intro e he
  rcases List.mem_append.mp he with h | h
  · exact hp1 e h
  · exact hp2 e h

theorem new_events_of_extends (P : Event → Prop) (w s : World) (h : extends_by P w s) :
    ∀ e ∈ new_events w s, P e := by
  obtain ⟨es, ht, hp⟩ := h
  unfold new_events
  rw [ht, List.drop_left]
  exact hp

theorem gaspi_write_slots (dim2 bs br i : Nat) (w : World) :
    extends_by (Event.uses_slots bs br) w (exchange_dbl_gaspi_write dim2 bs i w) := by
  refine ⟨_, gaspi_write_trace dim2 bs i w, ?_⟩
  intro e he
  split at he
  · simp only [List.mem_cons, List.mem_singleton, List.not_mem_nil, or_false] at he
    rcases he with h | h <;> subst h <;> simp [Event.uses_slots]
  · simp at he

theorem gaspi_write_all_slots (dim2 bs br : Nat) (w : World) :
    extends_by (Event.uses_slots bs br) w (gaspi_write_all dim2 bs w) := by
  unfold gaspi_write_all
  exact for_each_rule (fun _ s => extends_by (Event.uses_slots bs br) w s) _ _ w
    (extends_refl _ w)
    (fun i s _ h => extends_trans _ w s _ h (gaspi_write_slots dim2 bs br i s))

theorem gaspi_bulk_sync_wait_slots (bs br i : Nat) (w : World) :
    extends_by (Event.uses_slots bs br) w (gaspi_bulk_sync_wait br i w).world := by
  unfold gaspi_bulk_sync_wait
  simp only
  split
  · cases hnot : w.notifications with
    | nil =>
      simp only [World.emit, hnot, Outcome.world]
      exact ⟨_, rfl, by simp [Event.uses_slots]⟩
    | cons hd rest =>
      obtain ⟨id, value⟩ := hd
      simp only [World.emit, hnot]
      split
      · simp only [Outcome.world]
        exact ⟨_, rfl, by simp [Event.uses_slots]⟩
      · split
        · simp only [Outcome.world]
          exact ⟨[Event.notify_waitsome (2 + br) i 1, Event.notify_reset (2 + br) id],
            by simp, by simp [Event.uses_slots]⟩
        · simp only [Outcome.world]
          exact ⟨[Event.notify_waitsome (2 + br) i 1, Event.notify_reset (2 + br) id],
            by simp, by simp [Event.uses_slots]⟩
  · exact extends_refl _ w

theorem gaspi_wait_all_slots (bs br : Nat) (w : World) :
    extends_by (Event.uses_slots bs br) w (gaspi_wait_all br w).world := by
  unfold gaspi_wait_all
  exact for_loop_rule_world (fun s => extends_by (Event.uses_slots bs br) w s) _ _ w
    (extends_refl _ w)
    (fun i s _ h => extends_trans _ w s _ h (gaspi_bulk_sync_wait_slots bs br i s))

theorem gaspi_copy_out_slots (rc : Nat) (ri : Nat → Nat) (off dim2 bs br : Nat) (w : World) :
    extends_by (Event.uses_slots bs br) w (exchange_dbl_gaspi_copy_out rc ri off dim2 br w) := by
  refine ⟨_, gaspi_copy_out_trace rc ri off dim2 br w, ?_⟩
  intro e he
  split at he
  · simp only [List.mem_singleton] at he
    subst he
    simp [Event.uses_slots]
  · simp at he

theorem gaspi_copy_out_all_slots (dim2 bs br : Nat) (w : World) :
    extends_by (Event.uses_slots bs br) w (gaspi_copy_out_all dim2 br w) := by
  unfold gaspi_copy_out_all
  exact for_each_rule (fun _ s => extends_by (Event.uses_slots bs br) w s) _ _ w
    (extends_refl _ w)
    (fun i s _ h => extends_trans _ w s _ h (gaspi_copy_out_slots _ _ _ dim2 bs br s))

theorem inc_stage_slots (bs br : Nat) (w : World) :
    extends_by (Event.uses_slots bs br) w (inc_stage w) :=
  ⟨[Event.inc_stage], rfl, by simp [Event.uses_slots]⟩

/-- Every action of a call of `exchange_dbl_gaspi_bulk_sync`, however it ends, names the
send slot `send_stage % 2` and the receive slot `recv_stage % 2`. -/
theorem gaspi_bulk_sync_slots (t : ThreadCtx) (dim2 : Int) (w : World) :
    extends_by (Event.uses_slots (w.cd.send_stage % 2) (w.cd.recv_stage % 2)) w
      (exchange_dbl_gaspi_bulk_sync t dim2 w).world := by
  unfold exchange_dbl_gaspi_bulk_sync
  simp only
  split
  · exact extends_refl _ w
  · split
    · exact extends_refl _ w
    · split
      · exact extends_refl _ w
      · split
        · rw [gaspi_write_all_cd]
          have h1 := gaspi_write_all_slots dim2.toNat (w.cd.send_stage % 2)
            (w.cd.recv_stage % 2) w
          have h2 := gaspi_wait_all_slots (w.cd.send_stage % 2) (w.cd.recv_stage % 2)
            (gaspi_write_all dim2.toNat (w.cd.send_stage % 2) w)
          have h12 := extends_trans _ _ _ _ h1 h2
          cases hw : gaspi_wait_all (w.cd.recv_stage % 2)
              (gaspi_write_all dim2.toNat (w.cd.send_stage % 2) w) with
          | ok s =>
            rw [hw] at h12
            simp only [Outcome.bind, Outcome.world] at h12 ⊢
            exact extends_trans _ _ _ _ h12
              (extends_trans _ _ _ _ (gaspi_copy_out_all_slots dim2.toNat _ _ s)
                (inc_stage_slots _ _ _))
          | abort s =>
            rw [hw] at h12
            simpa only [Outcome.bind, Outcome.world] using h12
          | hang s =>
            rw [hw] at h12
            simpa only [Outcome.bind, Outcome.world] using h12
        · exact extends_refl _ w

theorem outcome_of_isOk (o : Outcome) (h : o.isOk = true) : o = .ok o.world := by
  cases o with
  | ok s => rfl
  | abort s => simp [Outcome.isOk] at h
  | hang s => simp [Outcome.isOk] at h

theorem rounds_stage (v : Variant) (n : Nat) (dim2 : Int) (K : Nat) (w0 w : World)
    (hn : 0 < n) (hR : Rounds v n dim2 K w0 w) :
    w.cd.send_stage = w0.cd.send_stage + K ∧ w.cd.recv_stage = w0.cd.recv_stage + K := by
  induction hR with
  | zero => simp
  | succ sched _ hcd hperm hround ih =>
    have h := team_round_stage v n dim2 sched _ _ hround
    rw [count_last_thread n sched hn hperm, hcd] at h
    constructor
    · rw [h.1, ih.1]; omega
    · rw [h.2, ih.2]; omega

/-- C4. Stage/parity invariant.  Starting from `send_stage = recv_stage = 0`, after `K`
completed rounds of one of `exchange_dbl_gaspi_bulk_sync`, `exchange_dbl_gaspi_async`,
`exchange_dbl_mpifence_bulk_sync`, `exchange_dbl_mpipscw_bulk_sync` (each round: every
thread of a team of `nthreads ≥ 1` threads calls the function once, in any order),
`send_stage = recv_stage = K`; every completed round preserves
`send_stage = recv_stage`; and every segment the next call of
`exchange_dbl_gaspi_bulk_sync` names, for sending and for receiving, is that of slot
`K % 2`. -/
theorem stage_parity_invariant (v : Variant) (nthreads : Nat) (dim2 : Int) (K : Nat)
    (w0 w : World) (hn : 0 < nthreads)
    (h0s : w0.cd.send_stage = 0) (h0r : w0.cd.recv_stage = 0)
    (hR : Rounds v nthreads dim2 K w0 w) :
    (w.cd.send_stage = K ∧ w.cd.recv_stage = K)
    ∧ (∀ (sched : List Nat) (w2 w3 : World),
        w2.cd.send_stage = w2.cd.recv_stage →
        sched.Perm (List.range nthreads) →
        team_round (fun t s => exchange v t dim2 s) nthreads sched w2 = .ok w3 →
        w3.cd.send_stage = w3.cd.recv_stage)
    ∧ (∀ (t : ThreadCtx) (d : Int) (w2 : World), w2.cd = w.cd →
        ∀ e ∈ new_events w2 (exchange_dbl_gaspi_bulk_sync t d w2).world,
          e.uses_slots (K % 2) (K % 2)) := by
  have hst := rounds_stage v nthreads dim2 K w0 w hn hR
  rw [h0s, h0r, Nat.zero_add] at hst
  refine ⟨hst, ?_, ?_⟩
  · intro sched w2 w3 heq hperm hround
    have h := team_round_stage v nthreads dim2 sched w2 w3 hround
    rw [h.1, h.2, heq]
  · intro t d w2 hcd
    have h := gaspi_bulk_sync_slots t d w2
    rw [hcd, hst.1, hst.2] at h
    exact new_events_of_extends _ _ _ h

/-- Witness for C4: one completed round of the bulk-synchronous notify variant on domain
`B` of the concrete scenario, team of two threads. -/
theorem stage_parity_invariant_witness :
    0 < 2 ∧ scenario_B.cd.send_stage = 0 ∧ scenario_B.cd.recv_stage = 0
    ∧ Rounds Variant.gaspi_bulk_sync 2 2 1 scenario_B scenario_B_after
    ∧ ((scenario_B_after.cd.send_stage = 1 ∧ scenario_B_after.cd.recv_stage = 1)
      ∧ (∀ (sched : List Nat) (w2 w3 : World),
          w2.cd.send_stage = w2.cd.recv_stage →
          sched.Perm (List.range 2) →
          team_round (fun t s => exchange Variant.gaspi_bulk_sync t 2 s) 2 sched w2 = .ok w3 →
          w3.cd.send_stage = w3.cd.recv_stage)
      ∧ (∀ (t : ThreadCtx) (d : Int) (w2 : World), w2.cd = scenario_B_after.cd →
          ∀ e ∈ new_events w2 (exchange_dbl_gaspi_bulk_sync t d w2).world,
            e.uses_slots (1 % 2) (1 % 2))) :=
  have hR : Rounds Variant.gaspi_bulk_sync 2 2 1 scenario_B scenario_B_after :=
    Rounds.succ [1, 0] (Rounds.zero scenario_B) rfl (by decide)
      (outcome_of_isOk _ (by decide))
  ⟨by decide, rfl, rfl, hR,
    stage_parity_invariant Variant.gaspi_bulk_sync 2 2 1 scenario_B scenario_B_after
      (by decide) rfl rfl hR⟩

/-! ## Counting the calls of a round -/

theorem countP_range_succ (q : Nat → Bool) (n : Nat) :
    (List.range (n + 1)).countP q = (List.range n).countP q + (if q n = true then 1 else 0) := by
  rw [List.range_succ, List.countP_append, List.countP_singleton]

theorem count_new_events (P : Event → Prop) (p : Event → Bool) (w s : World)
    (h : extends_by P w s) :
    s.trace.countP p = w.trace.countP p + (new_events w s).countP p := by
  obtain ⟨es, ht, _⟩ := h
  unfold new_events
  rw [ht, List.drop_left, List.countP_append]

theorem gaspi_write_counts (dim2 b i : Nat) (w : World) :
    (exchange_dbl_gaspi_write dim2 b i w).trace.countP Event.is_write_notify
        = w.trace.countP Event.is_write_notify
          + (if decide (0 < w.cd.sendcount (w.cd.commpartner i)) = true then 1 else 0)
      ∧ (exchange_dbl_gaspi_write dim2 b i w).trace.countP Event.is_waitsome
        = w.trace.countP Event.is_waitsome
      ∧ (exchange_dbl_gaspi_write dim2 b i w).trace.countP Event.is_reset
        = w.trace.countP Event.is_reset := by
  rw [gaspi_write_trace]
  by_cases h : 0 < w.cd.sendcount (w.cd.commpartner i) <;>
    simp [h, List.countP_append, List.countP_cons, Event.is_write_notify, Event.is_waitsome,
      Event.is_reset]

theorem gaspi_write_all_counts (dim2 b : Nat) (w : World) :
    (gaspi_write_all dim2 b w).trace.countP Event.is_write_notify
        = w.trace.countP Event.is_write_notify + partners_with w.cd.sendcount w.cd
      ∧ (gaspi_write_all dim2 b w).trace.countP Event.is_waitsome
        = w.trace.countP Event.is_waitsome
      ∧ (gaspi_write_all dim2 b w).trace.countP Event.is_reset
        = w.trace.countP Event.is_reset := by
  unfold gaspi_write_all partners_with
  have h := for_each_rule
    (fun n s => s.cd = w.cd
      ∧ s.trace.countP Event.is_write_notify = w.trace.countP Event.is_write_notify
          + (List.range n).countP (fun i => decide (0 < w.cd.sendcount (w.cd.commpartner i)))
      ∧ s.trace.countP Event.is_waitsome = w.trace.countP Event.is_waitsome
      ∧ s.trace.countP Event.is_reset = w.trace.countP Event.is_reset)
    (fun i s => exchange_dbl_gaspi_write dim2 b i s) w.cd.ncommdomains w
    ⟨rfl, by simp, rfl, rfl⟩
    (fun i s _ hJ => by
      obtain ⟨hcd, h1, h2, h3⟩ := hJ
      have hc := gaspi_write_counts dim2 b i s
      rw [hcd] at hc
      refine ⟨by simp [hcd], ?_, by rw [hc.2.1, h2], by rw [hc.2.2, h3]⟩
      rw [hc.1, h1, countP_range_succ]
      omega)
  exact h.2

theorem gaspi_bulk_sync_wait_ok_counts (b i : Nat) (w w2 : World)
    (h : gaspi_bulk_sync_wait b i w = .ok w2) :
    w2.cd = w.cd
      ∧ w2.trace.countP Event.is_waitsome = w.trace.countP Event.is_waitsome
          + (if decide (0 < w.cd.recvcount (w.cd.commpartner i)) = true then 1 else 0)
      ∧ w2.trace.countP Event.is_reset = w.trace.countP Event.is_reset
          + (if decide (0 < w.cd.recvcount (w.cd.commpartner i)) = true then 1 else 0) := by
  unfold gaspi_bulk_sync_wait at h
  simp only at h
  split at h
  · rename_i hpos
    cases hnot : w.notifications with
    | nil => simp [World.emit, hnot] at h
    | cons hd rest =>
      obtain ⟨id, value⟩ := hd
      simp only [World.emit, hnot] at h
      split at h
      · cases h
      · split at h
        · cases h
        · cases h
          simp [hpos, List.countP_append, List.countP_cons, Event.is_waitsome, Event.is_reset]
  · rename_i hpos
    cases h
    simp [hpos]

theorem gaspi_bulk_sync_wait_writes (b i : Nat) (w : World) :
    (gaspi_bulk_sync_wait b i w).world.trace.countP Event.is_write_notify
      = w.trace.countP Event.is_write_notify := by
  unfold gaspi_bulk_sync_wait
  simp only
  split
  · cases hnot : w.notifications with
    | nil => simp [World.emit, hnot, Outcome.world, List.countP_append, Event.is_write_notify]
    | cons hd rest =>
      obtain ⟨id, value⟩ := hd
      simp only [World.emit, hnot]
      split
      · simp [Outcome.world, List.countP_append, Event.is_write_notify]
      · split <;>
          simp [Outcome.world, List.countP_append, List.countP_cons, Event.is_write_notify]
  · simp [Outcome.world]

theorem gaspi_wait_all_writes (b : Nat) (w : World) :
    (gaspi_wait_all b w).world.trace.countP Event.is_write_notify
      = w.trace.countP Event.is_write_notify := by
  unfold gaspi_wait_all
  exact for_loop_rule_world
    (fun s => s.trace.countP Event.is_write_notify = w.trace.countP Event.is_write_notify)
    _ _ w rfl (fun i s _ h => (gaspi_bulk_sync_wait_writes b i s).trans h)

theorem gaspi_wait_all_ok_counts (b : Nat) (w w2 : World) (h : gaspi_wait_all b w = .ok w2) :
    w2.trace.countP Event.is_waitsome
        = w.trace.countP Event.is_waitsome + partners_with w.cd.recvcount w.cd
      ∧ w2.trace.countP Event.is_reset
        = w.trace.countP Event.is_reset + partners_with w.cd.recvcount w.cd := by
  unfold gaspi_wait_all at h
  unfold partners_with
  have hJ := for_loop_rule_ok
    (fun n s => s.cd = w.cd
      ∧ s.trace.countP Event.is_waitsome = w.trace.countP Event.is_waitsome
          + (List.range n).countP (fun i => decide (0 < w.cd.recvcount (w.cd.commpartner i)))
      ∧ s.trace.countP Event.is_reset = w.trace.countP Event.is_reset
          + (List.range n).countP (fun i => decide (0 < w.cd.recvcount (w.cd.commpartner i))))
    (gaspi_bulk_sync_wait b) w.cd.ncommdomains w
    ⟨rfl, by simp, by simp⟩
    (fun i s s2 _ hJ hok => by
      obtain ⟨hcd, h1, h2⟩ := hJ
      have hc := gaspi_bulk_sync_wait_ok_counts b i s s2 hok
      rw [hcd] at hc
      refine ⟨hc.1, ?_, ?_⟩
      · rw [hc.2.1, h1, countP_range_succ]; omega
      · rw [hc.2.2, h2, countP_range_succ]; omega)
    w2 h
  exact hJ.2

theorem gaspi_copy_out_counts (rc : Nat) (ri : Nat → Nat) (off dim2 b : Nat) (w : World) :
    (exchange_dbl_gaspi_copy_out rc ri off dim2 b w).trace.countP Event.is_write_notify
        = w.trace.countP Event.is_write_notify
      ∧ (exchange_dbl_gaspi_copy_out rc ri off dim2 b w).trace.countP Event.is_waitsome
        = w.trace.countP Event.is_waitsome
      ∧ (exchange_dbl_gaspi_copy_out rc ri off dim2 b w).trace.countP Event.is_reset
        = w.trace.countP Event.is_reset := by
  rw [gaspi_copy_out_trace]
  by_cases h : 0 < rc <;>
    simp [h, List.countP_append, List.countP_cons, Event.is_write_notify, Event.is_waitsome,
      Event.is_reset]

theorem gaspi_copy_out_all_counts (dim2 b : Nat) (w : World) :
    (gaspi_copy_out_all dim2 b w).trace.countP Event.is_write_notify
        = w.trace.countP Event.is_write_notify
      ∧ (gaspi_copy_out_all dim2 b w).trace.countP Event.is_waitsome
        = w.trace.countP Event.is_waitsome
      ∧ (gaspi_copy_out_all dim2 b w).trace.countP Event.is_reset
        = w.trace.countP Event.is_reset := by
  unfold gaspi_copy_out_all
  exact for_each_rule
    (fun _ s => s.trace.countP Event.is_write_notify = w.trace.countP Event.is_write_notify
      ∧ s.trace.countP Event.is_waitsome = w.trace.countP Event.is_waitsome
      ∧ s.trace.countP Event.is_reset = w.trace.countP Event.is_reset)
    _ _ w ⟨rfl, rfl, rfl⟩
    (fun i s _ hJ => by
      have hc := gaspi_copy_out_counts (s.cd.recvcount (s.cd.commpartner i))
        (s.cd.recvindex (s.cd.commpartner i)) (s.cd.local_recv_offset (s.cd.commpartner i))
        dim2 b s
      exact ⟨hc.1.trans hJ.1, hc.2.1.trans hJ.2.1, hc.2.2.trans hJ.2.2⟩)

theorem inc_stage_counts (w : World) :
    (inc_stage w).trace.countP Event.is_write_notify = w.trace.countP Event.is_write_notify
      ∧ (inc_stage w).trace.countP Event.is_waitsome = w.trace.countP Event.is_waitsome
      ∧ (inc_stage w).trace.countP Event.is_reset = w.trace.countP Event.is_reset := by
  simp [inc_stage, List.countP_append, Event.is_write_notify, Event.is_waitsome,
    Event.is_reset]

/-- The body of `exchange_dbl_gaspi_bulk_sync` that the last thread runs once the
assertions at the head of the function have passed. -/
theorem gaspi_bulk_sync_last (t : ThreadCtx) (dim2 : Int) (w : World)
    (hlast : this_is_the_last_thread t = true) (hd : 0 < dim2)
    (hn : w.cd.ncommdomains ≠ 0) (hs : gaspi_segment_num w = 4) :
    exchange_dbl_gaspi_bulk_sync t dim2 w
      = (gaspi_wait_all (w.cd.recv_stage % 2)
          (gaspi_write_all dim2.toNat (w.cd.send_stage % 2) w)).bind
        (fun w2 => .ok (inc_stage (gaspi_copy_out_all dim2.toNat (w.cd.recv_stage % 2) w2))) := by
  unfold exchange_dbl_gaspi_bulk_sync
  simp [hlast, hd, hn, hs, gaspi_write_all_cd]

/-- C5. Zero-count no-op in the bulk-synchronous notify round.  For a partner with
`sendcount = 0`, `exchange_dbl_gaspi_write` changes nothing (no byte of the send buffer,
no `gaspi_write_notify`); for a partner with `recvcount = 0` the wait loop issues no
`gaspi_notify_waitsome` and no `gaspi_notify_reset`, and `exchange_dbl_gaspi_copy_out`
with count 0 changes nothing.  In a round run by the last thread past the assertions,
the number of `gaspi_write_notify` calls equals the number of partner-list positions
with `sendcount > 0` (however the round ends), and in a round that returns the numbers
of `gaspi_notify_waitsome` and of `gaspi_notify_reset` calls both equal the number of
positions with `recvcount > 0`. -/
theorem zero_count_noop_bulk_sync (t : ThreadCtx) (dim2 : Int) (w : World)
    (hlast : this_is_the_last_thread t = true) (hd : 0 < dim2)
    (hn : w.cd.ncommdomains ≠ 0) (hs : gaspi_segment_num w = 4) :
    (∀ (b i : Nat) (s : World), s.cd.sendcount (s.cd.commpartner i) = 0 →
        exchange_dbl_gaspi_write dim2.toNat b i s = s)
    ∧ (∀ (b i : Nat) (s : World), s.cd.recvcount (s.cd.commpartner i) = 0 →
        gaspi_bulk_sync_wait b i s = .ok s)
    ∧ (∀ (ri : Nat → Nat) (off b : Nat) (s : World),
        exchange_dbl_gaspi_copy_out 0 ri off dim2.toNat b s = s)
    ∧ (new_events w (exchange_dbl_gaspi_bulk_sync t dim2 w).world).countP Event.is_write_notify
        = partners_with w.cd.sendcount w.cd
    ∧ (∀ w2, exchange_dbl_gaspi_bulk_sync t dim2 w = .ok w2 →
        (new_events w w2).countP Event.is_waitsome = partners_with w.cd.recvcount w.cd
        ∧ (new_events w w2).countP Event.is_reset = partners_with w.cd.recvcount w.cd) := by
  refine ⟨?_, ?_, ?_, ?_, ?_⟩
  · intro b i s h
    simp [exchange_dbl_gaspi_write, h]
  · intro b i s h
    simp [gaspi_bulk_sync_wait, h]
  · intro ri off b s
    simp [exchange_dbl_gaspi_copy_out]
  · have hext := gaspi_bulk_sync_slots t dim2 w
    have hcount := count_new_events _ Event.is_write_notify _ _ hext
    have hwr := gaspi_write_all_counts dim2.toNat (w.cd.send_stage % 2) w
    have hwa := gaspi_wait_all_writes (w.cd.recv_stage % 2)
      (gaspi_write_all dim2.toNat (w.cd.send_stage % 2) w)
    rw [gaspi_bulk_sync_last t dim2 w hlast hd hn hs] at hcount ⊢
    cases hw : gaspi_wait_all (w.cd.recv_stage % 2)
        (gaspi_write_all dim2.toNat (w.cd.send_stage % 2) w) with
    | ok s2 =>
      rw [hw] at hcount hwa
      simp only [Outcome.bind, Outcome.world] at hcount hwa ⊢
      rw [(inc_stage_counts _).1, (gaspi_copy_out_all_counts _ _ _).1, hwa, hwr.1] at hcount
      omega
    | abort s2 =>
      rw [hw] at hcount hwa
      simp only [Outcome.bind, Outcome.world] at hcount hwa ⊢
      rw [hwa, hwr.1] at hcount
      omega
    | hang s2 =>
      rw [hw] at hcount hwa
      simp only [Outcome.bind, Outcome.world] at hcount hwa ⊢
      rw [hwa, hwr.1] at hcount
      omega
  · intro w2 hok
    have hext := gaspi_bulk_sync_slots t dim2 w
    rw [hok] at hext
    simp only [Outcome.world] at hext
    have hc1 := count_new_events _ Event.is_waitsome _ _ hext
    have hc2 := count_new_events _ Event.is_reset _ _ hext
    have hwr := gaspi_write_all_counts dim2.toNat (w.cd.send_stage % 2) w
    rw [gaspi_bulk_sync_last t dim2 w hlast hd hn hs] at hok
    cases hw : gaspi_wait_all (w.cd.recv_stage % 2)
        (gaspi_write_all dim2.toNat (w.cd.send_stage % 2) w) with
    | ok s2 =>
      rw [hw] at hok
      simp only [Outcome.bind, Outcome.ok.injEq] at hok
      subst hok
      have hwa := gaspi_wait_all_ok_counts _ _ s2 hw
      rw [gaspi_write_all_cd] at hwa
      rw [(inc_stage_counts _).2.1, (gaspi_copy_out_all_counts _ _ _).2.1, hwa.1, hwr.2.1] at hc1
      rw [(inc_stage_counts _).2.2, (gaspi_copy_out_all_counts _ _ _).2.2, hwa.2, hwr.2.2] at hc2
      omega
    | abort s2 => rw [hw] at hok; cases hok
    | hang s2 => rw [hw] at hok; cases hok

/-- Witness for C5: the process with two partners, one of them with zero counts; its
round issues one `gaspi_write_notify`. -/
theorem zero_count_noop_bulk_sync_witness :
    this_is_the_last_thread { tid := 0, nthreads := 1 } = true
    ∧ (0 : Int) < 2
    ∧ two_partner_world.cd.ncommdomains ≠ 0
    ∧ gaspi_segment_num two_partner_world = 4
    ∧ (new_events two_partner_world
          (exchange_dbl_gaspi_bulk_sync { tid := 0, nthreads := 1 } 2
            two_partner_world).world).countP Event.is_write_notify
        = partners_with two_partner_world.cd.sendcount two_partner_world.cd
    ∧ partners_with two_partner_world.cd.sendcount two_partner_world.cd = 1
    ∧ partners_with two_partner_world.cd.recvcount two_partner_world.cd = 1 :=
  ⟨rfl, by decide, by decide, rfl,
    (zero_count_noop_bulk_sync { tid := 0, nthreads := 1 } 2 two_partner_world rfl (by decide)
      (by decide) rfl).2.2.2.1,
    by decide, by decide⟩

/-- C6. The asynchronous notify round at a partner list with a zero-count partner.  For
the process `two_partner_world` (partners 1 and 2, `recvcount` 2 and 0, the one
notification of the round arriving) one position has `recvcount > 0`, yet the first
thread issues two `gaspi_notify_waitsome` calls and the second one never returns. -/
theorem gaspi_async_waits_for_zero_count_partner :
    partners_with two_partner_world.cd.recvcount two_partner_world.cd = 1
    ∧ (exchange_dbl_gaspi_async { tid := 0, nthreads := 1 } 2 two_partner_world).isHang = true
    ∧ (new_events two_partner_world
          (exchange_dbl_gaspi_async { tid := 0, nthreads := 1 } 2
            two_partner_world).world).countP Event.is_waitsome = 2
    ∧ (new_events two_partner_world
          (exchange_dbl_gaspi_async { tid := 0, nthreads := 1 } 2
            two_partner_world).world).countP Event.is_reset = 1
    ∧ (exchange_dbl_gaspi_bulk_sync { tid := 0, nthreads := 1 } 2 two_partner_world).isOk = true
    ∧ (new_events two_partner_world
          (exchange_dbl_gaspi_bulk_sync { tid := 0, nthreads := 1 } 2
            two_partner_world).world).countP Event.is_waitsome = 1 := by
  decide

/-! ## Notification validation -/

theorem gaspi_wait_loop_frame (b n : Nat) (w : World) :
    (for_loop (gaspi_bulk_sync_wait b) n w).world.cd = w.cd
      ∧ (for_loop (gaspi_bulk_sync_wait b) n w).world.data = w.data
      ∧ (for_loop (gaspi_bulk_sync_wait b) n w).world.seg = w.seg :=
  for_loop_rule_world (fun s => s.cd = w.cd ∧ s.data = w.data ∧ s.seg = w.seg) _ _ w
    ⟨rfl, rfl, rfl⟩
    (fun i s _ h => by
      have hf := gaspi_bulk_sync_wait_frame b i s
      exact ⟨hf.1.trans h.1, hf.2.1.trans h.2.1, hf.2.2.trans h.2.2⟩)

theorem gaspi_async_loop_cd (dim2 b n : Nat) (w : World) :
    (for_loop (fun _ s => gaspi_async_iter dim2 b s) n w).world.cd = w.cd :=
  for_loop_rule_world (fun s => s.cd = w.cd) _ _ w rfl
    (fun _ s _ h => (gaspi_async_iter_cd dim2 b s).trans h)

theorem gaspi_bulk_sync_wait_rejects (b i : Nat) (s : World) (id value : Nat)
    (rest : List (Nat × Nat)) (hpos : 0 < s.cd.recvcount (s.cd.commpartner i))
    (hnot : s.notifications = (id, value) :: rest) (hbad : id ≠ i ∨ value ≠ 1) :
    (gaspi_bulk_sync_wait b i s).isAbort = true := by
  unfold gaspi_bulk_sync_wait
  simp only [hpos, if_true, World.emit, hnot]
  by_cases hid : id = i
  · have hv : value ≠ 1 := by
      rcases hbad with h | h
      · exact absurd hid h
      · exact h
    simp [hid, hv, Outcome.isAbort]
  · simp [hid, Outcome.isAbort]

theorem gaspi_async_iter_rejects (dim2 b : Nat) (s : World) (id value : Nat)
    (rest : List (Nat × Nat)) (hnot : s.notifications = (id, value) :: rest)
    (hbad : value = 0 ∨ s.cd.recvcount (s.cd.commpartner id) = 0) :
    (gaspi_async_iter dim2 b s).isAbort = true
      ∧ (gaspi_async_iter dim2 b s).world.data = s.data := by
  unfold gaspi_async_iter
  simp only [World.emit, hnot]
  by_cases hv : value = 0
  · simp [hv, Outcome.isAbort, Outcome.world]
  · have hr : s.cd.recvcount (s.cd.commpartner id) = 0 := by
      rcases hbad with h | h
      · exact absurd h hv
      · exact h
    simp [hv, hr, Outcome.isAbort, Outcome.world]

theorem outcome_of_isAbort (o : Outcome) (h : o.isAbort = true) : o = .abort o.world := by
  cases o with
  | ok s => simp [Outcome.isAbort] at h
  | abort s => rfl
  | hang s => simp [Outcome.isAbort] at h

theorem isOk_of_isAbort (o : Outcome) (h : o.isAbort = true) : o.isOk = false := by
  cases o with
  | ok s => simp [Outcome.isAbort] at h
  | abort s => rfl
  | hang s => rfl

/-- C7 (amended).  Notification validation.  In `exchange_dbl_gaspi_bulk_sync` (last
thread, past the assertions at the head): if the waits for the list positions before
`i` have returned, position `i` has `recvcount > 0`, and the wait for it returns an id
other than `i` or the reset returns a value other than 1, the call aborts; the field
array and `comm_data` (stage counters included) are as at the start of the call, so
nothing was unpacked.  In `exchange_dbl_gaspi_async` (first thread): if the first `i`
iterations have returned and in the next one the reset returns the value 0, or the id
returned by the wait, inside the partner list, names a partner with `recvcount = 0`,
the call aborts; the field array is as before that iteration, so no data of that
partner was unpacked, and `comm_data` is as at the start of the call. -/
theorem notification_validation (t : ThreadCtx) (dim2 : Int) (w : World)
    (hd : 0 < dim2) (hn : w.cd.ncommdomains ≠ 0) (hs : gaspi_segment_num w = 4) :
    (∀ (i : Nat) (s : World) (id value : Nat) (rest : List (Nat × Nat)),
      this_is_the_last_thread t = true →
      i < w.cd.ncommdomains →
      for_loop (gaspi_bulk_sync_wait (w.cd.recv_stage % 2)) i
          (gaspi_write_all dim2.toNat (w.cd.send_stage % 2) w) = .ok s →
      0 < w.cd.recvcount (w.cd.commpartner i) →
      s.notifications = (id, value) :: rest →
      (id ≠ i ∨ value ≠ 1) →
      ∃ w2, exchange_dbl_gaspi_bulk_sync t dim2 w = .abort w2
        ∧ w2.data = w.data ∧ w2.cd = w.cd)
    ∧ (∀ (i : Nat) (s : World) (id value : Nat) (rest : List (Nat × Nat)),
      this_is_the_first_thread t = true →
      i < w.cd.ncommdomains →
      for_loop (fun _ s => gaspi_async_iter dim2.toNat (w.cd.recv_stage % 2) s) i w = .ok s →
      s.notifications = (id, value) :: rest →
      (value = 0 ∨ (id < w.cd.ncommdomains ∧ w.cd.recvcount (w.cd.commpartner id) = 0)) →
      ∃ w2, exchange_dbl_gaspi_async t dim2 w = .abort w2
        ∧ w2.data = s.data ∧ w2.cd = w.cd) := by
  constructor
  · intro i s id value rest hlast hi hpre hpos hnot hbad
    have hfr := gaspi_wait_loop_frame (w.cd.recv_stage % 2) i
      (gaspi_write_all dim2.toNat (w.cd.send_stage % 2) w)
    rw [hpre] at hfr
    simp only [Outcome.world, gaspi_write_all_cd, gaspi_write_all_data] at hfr
    have hpos2 : 0 < s.cd.recvcount (s.cd.commpartner i) := by rw [hfr.1]; exact hpos
    have hrej := gaspi_bulk_sync_wait_rejects (w.cd.recv_stage % 2) i s id value rest hpos2
      hnot hbad
    have hbf := gaspi_bulk_sync_wait_frame (w.cd.recv_stage % 2) i s
    have hstop := for_loop_stops (gaspi_bulk_sync_wait (w.cd.recv_stage % 2))
      w.cd.ncommdomains i (gaspi_write_all dim2.toNat (w.cd.send_stage % 2) w) s hi hpre
      (isOk_of_isAbort _ hrej)
    refine ⟨(gaspi_bulk_sync_wait (w.cd.recv_stage % 2) i s).world, ?_,
      hbf.2.1.trans hfr.2.1, hbf.1.trans hfr.1⟩
    rw [gaspi_bulk_sync_last t dim2 w hlast hd hn hs]
    unfold gaspi_wait_all
    rw [gaspi_write_all_cd, hstop, outcome_of_isAbort _ hrej]
    rfl
  · intro i s id value rest hfirst hi hpre hnot hbad
    have hcd := gaspi_async_loop_cd dim2.toNat (w.cd.recv_stage % 2) i w
    rw [hpre] at hcd
    simp only [Outcome.world] at hcd
    have hbad2 : value = 0 ∨ s.cd.recvcount (s.cd.commpartner id) = 0 := by
      rcases hbad with h | h
      · exact Or.inl h
      · rw [hcd]; exact Or.inr h.2
    have hrej := gaspi_async_iter_rejects dim2.toNat (w.cd.recv_stage % 2) s id value rest
      hnot hbad2
    have hstop := for_loop_stops
      (fun _ s => gaspi_async_iter dim2.toNat (w.cd.recv_stage % 2) s)
      w.cd.ncommdomains i w s hi hpre (isOk_of_isAbort _ hrej.1)
    obtain ⟨s2, hs2⟩ : ∃ s2, gaspi_async_iter dim2.toNat (w.cd.recv_stage % 2) s = .abort s2 :=
      ⟨_, outcome_of_isAbort _ hrej.1⟩
    have hdata := hrej.2
    have hcd2 := gaspi_async_iter_cd dim2.toNat (w.cd.recv_stage % 2) s
    rw [hs2] at hdata hcd2
    simp only [Outcome.world] at hdata hcd2
    refine ⟨s2, ?_, hdata, hcd2.trans hcd⟩
    unfold exchange_dbl_gaspi_async gaspi_async_all
    simp only [hd, hn, hs, hfirst, not_true_eq_false, not_false_eq_true, if_true, if_false,
      ne_eq]
    rw [hstop]
    simp only [hs2, Outcome.bind]

/-- Witness for C7 (amended): domain `B` of the scenario when the wait returns id 5
instead of 0 (bulk-synchronous round) and when the reset returns 0 (asynchronous
round). -/
theorem notification_validation_witness :
    (0 : Int) < 2 ∧ wrong_id_world.cd.ncommdomains ≠ 0 ∧ gaspi_segment_num wrong_id_world = 4
    ∧ (∃ w2, exchange_dbl_gaspi_bulk_sync { tid := 0, nthreads := 1 } 2 wrong_id_world
          = .abort w2
        ∧ w2.data = wrong_id_world.data ∧ w2.cd = wrong_id_world.cd)
    ∧ (∃ w2, exchange_dbl_gaspi_async { tid := 0, nthreads := 1 } 2 value_zero_world
          = .abort w2
        ∧ w2.data = value_zero_world.data ∧ w2.cd = value_zero_world.cd) :=
  ⟨by decide, by decide, rfl,
    (notification_validation { tid := 0, nthreads := 1 } 2 wrong_id_world (by decide)
      (by decide) rfl).1 0 _ 5 1 [] rfl (by decide) (for_loop_zero _ _) (by decide) rfl
      (Or.inl (by decide)),
    (notification_validation { tid := 0, nthreads := 1 } 2 value_zero_world (by decide)
      (by decide) rfl).2 0 _ 0 0 [] rfl (by decide) (for_loop_zero _ _) rfl (Or.inl rfl)⟩

/-- C7 as stated fails for `exchange_dbl_gaspi_async`: on domain `B` of the scenario with
a notification of value 2 (not the 1 that `exchange_dbl_gaspi_write` attaches) the round
returns, the ghost values are unpacked and both stage counters advance. -/
theorem notification_value_counterexample :
    value_two_world.notifications = [(0, 2)]
    ∧ (exchange_dbl_gaspi_async { tid := 0, nthreads := 1 } 2 value_two_world).isOk = true
    ∧ (exchange_dbl_gaspi_async { tid := 0, nthreads := 1 } 2 value_two_world).world.cd.send_stage
        = value_two_world.cd.send_stage + 1
    ∧ (exchange_dbl_gaspi_async { tid := 0, nthreads := 1 } 2 value_two_world).world.cd.recv_stage
        = value_two_world.cd.recv_stage + 1
    ∧ read_double
          (exchange_dbl_gaspi_async { tid := 0, nthreads := 1 } 2 value_two_world).world.data
          (szd * 6)
        = read_double (mem_of_doubles bits_1_to_6) 0
    ∧ read_double
          (exchange_dbl_gaspi_async { tid := 0, nthreads := 1 } 2 value_two_world).world.data
          (szd * 6)
        ≠ read_double value_two_world.data (szd * 6)
    ∧ (exchange_dbl_gaspi_bulk_sync { tid := 0, nthreads := 1 } 2 value_two_world).isAbort
        = true := by
  decide

/-! ## Configuration checks -/

/-- C8. Configuration mismatch is fatal and leaves no partial state:
`init_gaspi_segments` and `init_mpidma_buffers` abort in the state they were entered in
(no region created or allocated) whenever `dim2` differs from `NGRAD * 3`;
`init_gaspi_segments` does so also whenever a segment already exists; and
`exchange_dbl_gaspi_bulk_sync` and `exchange_dbl_gaspi_async` abort in the state they
were entered in (no buffer write, remote write, wait or stage change) whenever the
number of segments is not 4, or `dim2 <= 0`, or `ncommdomains = 0`, for every thread. -/
theorem config_mismatch_fatal :
    (∀ (NGRAD : Nat) (dim2 : Int) (w : World), dim2 ≠ ((NGRAD * 3 : Nat) : Int) →
      init_gaspi_segments NGRAD dim2 w = .abort w
      ∧ init_mpidma_buffers NGRAD dim2 w = .abort w)
    ∧ (∀ (NGRAD : Nat) (dim2 : Int) (w : World), gaspi_segment_num w ≠ 0 →
      init_gaspi_segments NGRAD dim2 w = .abort w)
    ∧ (∀ (t : ThreadCtx) (dim2 : Int) (w : World),
      (gaspi_segment_num w ≠ 4 ∨ dim2 ≤ 0 ∨ w.cd.ncommdomains = 0) →
      exchange_dbl_gaspi_bulk_sync t dim2 w = .abort w
      ∧ exchange_dbl_gaspi_async t dim2 w = .abort w) := by
  refine ⟨?_, ?_, ?_⟩
  · intro NGRAD dim2 w h
    simp only [init_gaspi_segments, init_mpidma_buffers, ne_eq, h, not_false_eq_true, if_true,
      and_self]
  · intro NGRAD dim2 w h
    unfold init_gaspi_segments
    simp only
    split
    · rfl
    · simp [h]
  · intro t dim2 w h
    unfold exchange_dbl_gaspi_bulk_sync exchange_dbl_gaspi_async
    simp only
    by_cases hd : 0 < dim2
    · by_cases hn : w.cd.ncommdomains = 0
      · simp [hd, hn]
      · have hs : gaspi_segment_num w ≠ 4 := by
          rcases h with h | h | h
          · exact h
          · omega
          · exact absurd h hn
        simp [hd, hn, hs]
    · simp [hd]

/-- Witness for C8: stride 20 against `NGRAD * 3 = 21`; an init with four segments
present; an exchange with three segments present. -/
theorem config_mismatch_fatal_witness :
    (20 : Int) ≠ ((7 * 3 : Nat) : Int) ∧ gaspi_segment_num scenario_A ≠ 0
    ∧ gaspi_segment_num three_segment_world ≠ 4
    ∧ (init_gaspi_segments 7 20 fresh_A = .abort fresh_A
      ∧ init_mpidma_buffers 7 20 fresh_A = .abort fresh_A)
    ∧ init_gaspi_segments 7 21 scenario_A = .abort scenario_A
    ∧ (exchange_dbl_gaspi_bulk_sync { tid := 0, nthreads := 1 } 21 three_segment_world
        = .abort three_segment_world
      ∧ exchange_dbl_gaspi_async { tid := 0, nthreads := 1 } 21 three_segment_world
        = .abort three_segment_world) :=
  ⟨by decide, by decide, by decide,
    config_mismatch_fatal.1 7 20 fresh_A (by decide),
    config_mismatch_fatal.2.1 7 21 scenario_A (by decide),
    config_mismatch_fatal.2.2 { tid := 0, nthreads := 1 } 21 three_segment_world
      (Or.inl (by decide))⟩

/-! ## Regions created by the init functions -/

theorem sum_map_range_succ (f : Nat → Nat) (n : Nat) :
    ((List.range (n + 1)).map f).sum = ((List.range n).map f).sum + f n := by
  simp [List.range_succ]

theorem gaspi_sizes_fold (cd : comm_data) (m n : Nat)
    (hprod : ∀ i, i < n → cd.recvcount (cd.commpartner i) * m < 2147483648
      ∧ cd.sendcount (cd.commpartner i) * m < 2147483648)
    (hr : ((List.range n).map fun i => cd.recvcount (cd.commpartner i)).sum * m * szd
      < 18446744073709551616)
    (hs : ((List.range n).map fun i => cd.sendcount (cd.commpartner i)).sum * m * szd
      < 18446744073709551616) :
    (List.range n).foldl
        (fun (acc : Nat × Nat) i =>
          ((acc.1 + size_t_of_int (int_mul (cd.recvcount (cd.commpartner i)) m) * szd)
              % 18446744073709551616,
           (acc.2 + size_t_of_int (int_mul (cd.sendcount (cd.commpartner i)) m) * szd)
              % 18446744073709551616))
        (0, 0)
      = (((List.range n).map fun i => cd.recvcount (cd.commpartner i)).sum * m * szd,
         ((List.range n).map fun i => cd.sendcount (cd.commpartner i)).sum * m * szd) := by
  induction n with
  | zero => simp
  | succ n ih =>
    rw [sum_map_range_succ, Nat.add_mul, Nat.add_mul] at hr hs
    rw [List.range_succ, List.foldl_append,
      ih (fun i hi => hprod i (Nat.lt_succ_of_lt hi)) (by omega) (by omega)]
    simp only [List.foldl_cons, List.foldl_nil]
    rw [int_mul_small _ _ (hprod n (Nat.lt_succ_self n)).1,
      int_mul_small _ _ (hprod n (Nat.lt_succ_self n)).2,
      Nat.mod_eq_of_lt hr, Nat.mod_eq_of_lt hs]
    simp only [List.map_append, List.map_cons, List.map_nil, List.sum_append, List.sum_cons,
      List.sum_nil, Nat.add_zero, Nat.add_mul]

/-- The totals of `init_gaspi_segments` are the sums of the claim when every `int` product
`count * max_elem_sz` is in range and the totals fit 64 bit. -/
theorem gaspi_segment_sizes_eq (cd : comm_data) (m : Nat)
    (hprod : ∀ i, i < cd.ncommdomains → cd.recvcount (cd.commpartner i) * m < 2147483648
      ∧ cd.sendcount (cd.commpartner i) * m < 2147483648)
    (hr : total_count cd.recvcount cd * m * szd < 18446744073709551616)
    (hs : total_count cd.sendcount cd * m * szd < 18446744073709551616) :
    gaspi_segment_sizes cd m
      = (total_count cd.recvcount cd * m * szd, total_count cd.sendcount cd * m * szd) := by
  unfold gaspi_segment_sizes total_count
  exact gaspi_sizes_fold cd m cd.ncommdomains hprod hr hs

theorem size_t_of_int_small (a : Nat) (h : a < 18446744073709551616) :
    size_t_of_int (a : Int) = a := by
  unfold size_t_of_int
  omega

theorem int_accumulate (a t : Nat) (h : a + t < 2147483648) :
    int_of_size_t ((size_t_of_int (a : Int) + t) % 18446744073709551616) = ((a + t : Nat) : Int) := by
  rw [size_t_of_int_small a (by omega), Nat.mod_eq_of_lt (by omega), int_of_size_t_small _ h]

theorem mpidma_sizes_fold (cd : comm_data) (m n : Nat)
    (hr : ((List.range n).map fun i => cd.recvcount (cd.commpartner i)).sum * m * szd
      < 2147483648)
    (hs : ((List.range n).map fun i => cd.sendcount (cd.commpartner i)).sum * m * szd
      < 2147483648) :
    (List.range n).foldl
        (fun (acc : Int × Int) i =>
          (int_of_size_t ((size_t_of_int acc.1 + cd.recvcount (cd.commpartner i) * m * szd)
              % 18446744073709551616),
           int_of_size_t ((size_t_of_int acc.2 + cd.sendcount (cd.commpartner i) * m * szd)
              % 18446744073709551616)))
        (0, 0)
      = (((((List.range n).map fun i => cd.recvcount (cd.commpartner i)).sum * m * szd : Nat)
            : Int),
         ((((List.range n).map fun i => cd.sendcount (cd.commpartner i)).sum * m * szd : Nat)
            : Int)) := by
  induction n with
  | zero => simp
  | succ n ih =>
    rw [sum_map_range_succ, Nat.add_mul, Nat.add_mul] at hr hs
    rw [List.range_succ, List.foldl_append, ih (by omega) (by omega)]
    simp only [List.foldl_cons, List.foldl_nil]
    rw [int_accumulate _ _ hr, int_accumulate _ _ hs]
    simp only [List.map_append, List.map_cons, List.map_nil, List.sum_append, List.sum_cons,
      List.sum_nil, Nat.add_zero, Nat.add_mul]

theorem mpidma_buffer_sizes_eq (cd : comm_data) (m : Nat)
    (hr : total_count cd.recvcount cd * m * szd < 2147483648)
    (hs : total_count cd.sendcount cd * m * szd < 2147483648) :
    mpidma_buffer_sizes cd m
      = (((total_count cd.recvcount cd * m * szd : Nat) : Int),
         ((total_count cd.sendcount cd * m * szd : Nat) : Int)) := by
  unfold mpidma_buffer_sizes
  exact mpidma_sizes_fold cd m cd.ncommdomains hr hs

/-- C9 (amended).  Exposed regions created by init, for `dim2 = NGRAD * 3`.  With no
segment present, `init_gaspi_segments` returns and has created exactly four segments, in
the order 0, 2, 1, 3, so that the segment count is 4: segments 0 and 1 (send) of `ssz`
bytes each and segments 2 and 3 (receive) of `rsz` bytes each, `ssz` and `rsz` being the
totals its loop accumulates.  When every product `sendcount[k] * dim2` and
`recvcount[k] * dim2` of a partner is below `2^31` (it is an `int` product) and the sums
fit 64 bit, these totals are `(sum over i of sendcount[commpartner[i]]) * dim2 *
sizeof(double)` and `(sum over i of recvcount[commpartner[i]]) * dim2 * sizeof(double)`.
`init_mpidma_buffers` returns and has allocated exactly two regions, one send buffer
and one receive window; when both byte totals are below `2^31` (they are accumulated in
an `int`) their sizes are these two totals. -/
theorem init_regions (NGRAD : Nat) (dim2 : Int) (w : World)
    (hdim : dim2 = ((NGRAD * 3 : Nat) : Int)) :
    (gaspi_segment_num w = 0 →
      ∃ w2, init_gaspi_segments NGRAD dim2 w = .ok w2
        ∧ w2.segments =
            [(0, (gaspi_segment_sizes w.cd dim2.toNat).2),
             (2, (gaspi_segment_sizes w.cd dim2.toNat).1),
             (1, (gaspi_segment_sizes w.cd dim2.toNat).2),
             (3, (gaspi_segment_sizes w.cd dim2.toNat).1)]
        ∧ new_events w w2 =
            [Event.segment_create 0 (gaspi_segment_sizes w.cd dim2.toNat).2,
             Event.segment_create 2 (gaspi_segment_sizes w.cd dim2.toNat).1,
             Event.segment_create 1 (gaspi_segment_sizes w.cd dim2.toNat).2,
             Event.segment_create 3 (gaspi_segment_sizes w.cd dim2.toNat).1]
        ∧ gaspi_segment_num w2 = 4)
    ∧ ((∀ i, i < w.cd.ncommdomains →
          w.cd.recvcount (w.cd.commpartner i) * dim2.toNat < 2147483648
            ∧ w.cd.sendcount (w.cd.commpartner i) * dim2.toNat < 2147483648) →
        total_count w.cd.recvcount w.cd * dim2.toNat * szd < 18446744073709551616 →
        total_count w.cd.sendcount w.cd * dim2.toNat * szd < 18446744073709551616 →
        (gaspi_segment_sizes w.cd dim2.toNat).2
            = total_count w.cd.sendcount w.cd * dim2.toNat * szd
          ∧ (gaspi_segment_sizes w.cd dim2.toNat).1
            = total_count w.cd.recvcount w.cd * dim2.toNat * szd)
    ∧ (∃ w2, init_mpidma_buffers NGRAD dim2 w = .ok w2
        ∧ (new_events w w2).countP Event.is_region = 2
        ∧ (total_count w.cd.sendcount w.cd * dim2.toNat * szd < 2147483648 →
            total_count w.cd.recvcount w.cd * dim2.toNat * szd < 2147483648 →
            new_events w w2 =
              [Event.alloc_mem
                  ((total_count w.cd.sendcount w.cd * dim2.toNat * szd : Nat) : Int),
               Event.win_allocate
                  ((total_count w.cd.recvcount w.cd * dim2.toNat * szd : Nat) : Int)])) := by
  have hnat : dim2.toNat = NGRAD * 3 := by rw [hdim]; exact Int.toNat_ofNat _
  rw [hnat]
  refine ⟨?_, ?_, ?_⟩
  · intro hzero
    have hnil : w.segments = [] := List.length_eq_zero.mp hzero
    have hinit : init_gaspi_segments NGRAD dim2 w = .ok
        (gaspi_segment_create 3 (gaspi_segment_sizes w.cd (NGRAD * 3)).1
          (gaspi_segment_create 1 (gaspi_segment_sizes w.cd (NGRAD * 3)).2
            (gaspi_segment_create 2 (gaspi_segment_sizes w.cd (NGRAD * 3)).1
              (gaspi_segment_create 0 (gaspi_segment_sizes w.cd (NGRAD * 3)).2 w)))) := by
      unfold init_gaspi_segments
      simp only [hdim, ne_eq, not_true_eq_false, if_false, hzero, for_each_succ]
      rfl
    refine ⟨_, hinit, ?_, ?_, ?_⟩
    · simp [gaspi_segment_create, hnil]
    · simp [new_events, gaspi_segment_create]
    · simp [gaspi_segment_num, gaspi_segment_create, hnil]
  · intro hprod hr hs
    rw [gaspi_segment_sizes_eq w.cd (NGRAD * 3) hprod hr hs]
    exact ⟨rfl, rfl⟩
  · have hinit : init_mpidma_buffers NGRAD dim2 w = .ok
        (w.emit [Event.alloc_mem (mpidma_buffer_sizes w.cd (NGRAD * 3)).2,
          Event.win_allocate (mpidma_buffer_sizes w.cd (NGRAD * 3)).1]) := by
      unfold init_mpidma_buffers
      simp only [hdim, ne_eq, not_true_eq_false, if_false]
    refine ⟨_, hinit, ?_, ?_⟩
    · simp [new_events, World.emit, Event.is_region]
    · intro hs hr
      simp [new_events, World.emit, mpidma_buffer_sizes_eq _ _ hr hs]

/-- Witness for C9 (amended): domain `A` of the scenario, `NGRAD = 7`, stride 21: three
points to send, none to receive, so send regions of 504 bytes and empty receive
regions. -/
theorem init_regions_witness :
    (21 : Int) = ((7 * 3 : Nat) : Int) ∧ gaspi_segment_num fresh_A = 0
    ∧ (∃ w2, init_gaspi_segments 7 21 fresh_A = .ok w2
        ∧ w2.segments = [(0, 504), (2, 0), (1, 504), (3, 0)]
        ∧ gaspi_segment_num w2 = 4)
    ∧ ((gaspi_segment_sizes fresh_A.cd (21 : Int).toNat).2
          = total_count fresh_A.cd.sendcount fresh_A.cd * (21 : Int).toNat * szd
        ∧ (gaspi_segment_sizes fresh_A.cd (21 : Int).toNat).1
          = total_count fresh_A.cd.recvcount fresh_A.cd * (21 : Int).toNat * szd)
    ∧ total_count fresh_A.cd.sendcount fresh_A.cd * (21 : Int).toNat * szd = 504
    ∧ (∃ w2, init_mpidma_buffers 7 21 fresh_A = .ok w2
        ∧ (new_events fresh_A w2).countP Event.is_region = 2
        ∧ new_events fresh_A w2 = [Event.alloc_mem 504, Event.win_allocate 0]) :=
  have hall := init_regions 7 21 fresh_A (by decide)
  ⟨by decide, rfl,
    match hall.1 rfl with
    | ⟨w2, hrun, hseg, _, hnum⟩ => ⟨w2, hrun, hseg.trans (by decide), hnum⟩,
    hall.2.1
      (by
        intro i hi
        have hi1 : i < 1 := hi
        interval_cases i
        decide)
      (by decide) (by decide),
    by decide,
    match hall.2.2 with
    | ⟨w2, hrun, hcount, hsizes⟩ =>
      ⟨w2, hrun, hcount, (hsizes (by decide) (by decide)).trans (by decide)⟩⟩

/-- C9 as stated fails.  On domain `A` of the scenario (`NGRAD = 7`, stride 21)
`init_mpidma_buffers` returns having allocated two regions, not four; for a partner with
`2^24` points to send the send total `2^24 * 21 * 8 = 2818572288` bytes is accumulated
in an `int` and the size handed to `MPI_Alloc_mem` is `-1476395008`.  And in
`init_gaspi_segments`, for a partner with `2^27` points to send, the `int` product
`2^27 * 21` wraps before it is widened: the send segments are created with
`18446744061898391552` bytes, not with `2^27 * 21 * 8 = 22548578304`. -/
theorem init_regions_counterexample :
    (init_mpidma_buffers 7 21 fresh_A).isOk = true
    ∧ (new_events fresh_A (init_mpidma_buffers 7 21 fresh_A).world).countP Event.is_region = 2
    ∧ (new_events fresh_A (init_mpidma_buffers 7 21 fresh_A).world).countP Event.is_region ≠ 4
    ∧ total_count large_count_A.cd.sendcount large_count_A.cd * 21 * szd = 2818572288
    ∧ new_events large_count_A (init_mpidma_buffers 7 21 large_count_A).world
        = [Event.alloc_mem (-1476395008), Event.win_allocate 0]
    ∧ total_count huge_count_A.cd.sendcount huge_count_A.cd * 21 * szd = 22548578304
    ∧ new_events huge_count_A (init_gaspi_segments 7 21 huge_count_A).world
        = [Event.segment_create 0 18446744061898391552, Event.segment_create 2 0,
           Event.segment_create 1 18446744061898391552, Event.segment_create 3 0] := by
  decide

/-! ## Double buffering -/

theorem gaspi_copy_out_reads (rc : Nat) (ri : Nat → Nat) (off dim2 b : Nat) (w1 w2 : World)
    (hdata : w1.data = w2.data) (hseg : w1.seg (2 + b) = w2.seg (2 + b)) :
    (exchange_dbl_gaspi_copy_out rc ri off dim2 b w1).data
      = (exchange_dbl_gaspi_copy_out rc ri off dim2 b w2).data := by
  unfold exchange_dbl_gaspi_copy_out
  split <;> simp [hdata, hseg]

/-- The unpack loop of a round reads, besides `comm_data` and the field array, only the
receive segment of its slot. -/
theorem gaspi_copy_out_all_reads (dim2 b : Nat) (w1 w2 : World) (hcd : w1.cd = w2.cd)
    (hdata : w1.data = w2.data) (hseg : w1.seg (2 + b) = w2.seg (2 + b)) :
    (gaspi_copy_out_all dim2 b w1).data = (gaspi_copy_out_all dim2 b w2).data := by
  unfold gaspi_copy_out_all
  rw [hcd]
  have key : ∀ n,
      (for_each (fun i s => exchange_dbl_gaspi_copy_out (s.cd.recvcount (s.cd.commpartner i))
          (s.cd.recvindex (s.cd.commpartner i)) (s.cd.local_recv_offset (s.cd.commpartner i))
          dim2 b s) n w1).cd
        = (for_each (fun i s => exchange_dbl_gaspi_copy_out (s.cd.recvcount (s.cd.commpartner i))
          (s.cd.recvindex (s.cd.commpartner i)) (s.cd.local_recv_offset (s.cd.commpartner i))
          dim2 b s) n w2).cd
      ∧ (for_each (fun i s => exchange_dbl_gaspi_copy_out (s.cd.recvcount (s.cd.commpartner i))
          (s.cd.recvindex (s.cd.commpartner i)) (s.cd.local_recv_offset (s.cd.commpartner i))
          dim2 b s) n w1).data
        = (for_each (fun i s => exchange_dbl_gaspi_copy_out (s.cd.recvcount (s.cd.commpartner i))
          (s.cd.recvindex (s.cd.commpartner i)) (s.cd.local_recv_offset (s.cd.commpartner i))
          dim2 b s) n w2).data
      ∧ (for_each (fun i s => exchange_dbl_gaspi_copy_out (s.cd.recvcount (s.cd.commpartner i))
          (s.cd.recvindex (s.cd.commpartner i)) (s.cd.local_recv_offset (s.cd.commpartner i))
          dim2 b s) n w1).seg (2 + b)
        = (for_each (fun i s => exchange_dbl_gaspi_copy_out (s.cd.recvcount (s.cd.commpartner i))
          (s.cd.recvindex (s.cd.commpartner i)) (s.cd.local_recv_offset (s.cd.commpartner i))
          dim2 b s) n w2).seg (2 + b) := by
    intro n
    induction n with
    | zero => exact ⟨hcd, hdata, hseg⟩
    | succ n ih =>
      rw [for_each_succ, for_each_succ]
      refine ⟨by simp [ih.1], ?_, by simp [ih.2.2]⟩
      rw [ih.1]
      exact gaspi_copy_out_reads _ _ _ _ _ _ _ ih.2.1 ih.2.2
  exact (key _).2.1

theorem deliver_frame (S R : World) (e : Event) (bs br x : Nat) (he : e.uses_slots bs br)
    (hx : 2 + bs ≠ x) :
    (deliver S e R).cd = R.cd ∧ (deliver S e R).data = R.data
      ∧ (deliver S e R).seg x = R.seg x := by
  cases e with
  | write_notify sl ol rank sr orem size nid nval q =>
    simp only [Event.uses_slots] at he
    unfold deliver
    simp only
    split
    · refine ⟨rfl, rfl, ?_⟩
      simp only
      exact Function.update_noteq (by omega) _ _
    · exact ⟨rfl, rfl, rfl⟩
  | put oo oc rank td tc =>
    unfold deliver
    simp only
    split <;> exact ⟨rfl, rfl, rfl⟩
  | _ => exact ⟨rfl, rfl, rfl⟩

/-- C10. Double-buffer disjointness in the notify variant.  For every round number `N`
the send segment id `N % 2` and the receive segment id `2 + N % 2` differ from those of
round `N + 1`, lie in `{0, 1}` resp. `{2, 3}`, and are the segments every action of a
call of `exchange_dbl_gaspi_bulk_sync` at stage `N` names.  Every `gaspi_write_notify`
issued in round `N + 1` has source segment `(N + 1) % 2` and target segment
`2 + (N + 1) % 2`, which is not the segment `2 + N % 2` that the unpack loop of round `N`
reads: delivering such a write to a receiver at stage `N` does not change what its
unpack loop produces. -/
theorem double_buffer_disjoint (N : Nat) :
    (N % 2 ≠ (N + 1) % 2 ∧ 2 + N % 2 ≠ 2 + (N + 1) % 2
      ∧ (N % 2 = 0 ∨ N % 2 = 1) ∧ (2 + N % 2 = 2 ∨ 2 + N % 2 = 3))
    ∧ (∀ (t : ThreadCtx) (dim2 : Int) (w : World),
        w.cd.send_stage = N → w.cd.recv_stage = N →
        ∀ e ∈ new_events w (exchange_dbl_gaspi_bulk_sync t dim2 w).world,
          e.uses_slots (N % 2) (N % 2))
    ∧ (∀ (t : ThreadCtx) (dim2 : Int) (S : World), S.cd.send_stage = N + 1 →
        ∀ e ∈ new_events S (exchange_dbl_gaspi_bulk_sync t dim2 S).world,
          (∀ sl ol rank sr orem size nid nval q,
            e = Event.write_notify sl ol rank sr orem size nid nval q →
            sl = (N + 1) % 2 ∧ sr = 2 + (N + 1) % 2 ∧ sr ≠ 2 + N % 2)
          ∧ (∀ (d : Nat) (R : World), R.cd.recv_stage = N →
            (gaspi_copy_out_all d (R.cd.recv_stage % 2)
                (deliver (exchange_dbl_gaspi_bulk_sync t dim2 S).world e R)).data
              = (gaspi_copy_out_all d (R.cd.recv_stage % 2) R).data)) := by
  refine ⟨by omega, ?_, ?_⟩
  · intro t dim2 w hs hr
    have h := gaspi_bulk_sync_slots t dim2 w
    rw [hs, hr] at h
    exact new_events_of_extends _ _ _ h
  · intro t dim2 S hs e he
    have h := new_events_of_extends _ _ _ (gaspi_bulk_sync_slots t dim2 S) e he
    rw [hs] at h
    constructor
    · intro sl ol rank sr orem size nid nval q heq
      subst heq
      simp only [Event.uses_slots] at h
      omega
    · intro d R hr
      have hfr := deliver_frame (exchange_dbl_gaspi_bulk_sync t dim2 S).world R e _ _
        (2 + R.cd.recv_stage % 2) h (by rw [hr]; omega)
      exact gaspi_copy_out_all_reads d _ _ _ hfr.1 hfr.2.1 hfr.2.2

/-- Witness for C10: the write that domain `A` issues in round 1 targets segment 3 of
domain `B`, while `B` in round 0 reads segment 2. -/
theorem double_buffer_disjoint_witness :
    scenario_A_round1.cd.send_stage = 0 + 1
    ∧ Event.write_notify 1 0 1 3 0 48 0 1 0 ∈ new_events scenario_A_round1
        (exchange_dbl_gaspi_bulk_sync { tid := 0, nthreads := 1 } 2 scenario_A_round1).world
    ∧ scenario_B.cd.recv_stage = 0
    ∧ ((∀ sl ol rank sr orem size nid nval q,
          Event.write_notify 1 0 1 3 0 48 0 1 0
            = Event.write_notify sl ol rank sr orem size nid nval q →
          sl = (0 + 1) % 2 ∧ sr = 2 + (0 + 1) % 2 ∧ sr ≠ 2 + 0 % 2)
      ∧ (∀ (d : Nat) (R : World), R.cd.recv_stage = 0 →
          (gaspi_copy_out_all d (R.cd.recv_stage % 2)
              (deliver
                (exchange_dbl_gaspi_bulk_sync { tid := 0, nthreads := 1 } 2
                  scenario_A_round1).world
                (Event.write_notify 1 0 1 3 0 48 0 1 0) R)).data
            = (gaspi_copy_out_all d (R.cd.recv_stage % 2) R).data)) :=
  ⟨rfl, by decide, rfl,
    (double_buffer_disjoint 0).2.2 { tid := 0, nthreads := 1 } 2 scenario_A_round1 rfl
      (Event.write_notify 1 0 1 3 0 48 0 1 0) (by decide)⟩

/-! ## The asynchronous loop and the scenario, run through the entry points -/

theorem gaspi_async_iter_ok_counts (dim2 b : Nat) (w w2 : World)
    (h : gaspi_async_iter dim2 b w = .ok w2) :
    w2.trace.countP Event.is_waitsome = w.trace.countP Event.is_waitsome + 1
      ∧ w2.trace.countP Event.is_reset = w.trace.countP Event.is_reset + 1 := by
  unfold gaspi_async_iter at h
  simp only at h
  cases hnot : w.notifications with
  | nil => simp [World.emit, hnot] at h
  | cons hd rest =>
    obtain ⟨id, value⟩ := hd
    simp only [World.emit, hnot] at h
    split at h
    · cases h
    · split at h
      · cases h
      · cases h
        have hc := gaspi_copy_out_counts
        simp [hc, List.countP_append, List.countP_cons, Event.is_waitsome, Event.is_reset]

/-- A loop of `exchange_dbl_gaspi_async` that returns has performed one
`gaspi_notify_waitsome` and one `gaspi_notify_reset` per entry of the partner list,
whatever the counts of the partners. -/
theorem gaspi_async_all_ok_counts (dim2 b : Nat) (w w2 : World)
    (h : gaspi_async_all dim2 b w = .ok w2) :
    w2.trace.countP Event.is_waitsome = w.trace.countP Event.is_waitsome + w.cd.ncommdomains
      ∧ w2.trace.countP Event.is_reset = w.trace.countP Event.is_reset + w.cd.ncommdomains := by
  unfold gaspi_async_all at h
  exact for_loop_rule_ok
    (fun n s => s.trace.countP Event.is_waitsome = w.trace.countP Event.is_waitsome + n
      ∧ s.trace.countP Event.is_reset = w.trace.countP Event.is_reset + n)
    (fun _ s => gaspi_async_iter dim2 b s) w.cd.ncommdomains w ⟨rfl, rfl⟩
    (fun i s s2 _ hJ hok => by
      have hc := gaspi_async_iter_ok_counts dim2 b s s2 hok
      constructor
      · rw [hc.1, hJ.1]; omega
      · rw [hc.2, hJ.2]; omega)
    w2 h

/-- The concrete scenario run through the entry points: `A` runs its round, its writes
(for the notify variant with their notification) are delivered to `B`, `B` runs its
round; afterwards the ghost points 3, 4, 5 of `B`
hold 1.0 .. 6.0, under `exchange_dbl_gaspi_bulk_sync` and under
`exchange_dbl_mpifence_bulk_sync` alike, and both stage counters of `B` are 1. -/
theorem scenario_round :
    (List.range 6).map
        (fun e => read_double
          (exchange_dbl_gaspi_bulk_sync { tid := 0, nthreads := 1 } 2
            (transfer scenario_A
              (exchange_dbl_gaspi_bulk_sync { tid := 0, nthreads := 1 } 2 scenario_A).world
              scenario_B_idle)).world.data (szd * (6 + e)))
      = (List.range 6).map (fun e => read_double (mem_of_doubles bits_1_to_6) (szd * e))
    ∧ (List.range 6).map
        (fun e => read_double
          (exchange_dbl_mpifence_bulk_sync { tid := 0, nthreads := 1 } 2
            (transfer scenario_A
              (exchange_dbl_mpifence_bulk_sync { tid := 0, nthreads := 1 } 2 scenario_A).world
              scenario_B_idle)).world.data (szd * (6 + e)))
      = (List.range 6).map (fun e => read_double (mem_of_doubles bits_1_to_6) (szd * e))
    ∧ (exchange_dbl_gaspi_bulk_sync { tid := 0, nthreads := 1 } 2
        (transfer scenario_A
          (exchange_dbl_gaspi_bulk_sync { tid := 0, nthreads := 1 } 2 scenario_A).world
          scenario_B_idle)).world.cd.send_stage = 1
    ∧ (exchange_dbl_gaspi_bulk_sync { tid := 0, nthreads := 1 } 2
        (transfer scenario_A
          (exchange_dbl_gaspi_bulk_sync { tid := 0, nthreads := 1 } 2 scenario_A).world
          scenario_B_idle)).world.cd.recv_stage = 1 := by
  decide

/-! ## Steady state -/

theorem read_double_bytes (m1 m2 : Mem) (a1 a2 : Nat)
    (h : read_double m1 a1 = read_double m2 a2) :
    ∀ b, b < szd → m1 (a1 + b) = m2 (a2 + b) := by
  intro b hb
  unfold read_double at h
  exact (List.map_inj_left.mp h) b (List.mem_range.mpr hb)

/-- Doubles that agree as doubles agree byte by byte over a whole point. -/
theorem point_bytes (d1 d2 : Mem) (dim2 p : Nat)
    (h : ∀ c, c < dim2 → read_double d1 (szd * (dim2 * p + c)) = read_double d2 (szd * (dim2 * p + c)))
    (r : Nat) (hr : r < dim2 * szd) :
    d1 (szd * (dim2 * p) + r) = d2 (szd * (dim2 * p) + r) := by
  have hb := read_double_bytes _ _ _ _ (h (r / 8) (by simp only [szd] at hr; omega)) (r % 8)
    (by simp only [szd]; omega)
  have e : szd * (dim2 * p + r / 8) + r % 8 = szd * (dim2 * p) + r := by
    simp only [szd]; omega
  rw [e] at hb
  exact hb

/-- Inside the packed range the result of the pack loop is determined by the field
values at the send points. -/
theorem pack_loop_agree (dim2 : Nat) (si : Nat → Nat) (d1 d2 : Mem) (off : Nat)
    (buf1 buf2 : Mem) (n : Nat)
    (hsend : ∀ j r, j < n → r < dim2 * szd →
      d1 (szd * (dim2 * si j) + r) = d2 (szd * (dim2 * si j) + r))
    (a : Nat) (h1 : off ≤ a) (h2 : a < off + szd * (dim2 * n)) :
    pack_loop dim2 si d1 off n buf1 a = pack_loop dim2 si d2 off n buf2 a := by
  induction n with
  | zero => simp at h2; omega
  | succ n ih =>
    rw [pack_loop_succ, pack_loop_succ]
    have hm : dim2 * (n + 1) = dim2 * n + dim2 := Nat.mul_succ dim2 n
    by_cases hin : off + szd * (dim2 * n) ≤ a
    · have hlt : a < off + szd * (dim2 * n) + dim2 * szd := by
        simp only [szd] at *
        omega
      rw [memcpy_hit _ _ _ _ _ _ hin hlt, memcpy_hit _ _ _ _ _ _ hin hlt]
      exact hsend n _ (Nat.lt_succ_self n) (by omega)
    · rw [memcpy_miss _ _ _ _ _ _ (by omega), memcpy_miss _ _ _ _ _ _ (by omega)]
      exact ih (fun j r hj hr => hsend j r (Nat.lt_succ_of_lt hj) hr) (by omega)

/-- At an address the unpack loop writes, its result does not depend on the previous
content of the field array. -/
theorem unpack_loop_written (dim2 : Nat) (ri : Nat → Nat) (buf : Mem) (off : Nat)
    (d1 d2 : Mem) (n j r : Nat) (hj : j < n) (hr : r < dim2 * szd) :
    unpack_loop dim2 ri buf off n d1 (szd * (dim2 * ri j) + r)
      = unpack_loop dim2 ri buf off n d2 (szd * (dim2 * ri j) + r) := by
  induction n with
  | zero => omega
  | succ n ih =>
    rw [unpack_loop_succ, unpack_loop_succ]
    by_cases hin : szd * (dim2 * ri n) ≤ szd * (dim2 * ri j) + r
        ∧ szd * (dim2 * ri j) + r < szd * (dim2 * ri n) + dim2 * szd
    · rw [memcpy_hit _ _ _ _ _ _ hin.1 hin.2, memcpy_hit _ _ _ _ _ _ hin.1 hin.2]
    · have hjn : j ≠ n := by
        intro e
        subst e
        exact hin ⟨by omega, by omega⟩
      rw [memcpy_miss _ _ _ _ _ _ (by omega), memcpy_miss _ _ _ _ _ _ (by omega)]
      exact ih (by omega)

/-- The values the unpack loop leaves at the ghost points are determined by the bytes
of the receive region it reads. -/
theorem unpack_ghost_congr (dim2 : Nat) (ri : Nat → Nat) (buf1 buf2 : Mem) (off n : Nat)
    (d1 d2 : Mem)
    (hbuf : ∀ x, off ≤ x → x < off + szd * (dim2 * n) → buf1 x = buf2 x)
    (j r : Nat) (hj : j < n) (hr : r < dim2 * szd) :
    unpack_loop dim2 ri buf1 off n d1 (szd * (dim2 * ri j) + r)
      = unpack_loop dim2 ri buf2 off n d2 (szd * (dim2 * ri j) + r) := by
  rw [unpack_loop_congr dim2 ri buf1 buf2 off n d1 hbuf]
  exact unpack_loop_written dim2 ri buf2 off d1 d2 n j r hj hr

/-- Unpacking twice from the same buffer gives what unpacking once gives. -/
theorem unpack_loop_idem (dim2 : Nat) (ri : Nat → Nat) (buf : Mem) (off n : Nat) (d : Mem) :
    unpack_loop dim2 ri buf off n (unpack_loop dim2 ri buf off n d)
      = unpack_loop dim2 ri buf off n d := by
  funext a
  by_cases hw : ∃ j, j < n ∧ szd * (dim2 * ri j) ≤ a ∧ a < szd * (dim2 * ri j) + dim2 * szd
  · obtain ⟨j, hj, h1, h2⟩ := hw
    have e : a = szd * (dim2 * ri j) + (a - szd * (dim2 * ri j)) := by omega
    rw [e]
    exact unpack_loop_written dim2 ri buf off _ _ n j _ hj (by omega)
  · rw [unpack_loop_miss dim2 ri buf off _ n a]
    intro j hj
    by_contra hc
    exact hw ⟨j, hj, by omega, by omega⟩

theorem int_of_size_t_toNat_le (x : Nat) : (int_of_size_t x).toNat ≤ x := by
  unfold int_of_size_t
  split <;> omega

theorem same_topology_refl (c : comm_data) : same_topology c c :=
  ⟨rfl, rfl, rfl, rfl, rfl, rfl, rfl, rfl, rfl, rfl, rfl⟩

theorem ghost_window_mem (dim2 : Nat) (ri : Nat → Nat) (T1 T2 dR1 dR2 : Mem) (off n j c : Nat)
    (hj : j < n) (hc : c < dim2)
    (hT : ∀ x, off ≤ x → x < off + szd * (dim2 * n) → T1 x = T2 x) :
    read_double (unpack_loop dim2 ri T1 off n dR1) (szd * (dim2 * ri j + c))
      = read_double (unpack_loop dim2 ri T2 off n dR2) (szd * (dim2 * ri j + c)) := by
  apply read_double_congr
  intro b hb
  have e : szd * (dim2 * ri j + c) + b = szd * (dim2 * ri j) + (szd * c + b) := by
    simp only [szd]; omega
  rw [e]
  exact unpack_ghost_congr dim2 ri T1 T2 off n dR1 dR2 hT j _ hj
    (by simp only [szd] at *; omega)

/-- The bytes a message leaves in the receive region are determined by the field values
of the sender at its send points, as far as the message reaches. -/
theorem received_agree (dim2 : Nat) (si : Nat → Nat) (dS1 dS2 sb1 sb2 rb1 rb2 : Mem)
    (offS offR n len : Nat) (hlen : len ≤ szd * (dim2 * n))
    (hsend : ∀ j c, j < n → c < dim2 →
      read_double dS1 (szd * (dim2 * si j + c)) = read_double dS2 (szd * (dim2 * si j + c)))
    (x : Nat) (h1 : offR ≤ x) (h2 : x < offR + len) :
    memcpy rb1 offR (pack_loop dim2 si dS1 offS n sb1) offS len x
      = memcpy rb2 offR (pack_loop dim2 si dS2 offS n sb2) offS len x := by
  rw [memcpy_hit _ _ _ _ _ _ h1 h2, memcpy_hit _ _ _ _ _ _ h1 h2]
  exact pack_loop_agree dim2 si dS1 dS2 offS sb1 sb2 n
    (fun j r hj hr => point_bytes dS1 dS2 dim2 (si j) (fun c hc => hsend j c hj hc) r hr)
    _ (by omega) (by omega)

/-- The same inside the packed region for a message that reaches beyond it. -/
theorem received_agree_over (dim2 : Nat) (si : Nat → Nat) (dS1 dS2 sb1 sb2 rb1 rb2 : Mem)
    (offS offR n len : Nat) (hlen : szd * (dim2 * n) ≤ len)
    (hsend : ∀ j c, j < n → c < dim2 →
      read_double dS1 (szd * (dim2 * si j + c)) = read_double dS2 (szd * (dim2 * si j + c)))
    (x : Nat) (h1 : offR ≤ x) (h2 : x < offR + szd * (dim2 * n)) :
    memcpy rb1 offR (pack_loop dim2 si dS1 offS n sb1) offS len x
      = memcpy rb2 offR (pack_loop dim2 si dS2 offS n sb2) offS len x := by
  rw [memcpy_hit _ _ _ _ _ _ h1 (by omega), memcpy_hit _ _ _ _ _ _ h1 (by omega)]
  exact pack_loop_agree dim2 si dS1 dS2 offS sb1 sb2 n
    (fun j r hj hr => point_bytes dS1 dS2 dim2 (si j) (fun c hc => hsend j c hj hc) r hr)
    _ (by omega) (by omega)

theorem roundtrip_mpidma_rcvbuf (S R : World) (dim2 i : Nat)
    (hrank : S.cd.commpartner i = R.cd.iProc)
    (hpos : 0 < S.cd.sendcount (S.cd.commpartner i)) :
    (roundtrip_mpidma dim2 i S R).rcvbuf =
      memcpy R.rcvbuf (S.cd.remote_recv_offset (S.cd.commpartner i))
        (pack_loop dim2 (S.cd.sendindex (S.cd.commpartner i)) S.data
          (S.cd.local_send_offset (S.cd.commpartner i))
          (S.cd.sendcount (S.cd.commpartner i)) S.sndbuf)
        (S.cd.local_send_offset (S.cd.commpartner i))
        (int_of_size_t (S.cd.sendcount (S.cd.commpartner i) * dim2 * szd)).toNat := by
  unfold roundtrip_mpidma
  rw [transfer_mpidma_write S R dim2 i hrank hpos]
  unfold exchange_dbl_mpidma_copy_out
  simp only
  split <;> rfl

/-- The result of a round trip written over the topology of a reference pair `S0`, `R0`
that the pair `S`, `R` shares. -/
theorem roundtrip_normal (S R S0 R0 : World) (dim2 b i : Nat)
    (hS : same_topology S.cd S0.cd) (hR : same_topology R.cd R0.cd)
    (hrank : S0.cd.commpartner i = R0.cd.iProc)
    (hn : S0.cd.sendcount R0.cd.iProc = R0.cd.recvcount S0.cd.iProc)
    (hoff : S0.cd.remote_recv_offset R0.cd.iProc = R0.cd.local_recv_offset S0.cd.iProc)
    (hrpos : 0 < R0.cd.recvcount S0.cd.iProc) :
    (roundtrip_gaspi dim2 b i S R).data =
        unpack_loop dim2 (R0.cd.recvindex S0.cd.iProc)
          (memcpy (R.seg (2 + b)) (R0.cd.local_recv_offset S0.cd.iProc)
            (pack_loop dim2 (S0.cd.sendindex R0.cd.iProc) S.data
              (S0.cd.local_send_offset R0.cd.iProc) (R0.cd.recvcount S0.cd.iProc) (S.seg b))
            (S0.cd.local_send_offset R0.cd.iProc)
            (gaspi_write_size (R0.cd.recvcount S0.cd.iProc) dim2))
          (R0.cd.local_recv_offset S0.cd.iProc) (R0.cd.recvcount S0.cd.iProc) R.data
    ∧ (roundtrip_mpidma dim2 i S R).data =
        unpack_loop dim2 (R0.cd.recvindex S0.cd.iProc)
          (memcpy R.rcvbuf (R0.cd.local_recv_offset S0.cd.iProc)
            (pack_loop dim2 (S0.cd.sendindex R0.cd.iProc) S.data
              (S0.cd.local_send_offset R0.cd.iProc) (R0.cd.recvcount S0.cd.iProc) S.sndbuf)
            (S0.cd.local_send_offset R0.cd.iProc)
            (int_of_size_t (R0.cd.recvcount S0.cd.iProc * dim2 * szd)).toNat)
          (R0.cd.local_recv_offset S0.cd.iProc) (R0.cd.recvcount S0.cd.iProc) R.data
    ∧ (roundtrip_mpidma dim2 i S R).rcvbuf =
        memcpy R.rcvbuf (R0.cd.local_recv_offset S0.cd.iProc)
          (pack_loop dim2 (S0.cd.sendindex R0.cd.iProc) S.data
            (S0.cd.local_send_offset R0.cd.iProc) (R0.cd.recvcount S0.cd.iProc) S.sndbuf)
          (S0.cd.local_send_offset R0.cd.iProc)
          (int_of_size_t (R0.cd.recvcount S0.cd.iProc * dim2 * szd)).toNat := by
  obtain ⟨hSip, _, hScp, hSsc, _, hSsi, _, hSrro, hSlso, _, _⟩ := hS
  obtain ⟨hRip, _, _, _, hRrc, _, hRri, _, _, hRlro, _⟩ := hR
  have hk : S.cd.commpartner i = R0.cd.iProc := by rw [hScp]; exact hrank
  have hrank2 : S.cd.commpartner i = R.cd.iProc := by rw [hk, hRip]
  have hpos2 : 0 < S.cd.sendcount (S.cd.commpartner i) := by
    rw [hk, hSsc, hn]; exact hrpos
  have hrpos2 : 0 < R.cd.recvcount S.cd.iProc := by
    rw [hRrc, hSip]; exact hrpos
  have hg := roundtrip_gaspi_data S R dim2 b i hrank2 hpos2 hrpos2
  have hm := roundtrip_mpidma_data S R dim2 i hrank2 hpos2 hrpos2
  have hw := roundtrip_mpidma_rcvbuf S R dim2 i hrank2 hpos2
  rw [hk, hSsc, hSsi, hSrro, hSlso, hRrc, hRri, hRlro, hSip, hn, hoff] at hg hm
  rw [hk, hSsc, hSsi, hSrro, hSlso, hn, hoff] at hw
  exact ⟨hg, hm, hw⟩

/-- C11. Steady-state idempotence, with the transfer modelled as in the round-trip claim:
the receiver is the partner at list position `i` of the sender, the sender's `sendcount`
for it equals the receiver's `recvcount` for the sender, and the sender's
`remote_recv_offset` equals the receiver's `local_recv_offset`.  `S_at r` and `R_at r` are
the sender and the receiver at the start of round `r` of `K` consecutive rounds
(`r = 0 .. K-1`): the topology is that of round 0, the sender's field values at its send
points are those of round 0, the receiver's field array and its segments are arbitrary,
and its receive window is, inside the region of this sender, as the previous round left
it.  Then after every round `r < K` the receiver's field values at its ghost points
`dim2*recvindex[j] + c` equal those after round 0, in the notify variant whatever slot
`slot r` the round uses (so also for `slot r = r % 2`) and in the put variant.  And
applying either `copy_out` function twice from the same receive buffer gives the same
field array as applying it once. -/
theorem steady_state_idempotence (K : Nat) (S_at R_at : Nat → World) (slot : Nat → Nat)
    (dim2 i : Nat)
    (hS : ∀ r, r < K → same_topology (S_at r).cd (S_at 0).cd)
    (hR : ∀ r, r < K → same_topology (R_at r).cd (R_at 0).cd)
    (hrank : (S_at 0).cd.commpartner i = (R_at 0).cd.iProc)
    (hn : (S_at 0).cd.sendcount (R_at 0).cd.iProc = (R_at 0).cd.recvcount (S_at 0).cd.iProc)
    (hoff : (S_at 0).cd.remote_recv_offset (R_at 0).cd.iProc
      = (R_at 0).cd.local_recv_offset (S_at 0).cd.iProc)
    (hsend : ∀ r, r < K → ∀ j c, j < (S_at 0).cd.sendcount (R_at 0).cd.iProc → c < dim2 →
      read_double (S_at r).data
          (szd * (dim2 * (S_at 0).cd.sendindex (R_at 0).cd.iProc j + c))
        = read_double (S_at 0).data
          (szd * (dim2 * (S_at 0).cd.sendindex (R_at 0).cd.iProc j + c)))
    (hwin : ∀ r, r + 1 < K → ∀ x, (R_at 0).cd.local_recv_offset (S_at 0).cd.iProc ≤ x →
      x < (R_at 0).cd.local_recv_offset (S_at 0).cd.iProc
          + szd * (dim2 * (R_at 0).cd.recvcount (S_at 0).cd.iProc) →
      (R_at (r + 1)).rcvbuf x = (roundtrip_mpidma dim2 i (S_at r) (R_at r)).rcvbuf x) :
    (∀ r, r < K → ∀ j c, j < (R_at 0).cd.recvcount (S_at 0).cd.iProc → c < dim2 →
      read_double (roundtrip_gaspi dim2 (slot r) i (S_at r) (R_at r)).data
          (szd * (dim2 * (R_at 0).cd.recvindex (S_at 0).cd.iProc j + c))
        = read_double (roundtrip_gaspi dim2 (slot 0) i (S_at 0) (R_at 0)).data
          (szd * (dim2 * (R_at 0).cd.recvindex (S_at 0).cd.iProc j + c))
      ∧ read_double (roundtrip_mpidma dim2 i (S_at r) (R_at r)).data
          (szd * (dim2 * (R_at 0).cd.recvindex (S_at 0).cd.iProc j + c))
        = read_double (roundtrip_mpidma dim2 i (S_at 0) (R_at 0)).data
          (szd * (dim2 * (R_at 0).cd.recvindex (S_at 0).cd.iProc j + c)))
    ∧ (∀ (w : World) (rc : Nat) (ri : Nat → Nat) (off d b : Nat),
      (exchange_dbl_gaspi_copy_out rc ri off d b
          (exchange_dbl_gaspi_copy_out rc ri off d b w)).data
        = (exchange_dbl_gaspi_copy_out rc ri off d b w).data
      ∧ (exchange_dbl_mpidma_copy_out rc ri off d
          (exchange_dbl_mpidma_copy_out rc ri off d w)).data
        = (exchange_dbl_mpidma_copy_out rc ri off d w).data) := by
  constructor
  · intro r hr j c hj hc
    have hrpos : 0 < (R_at 0).cd.recvcount (S_at 0).cd.iProc := by omega
    have hK : 0 < K := by omega
    have hsend2 : ∀ r, r < K → ∀ j c, j < (R_at 0).cd.recvcount (S_at 0).cd.iProc → c < dim2 →
        read_double (S_at r).data
            (szd * (dim2 * (S_at 0).cd.sendindex (R_at 0).cd.iProc j + c))
          = read_double (S_at 0).data
            (szd * (dim2 * (S_at 0).cd.sendindex (R_at 0).cd.iProc j + c)) := by
      intro r hr j c hj hc
      exact hsend r hr j c (by rw [hn]; exact hj) hc
    have hcomm : (R_at 0).cd.recvcount (S_at 0).cd.iProc * dim2 * szd
        = szd * (dim2 * (R_at 0).cd.recvcount (S_at 0).cd.iProc) := by ring
    have hlen := int_of_size_t_toNat_le ((R_at 0).cd.recvcount (S_at 0).cd.iProc * dim2 * szd)
    have norm : ∀ r, r < K → ∀ b, _ := fun r hr b =>
      roundtrip_normal (S_at r) (R_at r) (S_at 0) (R_at 0) dim2 b i (hS r hr) (hR r hr)
        hrank hn hoff hrpos
    have hwindow : ∀ r, r < K → ∀ x,
        (R_at 0).cd.local_recv_offset (S_at 0).cd.iProc ≤ x →
        x < (R_at 0).cd.local_recv_offset (S_at 0).cd.iProc
            + szd * (dim2 * (R_at 0).cd.recvcount (S_at 0).cd.iProc) →
        (roundtrip_mpidma dim2 i (S_at r) (R_at r)).rcvbuf x
          = (roundtrip_mpidma dim2 i (S_at 0) (R_at 0)).rcvbuf x := by
      intro r
      induction r with
      | zero => intro _ x _ _; rfl
      | succ r ih =>
        intro hr1 x hx1 hx2
        by_cases hin : x < (R_at 0).cd.local_recv_offset (S_at 0).cd.iProc
            + (int_of_size_t ((R_at 0).cd.recvcount (S_at 0).cd.iProc * dim2 * szd)).toNat
        · rw [(norm (r + 1) hr1 0).2.2, (norm 0 hK 0).2.2]
          exact received_agree dim2 _ _ _ _ _ _ _ _ _ _ _ (by omega)
            (hsend2 (r + 1) hr1) x hx1 hin
        · rw [(norm (r + 1) hr1 0).2.2, memcpy_miss _ _ _ _ _ _ (by omega),
            hwin r hr1 x hx1 hx2]
          exact ih (by omega) x hx1 hx2
    constructor
    · rw [(norm r hr (slot r)).1, (norm 0 hK (slot 0)).1]
      apply ghost_window_mem dim2 _ _ _ _ _ _ _ j c hj hc
      intro x hx1 hx2
      exact received_agree_over dim2 _ _ _ _ _ _ _ _ _ _ _ (gaspi_write_size_covers _ _)
        (hsend2 r hr) x hx1 hx2
    · rw [(norm r hr 0).2.1, (norm 0 hK 0).2.1]
      apply ghost_window_mem dim2 _ _ _ _ _ _ _ j c hj hc
      intro x hx1 hx2
      have h := hwindow r hr x hx1 hx2
      rw [(norm r hr 0).2.2, (norm 0 hK 0).2.2] at h
      exact h
  · intro w rc ri off d b
    constructor
    · unfold exchange_dbl_gaspi_copy_out
      by_cases hpos : 0 < rc
      · simp only [hpos, if_true]
        exact unpack_loop_idem d ri _ off rc w.data
      · simp [hpos]
    · unfold exchange_dbl_mpidma_copy_out
      by_cases hpos : 0 < rc
      · simp only [hpos, if_true]
        exact unpack_loop_idem d ri _ off rc w.data
      · simp [hpos]

/-- Witness for C11: two consecutive rounds of the concrete scenario; the ghost value of
point 4, component 1 after the second round (slot 1) is that after the first (slot 0). -/
theorem steady_state_idempotence_witness :
    (steady_S 0).cd.commpartner 0 = (steady_R 0).cd.iProc
    ∧ (steady_S 0).cd.sendcount (steady_R 0).cd.iProc
        = (steady_R 0).cd.recvcount (steady_S 0).cd.iProc
    ∧ (read_double (roundtrip_gaspi 2 (1 % 2) 0 (steady_S 1) (steady_R 1)).data
          (szd * (2 * (steady_R 0).cd.recvindex (steady_S 0).cd.iProc 1 + 1))
        = read_double (roundtrip_gaspi 2 (0 % 2) 0 (steady_S 0) (steady_R 0)).data
          (szd * (2 * (steady_R 0).cd.recvindex (steady_S 0).cd.iProc 1 + 1))
      ∧ read_double (roundtrip_mpidma 2 0 (steady_S 1) (steady_R 1)).data
          (szd * (2 * (steady_R 0).cd.recvindex (steady_S 0).cd.iProc 1 + 1))
        = read_double (roundtrip_mpidma 2 0 (steady_S 0) (steady_R 0)).data
          (szd * (2 * (steady_R 0).cd.recvindex (steady_S 0).cd.iProc 1 + 1))) :=
  ⟨by decide, by decide,
    (steady_state_idempotence 2 steady_S steady_R (fun r => r % 2) 2 0
      (by
        intro r hr
        exact ⟨rfl, rfl, rfl, rfl, rfl, rfl, rfl, rfl, rfl, rfl, rfl⟩)
      (by
        intro r hr
        cases r with
        | zero => exact ⟨rfl, rfl, rfl, rfl, rfl, rfl, rfl, rfl, rfl, rfl, rfl⟩
        | succ r => exact ⟨rfl, rfl, rfl, rfl, rfl, rfl, rfl, rfl, rfl, rfl, rfl⟩)
      (by decide) (by decide) (by decide)
      (by
        intro r hr j c hj hc
        have hj3 : j < 3 := hj
        interval_cases r <;> interval_cases j <;> interval_cases c <;> decide)
      (by
        intro r hr x _ _
        have h0 : r = 0 := by omega
        subst h0
        rfl)).1 1 (by decide) 1 1 (by decide) (by decide)⟩

/-! ## Traces of the MPI one-sided loops -/

/-- Trace rule for a loop whose body leaves `comm_data` alone and performs the actions
`ev i` in iteration `i`. -/
theorem for_each_trace (body : Nat → World → World) (ev : Nat → List Event) (w : World)
    (n : Nat) (hcd : ∀ i s, (body i s).cd = s.cd)
    (htr : ∀ i s, s.cd = w.cd → (body i s).trace = s.trace ++ ev i) :
    (for_each body n w).cd = w.cd
      ∧ (for_each body n w).trace = w.trace ++ events_over ev n := by
  induction n with
  | zero => simp [for_each, events_over]
  | succ n ih =>
    rw [for_each_succ]
    refine ⟨(hcd n _).trans ih.1, ?_⟩
    rw [htr n _ ih.1, ih.2, events_over, List.append_assoc]

theorem events_over_forall (P : Event → Prop) (ev : Nat → List Event) (n : Nat)
    (h : ∀ i, i < n → ∀ e ∈ ev i, P e) : ∀ e ∈ events_over ev n, P e := by
  induction n with
  | zero => intro e he; simp [events_over] at he
  | succ n ih =>
    intro e he
    rw [events_over] at he
    rcases List.mem_append.mp he with h1 | h1
    · exact ih (fun i hi => h i (Nat.lt_succ_of_lt hi)) e h1
    · exact h n (Nat.lt_succ_self n) e h1

theorem mpidma_write_trace (dim2 i : Nat) (w : World) :
    (exchange_dbl_mpidma_write dim2 i w).trace = w.trace ++ mpidma_write_events w.cd dim2 i := by
  unfold exchange_dbl_mpidma_write mpidma_write_events
  simp only
  split <;> simp

theorem mpidma_copy_out_trace (i dim2 : Nat) (w : World) :
    (exchange_dbl_mpidma_copy_out (w.cd.recvcount (w.cd.commpartner i))
        (w.cd.recvindex (w.cd.commpartner i)) (w.cd.local_recv_offset (w.cd.commpartner i))
        dim2 w).trace
      = w.trace ++ mpidma_copy_out_events w.cd i := by
  unfold exchange_dbl_mpidma_copy_out mpidma_copy_out_events
  split <;> simp

theorem mpidma_write_all_trace (dim2 : Nat) (w : World) :
    (mpidma_write_all dim2 w).trace
      = w.trace ++ events_over (mpidma_write_events w.cd dim2) w.cd.ncommdomains := by
  unfold mpidma_write_all
  exact (for_each_trace _ (mpidma_write_events w.cd dim2) w w.cd.ncommdomains
    (fun i s => mpidma_write_cd dim2 i s)
    (fun i s hs => by rw [mpidma_write_trace, hs])).2

theorem mpidma_copy_out_all_trace (dim2 : Nat) (w : World) :
    (mpidma_copy_out_all dim2 w).trace
      = w.trace ++ events_over (mpidma_copy_out_events w.cd) w.cd.ncommdomains := by
  unfold mpidma_copy_out_all
  exact (for_each_trace _ (mpidma_copy_out_events w.cd) w w.cd.ncommdomains
    (fun i s => mpidma_copy_out_cd _ _ _ dim2 s)
    (fun i s hs => by rw [mpidma_copy_out_trace, hs])).2

theorem mpidma_write_all_data (dim2 : Nat) (w : World) :
    (mpidma_write_all dim2 w).data = w.data := by
  unfold mpidma_write_all
  exact for_each_rule (fun _ s => s.data = w.data) _ _ w rfl
    (fun i s _ h => by
      rw [← h]
      unfold exchange_dbl_mpidma_write
      simp only
      split <;> rfl)

/-! ## Trigger threads -/

theorem mpipscw_async_stage (early_wait : Bool) (t : ThreadCtx) (dim2 final : Int)
    (w w2 : World) (h : exchange_dbl_mpipscw_async early_wait t dim2 final w = .ok w2) :
    w2.cd.send_stage = w.cd.send_stage + (if this_is_the_last_thread t then 1 else 0)
      ∧ w2.cd.recv_stage = w.cd.recv_stage + (if this_is_the_last_thread t then 1 else 0) := by
  have key : ∀ o : Outcome, o.world.cd = w.cd →
      (o.bind fun w2 =>
        if this_is_the_last_thread t then
          if final = 0 then Outcome.ok (mpidma_async_post_start (inc_stage w2))
          else Outcome.ok (inc_stage w2)
        else Outcome.ok w2) = .ok w2 →
      w2.cd.send_stage = w.cd.send_stage + (if this_is_the_last_thread t then 1 else 0)
        ∧ w2.cd.recv_stage
          = w.cd.recv_stage + (if this_is_the_last_thread t then 1 else 0) := by
    intro o ho hb
    cases o with
    | ok s =>
      simp only [Outcome.bind] at hb
      simp only [Outcome.world] at ho
      split at hb
      · rename_i hlast
        split at hb <;> cases hb <;> simp [hlast, inc_stage, ho, mpidma_async_post_start]
      · rename_i hlast
        cases hb
        simp [hlast, ho]
    | abort s => cases hb
    | hang s => cases hb
  unfold exchange_dbl_mpipscw_async at h
  split at h
  · simp only at h
    split at h
    · split at h
      · exact key (.abort w) rfl h
      · split at h
        · exact key (.abort w) rfl h
        · exact key (.ok (mpidma_copy_out_all dim2.toNat (mpidma_async_wait w)))
            (by simp [Outcome.world, mpidma_copy_out_all_cd, mpidma_async_wait]) h
    · exact key (.ok w) rfl h
  · split at h
    · rename_i hlast
      simp only at h
      split at h
      · cases h
      · split at h
        · cases h
        · split at h <;> cases h <;>
            simp [hlast, inc_stage, mpidma_async_post_start, mpidma_copy_out_all_cd,
              mpidma_async_wait]
    · rename_i hlast
      cases h
      simp [hlast]

theorem exchange_call_stage (v : TriggeredVariant) (t : ThreadCtx) (dim2 : Int) (w w2 : World)
    (h : exchange_call v t dim2 w = .ok w2) :
    w2.cd.send_stage = w.cd.send_stage + (if this_is_the_last_thread t then 1 else 0)
      ∧ w2.cd.recv_stage = w.cd.recv_stage + (if this_is_the_last_thread t then 1 else 0) := by
  cases v with
  | gaspi_bulk_sync => exact gaspi_bulk_sync_stage t dim2 w w2 h
  | gaspi_async => exact gaspi_async_stage t dim2 w w2 h
  | mpifence_bulk_sync => exact mpifence_bulk_sync_stage t dim2 w w2 h
  | mpipscw_bulk_sync => exact mpipscw_bulk_sync_stage t dim2 w w2 h
  | mpipscw_async early_wait final => exact mpipscw_async_stage early_wait t dim2 final w w2 h

/-- A round of calls each of which advances the counters exactly when made by the last
thread advances them by the number of calls of the last thread. -/
theorem team_round_counts (f : ThreadCtx → World → Outcome) (n : Nat) (sched : List Nat)
    (hf : ∀ t w w2, f t w = .ok w2 →
      w2.cd.send_stage = w.cd.send_stage + (if this_is_the_last_thread t then 1 else 0)
        ∧ w2.cd.recv_stage = w.cd.recv_stage + (if this_is_the_last_thread t then 1 else 0))
    (w w2 : World) (h : team_round f n sched w = .ok w2) :
    w2.cd.send_stage = w.cd.send_stage
        + sched.countP (fun tid => this_is_the_last_thread { tid := tid, nthreads := n })
      ∧ w2.cd.recv_stage = w.cd.recv_stage
        + sched.countP (fun tid => this_is_the_last_thread { tid := tid, nthreads := n }) := by
  induction sched generalizing w with
  | nil =>
    simp only [team_round, List.foldl_nil, Outcome.ok.injEq] at h
    subst h
    simp
  | cons tid rest ih =>
    rw [team_round_cons] at h
    cases hc : f { tid := tid, nthreads := n } w with
    | ok s =>
      rw [hc] at h
      simp only [Outcome.bind] at h
      have h1 := hf _ w s hc
      have h2 := ih s h
      rw [List.countP_cons]
      constructor
      · rw [h2.1, h1.1]; omega
      · rw [h2.2, h1.2]; omega
    | abort s => rw [hc] at h; cases h
    | hang s => rw [hc] at h; cases h

/-- In a schedule of a team of `n ≥ 1` threads exactly one call is by the first thread. -/
theorem count_first_thread (n : Nat) (sched : List Nat) (hn : 0 < n)
    (hperm : sched.Perm (List.range n)) :
    sched.countP (fun tid => this_is_the_first_thread { tid := tid, nthreads := n }) = 1 := by
  rw [hperm.countP_eq]
  have h1 : (List.range n).countP
      (fun tid => this_is_the_first_thread { tid := tid, nthreads := n })
      = (List.range n).count 0 := by
    unfold List.count
    apply List.countP_congr
    intro x _
    simp only [this_is_the_first_thread, beq_iff_eq]
  rw [h1]
  exact List.count_eq_one_of_mem (List.nodup_range n) (List.mem_range.mpr hn)

/-- A thread that triggers no phase of the entry point performs no action. -/
theorem exchange_call_idle (v : TriggeredVariant) (t : ThreadCtx) (dim2 : Int) (w : World)
    (hl : this_is_the_last_thread t = false)
    (hf : v.first_thread_phase = true → this_is_the_first_thread t = false) :
    (exchange_call v t dim2 w).world = w := by
  cases v with
  | gaspi_bulk_sync =>
    simp only [exchange_call, exchange_dbl_gaspi_bulk_sync, hl]
    split
    · rfl
    · split
      · rfl
      · split <;> rfl
  | gaspi_async =>
    have hf2 := hf rfl
    simp only [exchange_call, exchange_dbl_gaspi_async, hl, hf2]
    split
    · rfl
    · split
      · rfl
      · split <;> rfl
  | mpifence_bulk_sync =>
    simp [exchange_call, exchange_dbl_mpifence_bulk_sync, hl, Outcome.world]
  | mpipscw_bulk_sync =>
    simp [exchange_call, exchange_dbl_mpipscw_bulk_sync, hl, Outcome.world]
  | mpipscw_async early_wait final =>
    cases early_wait with
    | true =>
      have hf2 := hf rfl
      simp [exchange_call, exchange_dbl_mpipscw_async, hl, hf2, Outcome.world, Outcome.bind]
    | false =>
      simp [exchange_call, exchange_dbl_mpipscw_async, hl, Outcome.world]

theorem gaspi_async_iter_unpack (dim2 b : Nat) (w : World) :
    extends_by Event.is_unpack_phase w (gaspi_async_iter dim2 b w).world := by
  unfold gaspi_async_iter
  simp only
  cases hnot : w.notifications with
  | nil =>
    simp only [World.emit, hnot, Outcome.world]
    exact ⟨_, rfl, by simp [Event.is_unpack_phase]⟩
  | cons hd rest =>
    obtain ⟨id, value⟩ := hd
    simp only [World.emit, hnot]
    have hpre : ∀ e ∈ [Event.notify_waitsome (2 + b) 0 w.cd.ncommdomains,
        Event.notify_reset (2 + b) id], Event.is_unpack_phase e := by
      simp [Event.is_unpack_phase]
    split
    · simp only [Outcome.world]
      exact ⟨[Event.notify_waitsome (2 + b) 0 w.cd.ncommdomains,
        Event.notify_reset (2 + b) id], by simp, hpre⟩
    · split
      · simp only [Outcome.world]
        exact ⟨[Event.notify_waitsome (2 + b) 0 w.cd.ncommdomains,
          Event.notify_reset (2 + b) id], by simp, hpre⟩
      · simp only [Outcome.world]
        refine ⟨[Event.notify_waitsome (2 + b) 0 w.cd.ncommdomains,
          Event.notify_reset (2 + b) id]
          ++ (if 0 < w.cd.recvcount (w.cd.commpartner id) then
            [Event.gaspi_unpack (2 + b) (w.cd.local_recv_offset (w.cd.commpartner id))
              (w.cd.recvcount (w.cd.commpartner id))] else []), ?_, ?_⟩
        · rw [gaspi_copy_out_trace]
          simp only [List.append_assoc]
          rfl
        · intro e he
          rcases List.mem_append.mp he with h | h
          · exact hpre e h
          · split at h
            · simp only [List.mem_singleton] at h
              subst h
              simp [Event.is_unpack_phase]
            · simp at h

theorem gaspi_async_all_unpack (dim2 b : Nat) (w : World) :
    extends_by Event.is_unpack_phase w (gaspi_async_all dim2 b w).world := by
  unfold gaspi_async_all
  exact for_loop_rule_world (fun s => extends_by Event.is_unpack_phase w s) _ _ w
    (extends_refl _ w)
    (fun i s _ h => extends_trans _ w s _ h (gaspi_async_iter_unpack dim2 b s))

theorem mpidma_wait_copy_out_unpack (dim2 : Nat) (w : World) :
    extends_by Event.is_unpack_phase w (mpidma_copy_out_all dim2 (mpidma_async_wait w)) := by
  refine ⟨[Event.win_wait]
    ++ events_over (mpidma_copy_out_events w.cd) w.cd.ncommdomains, ?_, ?_⟩
  · rw [mpidma_copy_out_all_trace]
    simp [mpidma_async_wait, List.append_assoc]
  · intro e he
    rcases List.mem_append.mp he with h | h
    · simp only [List.mem_singleton] at h
      subst h
      simp [Event.is_unpack_phase]
    · refine events_over_forall Event.is_unpack_phase _ _ ?_ e h
      intro i _ e2 he2
      unfold mpidma_copy_out_events at he2
      split at he2
      · simp only [List.mem_singleton] at he2
        subst he2
        simp [Event.is_unpack_phase]
      · simp at he2

/-- A thread that is not the last one performs only actions of the unpack phase and
leaves `comm_data` as it is. -/
theorem exchange_call_first (v : TriggeredVariant) (t : ThreadCtx) (dim2 : Int) (w : World)
    (hl : this_is_the_last_thread t = false) :
    extends_by Event.is_unpack_phase w (exchange_call v t dim2 w).world
      ∧ (exchange_call v t dim2 w).world.cd = w.cd := by
  by_cases hf : v.first_thread_phase = true → this_is_the_first_thread t = false
  · rw [exchange_call_idle v t dim2 w hl hf]
    exact ⟨extends_refl _ w, rfl⟩
  · have hv : v.first_thread_phase = true := by
      by_contra hc
      exact hf (fun h => absurd h hc)
    have hft : this_is_the_first_thread t = true := by
      by_contra hc
      exact hf (fun _ => by simpa using hc)
    cases v with
    | gaspi_bulk_sync => cases hv
    | mpifence_bulk_sync => cases hv
    | mpipscw_bulk_sync => cases hv
    | gaspi_async =>
      simp only [exchange_call, exchange_dbl_gaspi_async, hl, hft, if_true]
      split
      · exact ⟨extends_refl _ w, rfl⟩
      · split
        · exact ⟨extends_refl _ w, rfl⟩
        · split
          · exact ⟨extends_refl _ w, rfl⟩
          · have h1 := gaspi_async_all_unpack dim2.toNat (w.cd.recv_stage % 2) w
            have h2 := gaspi_async_all_cd dim2.toNat (w.cd.recv_stage % 2) w
            cases hw : gaspi_async_all dim2.toNat (w.cd.recv_stage % 2) w with
            | ok s =>
              rw [hw] at h1 h2
              simpa [Outcome.bind, Outcome.world] using And.intro h1 h2
            | abort s =>
              rw [hw] at h1 h2
              simpa [Outcome.bind, Outcome.world] using And.intro h1 h2
            | hang s =>
              rw [hw] at h1 h2
              simpa [Outcome.bind, Outcome.world] using And.intro h1 h2
    | mpipscw_async early_wait final =>
      have hew : early_wait = true := hv
      subst hew
      simp only [exchange_call, exchange_dbl_mpipscw_async, hl, hft, if_true]
      split
      · exact ⟨extends_refl _ w, rfl⟩
      · split
        · exact ⟨extends_refl _ w, rfl⟩
        · simp only [Outcome.bind, Outcome.world]
          refine ⟨?_, ?_⟩
          · simpa using mpidma_wait_copy_out_unpack dim2.toNat w
          · simp [mpidma_copy_out_all_cd, mpidma_async_wait]

/-- In the variants with a first-thread phase, a thread that is not the first one
performs only actions that close the round and leaves the field array as it is. -/
theorem exchange_call_last (v : TriggeredVariant) (t : ThreadCtx) (dim2 : Int) (w : World)
    (hv : v.first_thread_phase = true) (hf : this_is_the_first_thread t = false) :
    extends_by Event.is_advance_phase w (exchange_call v t dim2 w).world
      ∧ (exchange_call v t dim2 w).world.data = w.data := by
  cases hlast : this_is_the_last_thread t with
  | false =>
    rw [exchange_call_idle v t dim2 w hlast (fun _ => hf)]
    exact ⟨extends_refl _ w, rfl⟩
  | true =>
    cases v with
    | gaspi_bulk_sync => cases hv
    | mpifence_bulk_sync => cases hv
    | mpipscw_bulk_sync => cases hv
    | gaspi_async =>
      simp only [exchange_call, exchange_dbl_gaspi_async, hlast, hf, if_true]
      split
      · exact ⟨extends_refl _ w, rfl⟩
      · split
        · exact ⟨extends_refl _ w, rfl⟩
        · split
          · exact ⟨extends_refl _ w, rfl⟩
          · simp only [Outcome.bind, Outcome.world]
            exact ⟨⟨[Event.inc_stage], rfl, by simp [Event.is_advance_phase]⟩, rfl⟩
    | mpipscw_async early_wait final =>
      have hew : early_wait = true := hv
      subst hew
      simp only [exchange_call, exchange_dbl_mpipscw_async, hlast, hf, if_true]
      simp only [Bool.false_eq_true, if_false, Outcome.bind]
      split
      · simp only [Outcome.world]
        exact ⟨⟨[Event.inc_stage, Event.win_post, Event.win_start],
          by simp [mpidma_async_post_start, inc_stage, World.emit],
          by simp [Event.is_advance_phase]⟩, rfl⟩
      · simp only [Outcome.world]
        exact ⟨⟨[Event.inc_stage], rfl, by simp [Event.is_advance_phase]⟩, rfl⟩

/-- C12. Single-trigger invariant.  For a team of `n ≥ 1` threads and each of the five
entry points `exchange_dbl_gaspi_bulk_sync`, `exchange_dbl_gaspi_async`,
`exchange_dbl_mpifence_bulk_sync`, `exchange_dbl_mpipscw_bulk_sync`,
`exchange_dbl_mpipscw_async` (either build, any `final`): exactly one thread index is the
last thread and exactly one is the first thread; a thread that triggers no phase performs
no action and changes nothing; a thread other than the last performs only actions of the
unpack phase (waits, resets, unpacks) and leaves the counters alone; in the variants with
a first-thread phase a thread other than the first performs only the stage increment and
the opening of the next epoch and leaves the field array alone; and a completed round, in
which every thread calls the function once in any order, advances `send_stage` and
`recv_stage` by exactly 1 — for `n = 1` as well, where one thread has both roles. -/
theorem single_trigger (v : TriggeredVariant) (n : Nat) (dim2 : Int) (hn : 0 < n) :
    ((List.range n).countP
        (fun tid => this_is_the_last_thread { tid := tid, nthreads := n }) = 1
      ∧ (List.range n).countP
        (fun tid => this_is_the_first_thread { tid := tid, nthreads := n }) = 1)
    ∧ (∀ (tid : Nat) (w : World),
        this_is_the_last_thread { tid := tid, nthreads := n } = false →
        (v.first_thread_phase = true →
          this_is_the_first_thread { tid := tid, nthreads := n } = false) →
        (exchange_call v { tid := tid, nthreads := n } dim2 w).world = w)
    ∧ (∀ (tid : Nat) (w : World),
        this_is_the_last_thread { tid := tid, nthreads := n } = false →
        extends_by Event.is_unpack_phase w
            (exchange_call v { tid := tid, nthreads := n } dim2 w).world
          ∧ (exchange_call v { tid := tid, nthreads := n } dim2 w).world.cd = w.cd)
    ∧ (∀ (tid : Nat) (w : World),
        v.first_thread_phase = true →
        this_is_the_first_thread { tid := tid, nthreads := n } = false →
        extends_by Event.is_advance_phase w
            (exchange_call v { tid := tid, nthreads := n } dim2 w).world
          ∧ (exchange_call v { tid := tid, nthreads := n } dim2 w).world.data = w.data)
    ∧ (∀ (sched : List Nat) (w w2 : World),
        sched.Perm (List.range n) →
        team_round (fun t s => exchange_call v t dim2 s) n sched w = .ok w2 →
        w2.cd.send_stage = w.cd.send_stage + 1 ∧ w2.cd.recv_stage = w.cd.recv_stage + 1) := by
  refine ⟨⟨count_last_thread n _ hn (List.Perm.refl _),
    count_first_thread n _ hn (List.Perm.refl _)⟩, ?_, ?_, ?_, ?_⟩
  · intro tid w hl hf
    exact exchange_call_idle v _ dim2 w hl hf
  · intro tid w hl
    exact exchange_call_first v _ dim2 w hl
  · intro tid w hv hf
    exact exchange_call_last v _ dim2 w hv hf
  · intro sched w w2 hperm hround
    have h := team_round_counts (fun t s => exchange_call v t dim2 s) n sched
      (fun t s s2 hs => exchange_call_stage v t dim2 s s2 hs) w w2 hround
    rw [count_last_thread n sched hn hperm] at h
    exact h

/-- Witness for C12: a team of two threads runs one round of the pipelined active-target
variant (early-wait build) on domain `B` of the concrete scenario; thread 1 is scheduled
before thread 0. -/
theorem single_trigger_witness :
    0 < 2
    ∧ [1, 0].Perm (List.range 2)
    ∧ (team_round
          (fun t s => exchange_call (TriggeredVariant.mpipscw_async true 0) t 2 s) 2 [1, 0]
          scenario_B_idle).isOk = true
    ∧ (team_round
          (fun t s => exchange_call (TriggeredVariant.mpipscw_async true 0) t 2 s) 2 [1, 0]
          scenario_B_idle).world.cd.send_stage = scenario_B_idle.cd.send_stage + 1
    ∧ (team_round
          (fun t s => exchange_call (TriggeredVariant.mpipscw_async true 0) t 2 s) 2 [1, 0]
          scenario_B_idle).world.cd.recv_stage = scenario_B_idle.cd.recv_stage + 1 :=
  ⟨by decide, by decide, by decide,
    (single_trigger (TriggeredVariant.mpipscw_async true 0) 2 2 (by decide)).2.2.2.2
      [1, 0] scenario_B_idle _ (by decide) (outcome_of_isOk _ (by decide))⟩

/-! ## The fence protocol -/

theorem new_events_append (w s : World) (es : List Event) (h : s.trace = w.trace ++ es) :
    new_events w s = es := by
  unfold new_events
  rw [h, List.drop_left]

theorem mpidma_write_events_no_unpack (cd : comm_data) (dim2 n : Nat) :
    ∀ e ∈ events_over (mpidma_write_events cd dim2) n, e.is_mpi_unpack = false := by
  refine events_over_forall (fun e => e.is_mpi_unpack = false) _ _ ?_
  intro i _ e he
  unfold mpidma_write_events at he
  split at he
  · simp only [List.mem_cons, List.mem_singleton, List.not_mem_nil, or_false] at he
    rcases he with h | h <;> subst h <;> rfl
  · simp at he

theorem mpidma_copy_out_events_no_put (cd : comm_data) (n : Nat) :
    ∀ e ∈ events_over (mpidma_copy_out_events cd) n, e.is_put = false := by
  refine events_over_forall (fun e => e.is_put = false) _ _ ?_
  intro i _ e he
  unfold mpidma_copy_out_events at he
  split at he
  · simp only [List.mem_singleton] at he
    subst he
    rfl
  · simp at he

/-- C13. Fence protocol order.  On the last thread, with `dim2 > 0` and a partner list of
length `n ≥ 1`, one call of `exchange_dbl_mpifence_bulk_sync` returns and performs exactly
this sequence of actions: one window fence (`MPI_MODE_NOPRECEDE`); for each list
position in order, if the partner `k` has `sendcount > 0`, the pack loop followed by one
put to rank `k` at target displacement `remote_recv_offset[k]`; a second window fence;
for each list position in order the unpack loop (if `recvcount > 0`); one increment of
`send_stage` and `recv_stage`.  Nothing of the round precedes the first fence, no unpack
precedes the second fence and no put follows it. -/
theorem fence_protocol_order (t : ThreadCtx) (dim2 : Int) (w : World)
    (hlast : this_is_the_last_thread t = true) (hd : 0 < dim2)
    (hn : w.cd.ncommdomains ≠ 0) :
    ∃ w2, exchange_dbl_mpifence_bulk_sync t dim2 w = .ok w2
      ∧ new_events w w2
        = [Event.win_fence FenceMode.noprecede]
          ++ events_over (mpidma_write_events w.cd dim2.toNat) w.cd.ncommdomains
          ++ [Event.win_fence FenceMode.nosucceed_nostore]
          ++ events_over (mpidma_copy_out_events w.cd) w.cd.ncommdomains
          ++ [Event.inc_stage]
      ∧ (∀ i, 0 < w.cd.sendcount (w.cd.commpartner i) →
          mpidma_write_events w.cd dim2.toNat i
            = [Event.mpi_pack (w.cd.local_send_offset (w.cd.commpartner i))
                (w.cd.sendcount (w.cd.commpartner i)),
               Event.put (w.cd.local_send_offset (w.cd.commpartner i))
                (int_of_size_t (w.cd.sendcount (w.cd.commpartner i) * dim2.toNat * szd))
                (w.cd.commpartner i) (w.cd.remote_recv_offset (w.cd.commpartner i))
                (int_of_size_t (w.cd.sendcount (w.cd.commpartner i) * dim2.toNat * szd))])
      ∧ (∀ i, ¬ 0 < w.cd.sendcount (w.cd.commpartner i) →
          mpidma_write_events w.cd dim2.toNat i = [])
      ∧ (∀ e ∈ [Event.win_fence FenceMode.noprecede]
            ++ events_over (mpidma_write_events w.cd dim2.toNat) w.cd.ncommdomains,
          e.is_mpi_unpack = false)
      ∧ (∀ e ∈ events_over (mpidma_copy_out_events w.cd) w.cd.ncommdomains
            ++ [Event.inc_stage], e.is_put = false)
      ∧ w2.cd.send_stage = w.cd.send_stage + 1
      ∧ w2.cd.recv_stage = w.cd.recv_stage + 1 := by
  have hrun : exchange_dbl_mpifence_bulk_sync t dim2 w
      = .ok (inc_stage (mpidma_copy_out_all dim2.toNat
          ((mpidma_write_all dim2.toNat
            (w.emit [Event.win_fence FenceMode.noprecede])).emit
              [Event.win_fence FenceMode.nosucceed_nostore]))) := by
    unfold exchange_dbl_mpifence_bulk_sync
    simp only [hlast, if_true, hd, hn, ne_eq, not_true_eq_false, not_false_eq_true, if_false]
  refine ⟨_, hrun, ?_, ?_, ?_, ?_, ?_, ?_, ?_⟩
  · apply new_events_append
    have hcd1 : (mpidma_write_all dim2.toNat
        (w.emit [Event.win_fence FenceMode.noprecede])).cd = w.cd := by
      rw [mpidma_write_all_cd, emit_cd]
    simp only [inc_stage]
    rw [mpidma_copy_out_all_trace, emit_cd, emit_trace, mpidma_write_all_trace, emit_cd,
      emit_trace, hcd1]
    simp only [List.append_assoc]
  · intro i hi
    simp [mpidma_write_events, hi]
  · intro i hi
    simp [mpidma_write_events, hi]
  · intro e he
    rcases List.mem_append.mp he with h | h
    · simp only [List.mem_singleton] at h
      subst h
      rfl
    · exact mpidma_write_events_no_unpack _ _ _ e h
  · intro e he
    rcases List.mem_append.mp he with h | h
    · exact mpidma_copy_out_events_no_put _ _ e h
    · simp only [List.mem_singleton] at h
      subst h
      rfl
  · simp [inc_stage, mpidma_copy_out_all_cd, mpidma_write_all_cd]
  · simp [inc_stage, mpidma_copy_out_all_cd, mpidma_write_all_cd]

/-- Witness for C13: domain `A` of the concrete scenario (one partner, three points to
send, stride 2) performs fence, pack, put of 48 bytes to rank 1 at displacement 0, fence,
increment. -/
theorem fence_protocol_order_witness :
    this_is_the_last_thread { tid := 0, nthreads := 1 } = true
    ∧ (0 : Int) < 2
    ∧ scenario_A.cd.ncommdomains ≠ 0
    ∧ ∃ w2, exchange_dbl_mpifence_bulk_sync { tid := 0, nthreads := 1 } 2 scenario_A = .ok w2
      ∧ new_events scenario_A w2
        = [Event.win_fence FenceMode.noprecede, Event.mpi_pack 0 3, Event.put 0 48 1 0 48,
           Event.win_fence FenceMode.nosucceed_nostore, Event.inc_stage]
      ∧ w2.cd.send_stage = 1 ∧ w2.cd.recv_stage = 1 :=
  ⟨rfl, by decide, by decide,
    match fence_protocol_order { tid := 0, nthreads := 1 } 2 scenario_A rfl (by decide)
      (by decide) with
    | ⟨w2, hrun, hev, _, _, _, _, hs, hr⟩ => ⟨w2, hrun, hev.trans (by decide), hs, hr⟩⟩

/-! ## The active-target epoch machine -/

theorem epoch_run_append (s : EpochState) (l1 l2 : List Event) :
    epoch_run s (l1 ++ l2) = (epoch_run s l1).bind fun s2 => epoch_run s2 l2 := by
  induction l1 generalizing s with
  | nil => rfl
  | cons e es ih =>
    simp only [List.cons_append, epoch_run]
    cases epoch_step s e with
    | none => rfl
    | some s2 => simpa using ih s2

theorem epoch_run_writes (cd : comm_data) (dim2 n : Nat) (s : EpochState)
    (hs : s = EpochState.EpochOpen ∨ s = EpochState.WritesIssued) :
    epoch_run s (events_over (mpidma_write_events cd dim2) n) = some EpochState.EpochOpen
      ∨ epoch_run s (events_over (mpidma_write_events cd dim2) n)
        = some EpochState.WritesIssued := by
  induction n with
  | zero =>
    rcases hs with h | h <;> subst h
    · exact Or.inl rfl
    · exact Or.inr rfl
  | succ n ih =>
    rw [events_over, epoch_run_append]
    by_cases hc : 0 < cd.sendcount (cd.commpartner n)
    · rcases ih with h | h <;> rw [h] <;>
        simp [mpidma_write_events, hc, epoch_run, epoch_step]
    · rcases ih with h | h <;> rw [h] <;>
        simp [mpidma_write_events, hc, epoch_run]

theorem epoch_run_copy_out (cd : comm_data) (n : Nat) :
    epoch_run EpochState.Drained (events_over (mpidma_copy_out_events cd) n)
      = some EpochState.Drained := by
  induction n with
  | zero => rfl
  | succ n ih =>
    rw [events_over, epoch_run_append, ih]
    by_cases hc : 0 < cd.recvcount (cd.commpartner n)
    · simp [mpidma_copy_out_events, hc, epoch_run, epoch_step]
    · simp [mpidma_copy_out_events, hc, epoch_run]

theorem epoch_run_closed (cd : comm_data) (dim2 : Nat) :
    epoch_run EpochState.Idle
        ([Event.win_post, Event.win_start]
          ++ events_over (mpidma_write_events cd dim2) cd.ncommdomains
          ++ [Event.win_complete]) = some EpochState.EpochClosed := by
  rw [epoch_run_append, epoch_run_append]
  have h0 : epoch_run EpochState.Idle [Event.win_post, Event.win_start]
      = some EpochState.EpochOpen := rfl
  rw [h0]
  rcases epoch_run_writes cd dim2 cd.ncommdomains EpochState.EpochOpen (Or.inl rfl)
    with h | h
  · simp [h, epoch_run, epoch_step]
  · simp [h, epoch_run, epoch_step]

theorem epoch_run_round (cd : comm_data) (dim2 : Nat) :
    epoch_run EpochState.Idle (pscw_round_events cd dim2) = some EpochState.Idle := by
  have hsplit : pscw_round_events cd dim2
      = ([Event.win_post, Event.win_start]
          ++ events_over (mpidma_write_events cd dim2) cd.ncommdomains
          ++ [Event.win_complete])
        ++ ([Event.win_wait]
          ++ (events_over (mpidma_copy_out_events cd) cd.ncommdomains
            ++ [Event.inc_stage])) := by
    simp [pscw_round_events, List.append_assoc]
  rw [hsplit, epoch_run_append, epoch_run_closed]
  have h1 : epoch_run EpochState.EpochClosed
      ([Event.win_wait] ++ (events_over (mpidma_copy_out_events cd) cd.ncommdomains
        ++ [Event.inc_stage]))
      = epoch_run EpochState.Drained
        (events_over (mpidma_copy_out_events cd) cd.ncommdomains ++ [Event.inc_stage]) := by
    simp [epoch_run, epoch_step]
  simp only [Option.bind]
  rw [h1, epoch_run_append, epoch_run_copy_out]
  rfl

theorem mpipscw_bulk_sync_run (t : ThreadCtx) (dim2 : Int) (w : World)
    (hlast : this_is_the_last_thread t = true) (hd : 0 < dim2)
    (hn : w.cd.ncommdomains ≠ 0) :
    exchange_dbl_mpipscw_bulk_sync t dim2 w
      = .ok (inc_stage (mpidma_copy_out_all dim2.toNat
          (mpidma_async_wait (mpidma_async_complete
            (mpidma_write_all dim2.toNat (mpidma_async_post_start w)))))) := by
  unfold exchange_dbl_mpipscw_bulk_sync
  simp only [hlast, if_true, hd, hn, ne_eq, not_true_eq_false, not_false_eq_true, if_false]

theorem mpipscw_bulk_sync_events (dim2 : Nat) (w : World) :
    (inc_stage (mpidma_copy_out_all dim2
        (mpidma_async_wait (mpidma_async_complete
          (mpidma_write_all dim2 (mpidma_async_post_start w)))))).trace
      = w.trace ++ pscw_round_events w.cd dim2 := by
  have hcd1 : (mpidma_write_all dim2 (mpidma_async_post_start w)).cd = w.cd := by
    rw [mpidma_write_all_cd]
    rfl
  simp only [inc_stage, mpidma_async_wait, mpidma_async_complete, pscw_round_events]
  rw [mpidma_copy_out_all_trace]
  simp only [emit_cd, emit_trace]
  rw [mpidma_write_all_trace, hcd1]
  simp [mpidma_async_post_start, List.append_assoc]

theorem pscw_rounds_trace (dim2 : Int) (K : Nat) (w0 w : World)
    (h : PscwRounds dim2 K w0 w) :
    ∃ es, w.trace = w0.trace ++ es
      ∧ epoch_run EpochState.Idle es = some EpochState.Idle := by
  induction h with
  | zero w => exact ⟨[], by simp, rfl⟩
  | @succ K1 wa w1 w2 w3 t _ hcd htr hlast hrun ih =>
    obtain ⟨es, hes, hacc⟩ := ih
    by_cases hd : 0 < dim2
    · by_cases hn : w2.cd.ncommdomains ≠ 0
      · rw [mpipscw_bulk_sync_run t dim2 w2 hlast hd hn] at hrun
        cases hrun
        refine ⟨es ++ pscw_round_events w2.cd dim2.toNat, ?_, ?_⟩
        · rw [mpipscw_bulk_sync_events, htr, hes, List.append_assoc]
        · rw [epoch_run_append, hacc]
          exact epoch_run_round w2.cd dim2.toNat
      · simp [exchange_dbl_mpipscw_bulk_sync, hlast, hd, hn] at hrun
    · simp [exchange_dbl_mpipscw_bulk_sync, hlast, hd] at hrun

/-- C14. Active-target epoch state machine.  On the last thread, with `dim2 > 0` and a
partner list of length `n ≥ 1`, one call of `exchange_dbl_mpipscw_bulk_sync` returns and
performs exactly: post, start; for each list position in order, if the partner has
`sendcount > 0`, the pack loop and one put; complete; wait; the unpack loops in list
order; the stage increment.  The machine of the specification accepts this sequence as a
run from `Idle` back to `Idle`, passing `EpochOpen` after post and start, `EpochClosed`
after complete; the machine takes a put only in an open epoch, complete only after
start and the puts, wait only after complete, an unpack only after wait; and the actions
of any `K` consecutive rounds form an accepted run from `Idle` to `Idle`. -/
theorem epoch_state_machine (t : ThreadCtx) (dim2 : Int) (w : World)
    (hlast : this_is_the_last_thread t = true) (hd : 0 < dim2)
    (hn : w.cd.ncommdomains ≠ 0) :
    (∃ w2, exchange_dbl_mpipscw_bulk_sync t dim2 w = .ok w2
      ∧ new_events w w2 = pscw_round_events w.cd dim2.toNat
      ∧ epoch_run EpochState.Idle (new_events w w2) = some EpochState.Idle)
    ∧ epoch_run EpochState.Idle [Event.win_post, Event.win_start] = some EpochState.EpochOpen
    ∧ epoch_run EpochState.Idle
        ([Event.win_post, Event.win_start]
          ++ events_over (mpidma_write_events w.cd dim2.toNat) w.cd.ncommdomains
          ++ [Event.win_complete]) = some EpochState.EpochClosed
    ∧ (∀ (s s2 : EpochState) (e : Event), epoch_step s e = some s2 →
        (e.is_put = true → (s = EpochState.EpochOpen ∨ s = EpochState.WritesIssued)
          ∧ s2 = EpochState.WritesIssued)
        ∧ (e = Event.win_complete →
          (s = EpochState.EpochOpen ∨ s = EpochState.WritesIssued)
            ∧ s2 = EpochState.EpochClosed)
        ∧ (e = Event.win_wait → s = EpochState.EpochClosed ∧ s2 = EpochState.Drained)
        ∧ (e.is_mpi_unpack = true → s = EpochState.Drained ∧ s2 = EpochState.Drained))
    ∧ (∀ (K : Nat) (w0 wK : World), PscwRounds dim2 K w0 wK →
        epoch_run EpochState.Idle (new_events w0 wK) = some EpochState.Idle) := by
  refine ⟨?_, rfl, epoch_run_closed w.cd dim2.toNat, ?_, ?_⟩
  · refine ⟨_, mpipscw_bulk_sync_run t dim2 w hlast hd hn, ?_, ?_⟩
    · exact new_events_append _ _ _ (mpipscw_bulk_sync_events dim2.toNat w)
    · rw [new_events_append _ _ _ (mpipscw_bulk_sync_events dim2.toNat w)]
      exact epoch_run_round w.cd dim2.toNat
  · intro s s2 e hstep
    cases s <;> cases e <;> simp [epoch_step] at hstep <;> subst hstep <;>
      simp [Event.is_put, Event.is_mpi_unpack]
  · intro K w0 wK hR
    obtain ⟨es, hes, hacc⟩ := pscw_rounds_trace dim2 K w0 wK hR
    rw [new_events_append _ _ _ hes]
    exact hacc

/-- Witness for C14: domain `A` of the concrete scenario runs one round; the round is
also a sequence of one consecutive round in the sense of `PscwRounds`. -/
theorem epoch_state_machine_witness :
    this_is_the_last_thread { tid := 0, nthreads := 1 } = true
    ∧ (0 : Int) < 2
    ∧ scenario_A.cd.ncommdomains ≠ 0
    ∧ (∃ w2, exchange_dbl_mpipscw_bulk_sync { tid := 0, nthreads := 1 } 2 scenario_A = .ok w2
      ∧ new_events scenario_A w2
        = [Event.win_post, Event.win_start, Event.mpi_pack 0 3, Event.put 0 48 1 0 48,
           Event.win_complete, Event.win_wait, Event.inc_stage]
      ∧ epoch_run EpochState.Idle (new_events scenario_A w2) = some EpochState.Idle)
    ∧ PscwRounds 2 1 scenario_A
        (exchange_dbl_mpipscw_bulk_sync { tid := 0, nthreads := 1 } 2 scenario_A).world
    ∧ epoch_run EpochState.Idle (new_events scenario_A
        (exchange_dbl_mpipscw_bulk_sync { tid := 0, nthreads := 1 } 2 scenario_A).world)
      = some EpochState.Idle :=
  have hR : PscwRounds 2 1 scenario_A
      (exchange_dbl_mpipscw_bulk_sync { tid := 0, nthreads := 1 } 2 scenario_A).world :=
    PscwRounds.succ { tid := 0, nthreads := 1 } (PscwRounds.zero scenario_A) rfl rfl rfl
      (outcome_of_isOk _ (by decide))
  have hall := epoch_state_machine { tid := 0, nthreads := 1 } 2 scenario_A rfl (by decide)
    (by decide)
  ⟨rfl, by decide, by decide,
    match hall.1 with
    | ⟨w2, hrun, hev, hacc⟩ => ⟨w2, hrun, hev.trans (by decide), hacc⟩,
    hR, hall.2.2.2.2 1 _ _ hR⟩

/-! ## The descriptor of the notified write -/

theorem gaspi_write_seg (dim2 b i : Nat) (w : World)
    (hpos : 0 < w.cd.sendcount (w.cd.commpartner i)) :
    (exchange_dbl_gaspi_write dim2 b i w).seg b
      = pack_loop dim2 (w.cd.sendindex (w.cd.commpartner i)) w.data
          (w.cd.local_send_offset (w.cd.commpartner i))
          (w.cd.sendcount (w.cd.commpartner i)) (w.seg b) := by
  unfold exchange_dbl_gaspi_write
  simp only [hpos, if_true, Function.update_same]

/-- C15 (amended). Notify write descriptor.  For a list position `i` with partner
`k = commpartner[i]`, `sendcount[k] > 0` and `sendcount[k] * dim2` below `2^31` (the
product is formed in `int`), and any slot `buffer_id`, `exchange_dbl_gaspi_write`
performs the pack loop and then exactly one `gaspi_write_notify`: local segment
`buffer_id` at offset `local_send_offset[k]`, rank `k`, remote segment `2 + buffer_id`
at offset `remote_recv_offset[k]`, size `sendcount[k] * dim2 * sizeof(double)`,
notification id `notification[k]`, value 1.  The bytes of the source range are the ones
just packed: segment `buffer_id` is unchanged outside `[local_send_offset[k],
local_send_offset[k] + size)` and holds the values of the send points inside. -/
theorem notify_write_descriptor (w : World) (dim2 buffer_id i : Nat)
    (hpos : 0 < w.cd.sendcount (w.cd.commpartner i))
    (hint : w.cd.sendcount (w.cd.commpartner i) * dim2 < 2147483648) :
    new_events w (exchange_dbl_gaspi_write dim2 buffer_id i w)
        = [Event.gaspi_pack buffer_id (w.cd.local_send_offset (w.cd.commpartner i))
            (w.cd.sendcount (w.cd.commpartner i)),
           Event.write_notify buffer_id (w.cd.local_send_offset (w.cd.commpartner i))
            (w.cd.commpartner i) (2 + buffer_id)
            (w.cd.remote_recv_offset (w.cd.commpartner i))
            (w.cd.sendcount (w.cd.commpartner i) * dim2 * szd)
            (w.cd.notification (w.cd.commpartner i)) 1 0]
    ∧ (new_events w (exchange_dbl_gaspi_write dim2 buffer_id i w)).countP
        Event.is_write_notify = 1
    ∧ (∀ a, (a < w.cd.local_send_offset (w.cd.commpartner i)
          ∨ w.cd.local_send_offset (w.cd.commpartner i)
              + w.cd.sendcount (w.cd.commpartner i) * dim2 * szd ≤ a) →
        (exchange_dbl_gaspi_write dim2 buffer_id i w).seg buffer_id a = w.seg buffer_id a)
    ∧ (∀ j r, j < w.cd.sendcount (w.cd.commpartner i) → r < dim2 * szd →
        (exchange_dbl_gaspi_write dim2 buffer_id i w).seg buffer_id
            (w.cd.local_send_offset (w.cd.commpartner i) + szd * (dim2 * j) + r)
          = w.data (szd * (dim2 * w.cd.sendindex (w.cd.commpartner i) j) + r)) := by
  have hev := new_events_append w _ _ (gaspi_write_trace dim2 buffer_id i w)
  simp only [hpos, if_true, gaspi_write_size_small _ _ hint] at hev
  refine ⟨hev, ?_, ?_, ?_⟩
  · rw [hev]
    rfl
  · intro a ha
    rw [gaspi_write_seg dim2 buffer_id i w hpos]
    apply pack_loop_miss
    have hsz : w.cd.sendcount (w.cd.commpartner i) * dim2 * szd
        = szd * (dim2 * w.cd.sendcount (w.cd.commpartner i)) := by
      rw [Nat.mul_comm (w.cd.sendcount (w.cd.commpartner i)) dim2, Nat.mul_comm]
    rw [← hsz]
    exact ha
  · intro j r hj hr
    rw [gaspi_write_seg dim2 buffer_id i w hpos]
    exact pack_loop_hit _ _ _ _ _ _ j r hj hr

/-- Witness for C15 (amended): domain `A` of the concrete scenario writes its three points
of two doubles, 48 bytes, from slot 1 to rank 1, segment 3, with notification 0. -/
theorem notify_write_descriptor_witness :
    0 < scenario_A.cd.sendcount (scenario_A.cd.commpartner 0)
    ∧ scenario_A.cd.sendcount (scenario_A.cd.commpartner 0) * 2 < 2147483648
    ∧ new_events scenario_A (exchange_dbl_gaspi_write 2 1 0 scenario_A)
        = [Event.gaspi_pack 1 0 3, Event.write_notify 1 0 1 3 0 48 0 1 0] :=
  ⟨by decide, by decide,
    (notify_write_descriptor scenario_A 2 1 0 (by decide) (by decide)).1.trans (by decide)⟩

/-- C15 as stated fails.  Domain `wide_A` has `65536` points to send to its partner; with
the stride `32768` the `int` product `65536 * 32768 = 2^31` wraps to `-2^31` before it is
widened, and the size handed to `gaspi_write_notify` is `18446744056529682432`, while
the bytes just packed are `65536 * 32768 * 8 = 17179869184`. -/
theorem notify_write_descriptor_counterexample :
    0 < wide_A.cd.sendcount (wide_A.cd.commpartner 0)
    ∧ wide_A.cd.sendcount (wide_A.cd.commpartner 0) * 32768 * szd = 17179869184
    ∧ new_events wide_A (exchange_dbl_gaspi_write 32768 0 0 wide_A)
        = [Event.gaspi_pack 0 0 65536,
           Event.write_notify 0 0 1 2 0 18446744056529682432 0 1 0]
    ∧ new_events wide_A (exchange_dbl_gaspi_write 32768 0 0 wide_A)
        ≠ [Event.gaspi_pack 0 (wide_A.cd.local_send_offset (wide_A.cd.commpartner 0))
            (wide_A.cd.sendcount (wide_A.cd.commpartner 0)),
           Event.write_notify 0 (wide_A.cd.local_send_offset (wide_A.cd.commpartner 0))
            (wide_A.cd.commpartner 0) (2 + 0)
            (wide_A.cd.remote_recv_offset (wide_A.cd.commpartner 0))
            (wide_A.cd.sendcount (wide_A.cd.commpartner 0) * 32768 * szd)
            (wide_A.cd.notification (wide_A.cd.commpartner 0)) 1 0] := by
  decide

/-! ## The driver of the pipelined active-target variant -/

theorem prefix_count_succ (count : Nat → Nat) (cd : comm_data) (i : Nat) :
    prefix_count count cd (i + 1) = prefix_count count cd i + count (cd.commpartner i) := by
  unfold prefix_count
  exact sum_map_range_succ _ i

theorem prefix_count_mono (count : Nat → Nat) (cd : comm_data) (i m : Nat) (h : i ≤ m) :
    prefix_count count cd i ≤ prefix_count count cd m := by
  induction m with
  | zero =>
    have h0 : i = 0 := by omega
    subst h0
    exact Nat.le_refl _
  | succ m ih =>
    by_cases hm : i = m + 1
    · subst hm
      exact Nat.le_refl _
    · have := ih (by omega)
      rw [prefix_count_succ]
      omega

theorem region_end (count offset : Nat → Nat) (cd : comm_data) (dim2 i : Nat)
    (hlay : prefix_layout count offset cd dim2) (hi : i < cd.ncommdomains) :
    offset (cd.commpartner i) + count (cd.commpartner i) * dim2 * szd
      = prefix_count count cd (i + 1) * dim2 * szd := by
  rw [hlay i hi, prefix_count_succ, Nat.add_mul, Nat.add_mul]

theorem region_inside (count offset : Nat → Nat) (cd : comm_data) (dim2 i : Nat)
    (hlay : prefix_layout count offset cd dim2) (hi : i < cd.ncommdomains) :
    offset (cd.commpartner i) + count (cd.commpartner i) * dim2 * szd
      ≤ total_count count cd * dim2 * szd := by
  rw [region_end count offset cd dim2 i hlay hi]
  have h : prefix_count count cd (i + 1) ≤ total_count count cd :=
    prefix_count_mono count cd (i + 1) cd.ncommdomains hi
  exact Nat.mul_le_mul_right _ (Nat.mul_le_mul_right _ h)

theorem region_before (count offset : Nat → Nat) (cd : comm_data) (dim2 i j : Nat)
    (hlay : prefix_layout count offset cd dim2) (hij : i < j) (hj : j < cd.ncommdomains) :
    offset (cd.commpartner i) + count (cd.commpartner i) * dim2 * szd
      ≤ offset (cd.commpartner j) := by
  rw [region_end count offset cd dim2 i hlay (by omega), hlay j hj]
  exact Nat.mul_le_mul_right _
    (Nat.mul_le_mul_right _ (prefix_count_mono count cd (i + 1) j hij))

theorem region_disjoint (count offset : Nat → Nat) (cd : comm_data) (dim2 i j : Nat)
    (hlay : prefix_layout count offset cd dim2) (hi : i < cd.ncommdomains)
    (hj : j < cd.ncommdomains) (hij : i ≠ j) :
    offset (cd.commpartner i) + count (cd.commpartner i) * dim2 * szd
        ≤ offset (cd.commpartner j)
      ∨ offset (cd.commpartner j) + count (cd.commpartner j) * dim2 * szd
        ≤ offset (cd.commpartner i) := by
  rcases Nat.lt_or_gt_of_ne hij with h | h
  · exact Or.inl (region_before count offset cd dim2 i j hlay h hj)
  · exact Or.inr (region_before count offset cd dim2 j i hlay h hi)

theorem count_le_total (count : Nat → Nat) (cd : comm_data) (i : Nat)
    (hi : i < cd.ncommdomains) : count (cd.commpartner i) ≤ total_count count cd := by
  have h : prefix_count count cd (i + 1) ≤ total_count count cd :=
    prefix_count_mono count cd (i + 1) cd.ncommdomains hi
  rw [prefix_count_succ] at h
  omega

theorem block_bytes (count dim2 : Nat) : count * dim2 * szd = szd * (dim2 * count) := by
  rw [Nat.mul_comm count dim2, Nat.mul_comm]

/-- The bytes `exchange_dbl_gaspi_write` changes lie in the send segment of the slot,
inside the region of the partner. -/
theorem gaspi_write_changes (dim2 b i : Nat) (w : World) (b2 a : Nat)
    (h : (exchange_dbl_gaspi_write dim2 b i w).seg b2 a ≠ w.seg b2 a) :
    b2 = b ∧ w.cd.local_send_offset (w.cd.commpartner i) ≤ a
      ∧ a < w.cd.local_send_offset (w.cd.commpartner i)
          + w.cd.sendcount (w.cd.commpartner i) * dim2 * szd := by
  by_cases hpos : 0 < w.cd.sendcount (w.cd.commpartner i)
  · by_cases hb : b2 = b
    · subst hb
      rw [gaspi_write_seg dim2 b2 i w hpos] at h
      refine ⟨rfl, ?_⟩
      by_contra hc
      apply h
      apply pack_loop_miss
      rw [← block_bytes]
      omega
    · exfalso
      apply h
      unfold exchange_dbl_gaspi_write
      simp only [hpos, if_true, Function.update_noteq hb]
  · exfalso
    apply h
    unfold exchange_dbl_gaspi_write
    simp only [hpos, if_false]

/-- The bytes `exchange_dbl_mpidma_write` changes lie in the send buffer, inside the
region of the partner. -/
theorem mpidma_write_changes (dim2 i : Nat) (w : World) (a : Nat)
    (h : (exchange_dbl_mpidma_write dim2 i w).sndbuf a ≠ w.sndbuf a) :
    w.cd.local_send_offset (w.cd.commpartner i) ≤ a
      ∧ a < w.cd.local_send_offset (w.cd.commpartner i)
          + w.cd.sendcount (w.cd.commpartner i) * dim2 * szd := by
  by_cases hpos : 0 < w.cd.sendcount (w.cd.commpartner i)
  · by_contra hc
    apply h
    unfold exchange_dbl_mpidma_write
    simp only [hpos, if_true]
    apply pack_loop_miss
    rw [← block_bytes]
    omega
  · exfalso
    apply h
    unfold exchange_dbl_mpidma_write
    simp only [hpos, if_false]

/-- The function `exchange_dbl_gaspi_copy_out` reads the receive segment of the slot only
inside the region of the partner. -/
theorem gaspi_copy_out_region (rc : Nat) (ri : Nat → Nat) (off dim2 b : Nat) (w1 w2 : World)
    (hdata : w1.data = w2.data)
    (hseg : ∀ x, off ≤ x → x < off + rc * dim2 * szd → w1.seg (2 + b) x = w2.seg (2 + b) x) :
    (exchange_dbl_gaspi_copy_out rc ri off dim2 b w1).data
      = (exchange_dbl_gaspi_copy_out rc ri off dim2 b w2).data := by
  unfold exchange_dbl_gaspi_copy_out
  split
  · simp only [hdata]
    exact unpack_loop_congr dim2 ri _ _ off rc w2.data
      (fun x h1 h2 => hseg x h1 (by rw [block_bytes]; exact h2))
  · exact hdata

/-- The function `exchange_dbl_mpidma_copy_out` reads the receive window only inside the
region of the partner. -/
theorem mpidma_copy_out_region (rc : Nat) (ri : Nat → Nat) (off dim2 : Nat) (w1 w2 : World)
    (hdata : w1.data = w2.data)
    (hbuf : ∀ x, off ≤ x → x < off + rc * dim2 * szd → w1.rcvbuf x = w2.rcvbuf x) :
    (exchange_dbl_mpidma_copy_out rc ri off dim2 w1).data
      = (exchange_dbl_mpidma_copy_out rc ri off dim2 w2).data := by
  unfold exchange_dbl_mpidma_copy_out
  split
  · simp only [hdata]
    exact unpack_loop_congr dim2 ri _ _ off rc w2.data
      (fun x h1 h2 => hbuf x h1 (by rw [block_bytes]; exact h2))
  · exact hdata

/-- C17. Pack stays inside the exposed send region and partners do not overlap.  Let
`dim2 = NGRAD * 3`, let `local_send_offset` and `local_recv_offset` follow the
prefix-sum layout, and let both byte totals be below `2^31`.  Then `init_gaspi_segments`
and `init_mpidma_buffers` compute the same sizes `ssz` and `rsz`; for every list
position `i` every byte that `exchange_dbl_gaspi_write` changes lies in the send segment
of the slot, inside the region `[local_send_offset[k], local_send_offset[k] +
sendcount[k] * dim2 * sizeof(double))` of the partner and below `ssz`, and likewise for
`exchange_dbl_mpidma_write` and the send buffer; the regions of two different list
positions are disjoint; the receive regions lie below `rsz` and are pairwise disjoint,
and the two `copy_out` functions read the receive segment (window) only inside the
region of the partner. -/
theorem pack_region_bounds (NGRAD : Nat) (w : World)
    (hsend : prefix_layout w.cd.sendcount w.cd.local_send_offset w.cd (NGRAD * 3))
    (hrecv : prefix_layout w.cd.recvcount w.cd.local_recv_offset w.cd (NGRAD * 3))
    (hs : total_count w.cd.sendcount w.cd * (NGRAD * 3) * szd < 2147483648)
    (hr : total_count w.cd.recvcount w.cd * (NGRAD * 3) * szd < 2147483648) :
    ((mpidma_buffer_sizes w.cd (NGRAD * 3)).2
        = (((gaspi_segment_sizes w.cd (NGRAD * 3)).2 : Nat) : Int)
      ∧ (mpidma_buffer_sizes w.cd (NGRAD * 3)).1
        = (((gaspi_segment_sizes w.cd (NGRAD * 3)).1 : Nat) : Int))
    ∧ (∀ i, i < w.cd.ncommdomains → ∀ b b2 a,
        (exchange_dbl_gaspi_write (NGRAD * 3) b i w).seg b2 a ≠ w.seg b2 a →
        b2 = b ∧ w.cd.local_send_offset (w.cd.commpartner i) ≤ a
          ∧ a < w.cd.local_send_offset (w.cd.commpartner i)
              + w.cd.sendcount (w.cd.commpartner i) * (NGRAD * 3) * szd
          ∧ a < (gaspi_segment_sizes w.cd (NGRAD * 3)).2)
    ∧ (∀ i, i < w.cd.ncommdomains → ∀ a,
        (exchange_dbl_mpidma_write (NGRAD * 3) i w).sndbuf a ≠ w.sndbuf a →
        w.cd.local_send_offset (w.cd.commpartner i) ≤ a
          ∧ a < w.cd.local_send_offset (w.cd.commpartner i)
              + w.cd.sendcount (w.cd.commpartner i) * (NGRAD * 3) * szd
          ∧ (a : Int) < (mpidma_buffer_sizes w.cd (NGRAD * 3)).2)
    ∧ (∀ i j, i < w.cd.ncommdomains → j < w.cd.ncommdomains → i ≠ j →
        w.cd.local_send_offset (w.cd.commpartner i)
            + w.cd.sendcount (w.cd.commpartner i) * (NGRAD * 3) * szd
          ≤ w.cd.local_send_offset (w.cd.commpartner j)
        ∨ w.cd.local_send_offset (w.cd.commpartner j)
            + w.cd.sendcount (w.cd.commpartner j) * (NGRAD * 3) * szd
          ≤ w.cd.local_send_offset (w.cd.commpartner i))
    ∧ (∀ i, i < w.cd.ncommdomains →
        w.cd.local_recv_offset (w.cd.commpartner i)
            + w.cd.recvcount (w.cd.commpartner i) * (NGRAD * 3) * szd
          ≤ (gaspi_segment_sizes w.cd (NGRAD * 3)).1
        ∧ ((w.cd.local_recv_offset (w.cd.commpartner i)
            + w.cd.recvcount (w.cd.commpartner i) * (NGRAD * 3) * szd : Nat) : Int)
          ≤ (mpidma_buffer_sizes w.cd (NGRAD * 3)).1)
    ∧ (∀ i j, i < w.cd.ncommdomains → j < w.cd.ncommdomains → i ≠ j →
        w.cd.local_recv_offset (w.cd.commpartner i)
            + w.cd.recvcount (w.cd.commpartner i) * (NGRAD * 3) * szd
          ≤ w.cd.local_recv_offset (w.cd.commpartner j)
        ∨ w.cd.local_recv_offset (w.cd.commpartner j)
            + w.cd.recvcount (w.cd.commpartner j) * (NGRAD * 3) * szd
          ≤ w.cd.local_recv_offset (w.cd.commpartner i))
    ∧ (∀ i b (w2 : World), w2.data = w.data →
        (∀ x, w.cd.local_recv_offset (w.cd.commpartner i) ≤ x →
          x < w.cd.local_recv_offset (w.cd.commpartner i)
              + w.cd.recvcount (w.cd.commpartner i) * (NGRAD * 3) * szd →
          w2.seg (2 + b) x = w.seg (2 + b) x) →
        (exchange_dbl_gaspi_copy_out (w.cd.recvcount (w.cd.commpartner i))
            (w.cd.recvindex (w.cd.commpartner i))
            (w.cd.local_recv_offset (w.cd.commpartner i)) (NGRAD * 3) b w2).data
          = (exchange_dbl_gaspi_copy_out (w.cd.recvcount (w.cd.commpartner i))
            (w.cd.recvindex (w.cd.commpartner i))
            (w.cd.local_recv_offset (w.cd.commpartner i)) (NGRAD * 3) b w).data)
    ∧ (∀ i (w2 : World), w2.data = w.data →
        (∀ x, w.cd.local_recv_offset (w.cd.commpartner i) ≤ x →
          x < w.cd.local_recv_offset (w.cd.commpartner i)
              + w.cd.recvcount (w.cd.commpartner i) * (NGRAD * 3) * szd →
          w2.rcvbuf x = w.rcvbuf x) →
        (exchange_dbl_mpidma_copy_out (w.cd.recvcount (w.cd.commpartner i))
            (w.cd.recvindex (w.cd.commpartner i))
            (w.cd.local_recv_offset (w.cd.commpartner i)) (NGRAD * 3) w2).data
          = (exchange_dbl_mpidma_copy_out (w.cd.recvcount (w.cd.commpartner i))
            (w.cd.recvindex (w.cd.commpartner i))
            (w.cd.local_recv_offset (w.cd.commpartner i)) (NGRAD * 3) w).data) := by
  have hprod : ∀ i, i < w.cd.ncommdomains →
      w.cd.recvcount (w.cd.commpartner i) * (NGRAD * 3) < 2147483648
        ∧ w.cd.sendcount (w.cd.commpartner i) * (NGRAD * 3) < 2147483648 := by
    intro i hi
    have h1 := Nat.mul_le_mul_right (NGRAD * 3) (count_le_total w.cd.recvcount w.cd i hi)
    have h2 := Nat.mul_le_mul_right (NGRAD * 3) (count_le_total w.cd.sendcount w.cd i hi)
    simp only [szd] at hs hr
    omega
  have hg := gaspi_segment_sizes_eq w.cd (NGRAD * 3) hprod (by omega) (by omega)
  have hm := mpidma_buffer_sizes_eq w.cd (NGRAD * 3) hr hs
  refine ⟨⟨by rw [hg, hm], by rw [hg, hm]⟩, ?_, ?_, ?_, ?_, ?_, ?_, ?_⟩
  · intro i hi b b2 a hne
    obtain ⟨h1, h2, h3⟩ := gaspi_write_changes (NGRAD * 3) b i w b2 a hne
    have h4 := region_inside w.cd.sendcount w.cd.local_send_offset w.cd (NGRAD * 3) i
      hsend hi
    refine ⟨h1, h2, h3, ?_⟩
    rw [hg]
    exact Nat.lt_of_lt_of_le h3 h4
  · intro i hi a hne
    obtain ⟨h2, h3⟩ := mpidma_write_changes (NGRAD * 3) i w a hne
    have h4 := region_inside w.cd.sendcount w.cd.local_send_offset w.cd (NGRAD * 3) i
      hsend hi
    refine ⟨h2, h3, ?_⟩
    rw [hm]
    show (a : Int) < ((total_count w.cd.sendcount w.cd * (NGRAD * 3) * szd : Nat) : Int)
    exact Int.ofNat_lt.mpr (Nat.lt_of_lt_of_le h3 h4)
  · intro i j hi hj hij
    exact region_disjoint _ _ w.cd (NGRAD * 3) i j hsend hi hj hij
  · intro i hi
    have h4 := region_inside w.cd.recvcount w.cd.local_recv_offset w.cd (NGRAD * 3) i
      hrecv hi
    refine ⟨by rw [hg]; exact h4, ?_⟩
    rw [hm]
    show ((w.cd.local_recv_offset (w.cd.commpartner i)
        + w.cd.recvcount (w.cd.commpartner i) * (NGRAD * 3) * szd : Nat) : Int)
      ≤ ((total_count w.cd.recvcount w.cd * (NGRAD * 3) * szd : Nat) : Int)
    exact Int.ofNat_le.mpr h4
  · intro i j hi hj hij
    exact region_disjoint _ _ w.cd (NGRAD * 3) i j hrecv hi hj hij
  · intro i b w2 hdata hseg
    exact gaspi_copy_out_region _ _ _ (NGRAD * 3) b w2 w hdata hseg
  · intro i w2 hdata hbuf
    exact mpidma_copy_out_region _ _ _ (NGRAD * 3) w2 w hdata hbuf

/-- Witness for C17: the process `layout_world` with two partners and `NGRAD = 1`; its
send regions are the bytes 0..47 and 48..71 of a region of 72 bytes. -/
theorem pack_region_bounds_witness :
    prefix_layout layout_world.cd.sendcount layout_world.cd.local_send_offset
        layout_world.cd (1 * 3)
    ∧ prefix_layout layout_world.cd.recvcount layout_world.cd.local_recv_offset
        layout_world.cd (1 * 3)
    ∧ total_count layout_world.cd.sendcount layout_world.cd * (1 * 3) * szd < 2147483648
    ∧ total_count layout_world.cd.recvcount layout_world.cd * (1 * 3) * szd < 2147483648
    ∧ (gaspi_segment_sizes layout_world.cd (1 * 3)).2 = 72
    ∧ (layout_world.cd.local_send_offset (layout_world.cd.commpartner 0)
          + layout_world.cd.sendcount (layout_world.cd.commpartner 0) * (1 * 3) * szd
        ≤ layout_world.cd.local_send_offset (layout_world.cd.commpartner 1)
      ∨ layout_world.cd.local_send_offset (layout_world.cd.commpartner 1)
          + layout_world.cd.sendcount (layout_world.cd.commpartner 1) * (1 * 3) * szd
        ≤ layout_world.cd.local_send_offset (layout_world.cd.commpartner 0)) :=
  have h1 : prefix_layout layout_world.cd.sendcount layout_world.cd.local_send_offset
      layout_world.cd (1 * 3) := by
    intro i hi
    have hi2 : i < 2 := hi
    interval_cases i <;> decide
  have h2 : prefix_layout layout_world.cd.recvcount layout_world.cd.local_recv_offset
      layout_world.cd (1 * 3) := by
    intro i hi
    have hi2 : i < 2 := hi
    interval_cases i <;> decide
  ⟨h1, h2, by decide, by decide, by decide,
    (pack_region_bounds 1 layout_world h1 h2 (by decide) (by decide)).2.2.2.1 0 1
      (by decide) (by decide) (by decide)⟩

/-! ## The driver of the pipelined active-target variant, whole team -/

/-- The early-wait build, team of two, one call of `exchange_dbl_mpipscw_async` per thread
with `final = 0` on domain `B` of the concrete scenario.  When the calls take effect in
thread order the round issues wait, post, start; when the call of the last thread takes
effect before that of the first thread it issues post, start, wait. -/
theorem early_wait_round_orders :
    (new_events scenario_B_idle
        (team_round (fun t s => exchange_dbl_mpipscw_async true t 2 0 s) 2 [0, 1]
          scenario_B_idle).world).filter Event.is_epoch_mark
      = [Event.win_wait, Event.win_post, Event.win_start]
    ∧ (new_events scenario_B_idle
        (team_round (fun t s => exchange_dbl_mpipscw_async true t 2 0 s) 2 [1, 0]
          scenario_B_idle).world).filter Event.is_epoch_mark
      = [Event.win_post, Event.win_start, Event.win_wait] := by
  constructor <;> decide

/-! ## Rounds of the whole team in any order of the calls -/

end CFDProxy
